import Mathlib

/-!
# LED widget scheduler of the PH60-SC_V2 shield

A shallow embedding of `boards/shields/PH60-SC_V2/led_widgets.c` and
`led_widgets.h`.  The C globals become the fields of `State`; every C function
becomes a function on `State`.  A read outside an array (the pattern table
indexed with a pending slot that holds no valid selector, `commands[i]` with
`i >= 10`, a per-class array indexed outside `LED_EVENT_SIZE`) is undefined
behaviour in C and is `none` here.

The Zephyr calls are modelled by their effect on the device:
`led_set_brightness` / `led_off` write one entry of `leds`, `k_timer_start` /
`k_timer_stop` set one entry of `loop_timers`, and `k_work_schedule` is recorded
as a request (its delay is pushed on `led_widget_work`).
-/

namespace LedWidgets

/-! ## led_widgets.h -/

/-- Scheduler state, `led_state_t`. -/
inductive led_state_t where
  | LED_STATE_IDLE
  | LED_STATE_PAUSE
  | LED_STATE_ACTIVE
  deriving DecidableEq, Repr

open led_state_t

/-- Event class `LED_EVENT_USB`. -/
abbrev LED_EVENT_USB : Nat := 0
/-- Event class `LED_EVENT_BLE`. -/
abbrev LED_EVENT_BLE : Nat := 1
/-- Event class `LED_EVENT_BATTERY`. -/
abbrev LED_EVENT_BATTERY : Nat := 2
/-- Number of event classes, the last enumerator of `led_event_type_t`. -/
abbrev LED_EVENT_SIZE : Nat := 3

/-- One command, `led_cmd_t`: `brightness[NUM_LEDS]` (entries that the
initialiser leaves out are zero) and `timeout` in milliseconds. -/
structure led_cmd_t where
  brightness : List Nat
  timeout : Nat
  deriving DecidableEq, Repr

/-- One pattern, `led_widget_t`; `commands` is the C array `commands[10]`,
entries that the initialiser leaves out are zero. -/
structure led_widget_t where
  arg : Nat
  priority : Nat
  period : Nat
  cmd_len : Nat
  commands : List led_cmd_t
  deriving DecidableEq, Repr

/-- The zero-initialised command that fills the unused tail of `commands[10]`. -/
def led_cmd_zero : led_cmd_t := ⟨[], 0⟩

/-- Array read `widget->commands[i]`; outside the ten entries it is undefined. -/
def commands_at (w : led_widget_t) (i : Nat) : Option led_cmd_t :=
  if i < 10 then some (w.commands.getD i led_cmd_zero) else none

/-- Array read `cmd->brightness[i]`. -/
def brightness_at (cmd : led_cmd_t) (i : Nat) : Nat :=
  cmd.brightness.getD i 0

/-! ## Board data that the two files take from elsewhere -/

/-- What `led_widgets.c` uses but does not define: `NUM_LEDS` and
`led_index_by_key` (from `led_map.h`), the Kconfig value
`CONFIG_ZMK_LED_WIDGETS_MAX_WIDGET_NUM` and the pattern table
`led_widgets[LED_EVENT_SIZE][CONFIG_ZMK_LED_WIDGETS_MAX_WIDGET_NUM]`. -/
structure Board where
  NUM_LEDS : Nat
  led_index_by_key : Nat → Nat
  MAX_WIDGET_NUM : Nat
  led_widgets : Nat → Nat → led_widget_t

/-! ## led_widgets.c: state -/

/-- The file-scope variables of `led_widgets.c` together with the device:
`leds` is the brightness of each LED of the driver, `loop_timers c` is the
period of class `c`'s loop timer when it runs, `led_widget_work` lists the
delays requested with `k_work_schedule`, newest first. -/
structure State where
  state : led_state_t
  active_widget_type : Int
  active_widgets_ind : Nat → Int
  last_widgets_ind : Nat → Int
  led_cmd_ind : Nat
  loop_timers : Nat → Option Nat
  loop_timer_started : Nat → Bool
  leds : Nat → Nat
  led_widget_work : List Nat

/-- Delay of the blanking pause, `PAUSE_TIMEOUT_MS`. -/
abbrev PAUSE_TIMEOUT_MS : Nat := 100

/-- Conversion of a `uint8_t` value to `int8_t`. -/
def int8_of_uint8 (w : Nat) : Int :=
  if w % 256 < 128 then ((w % 256 : Nat) : Int) else ((w % 256 : Nat) : Int) - 256

/-- Table read `LED_ACTIVE_WIDGET_GET(i)`, that is
`led_widgets[i][active_widgets_ind[i]]`; undefined when either index is outside
the table. -/
def LED_ACTIVE_WIDGET_GET (b : Board) (s : State) (i : Nat) : Option led_widget_t :=
  if i < LED_EVENT_SIZE ∧ 0 ≤ s.active_widgets_ind i ∧
      s.active_widgets_ind i < (b.MAX_WIDGET_NUM : Int) then
    some (b.led_widgets i (s.active_widgets_ind i).toNat)
  else none

/-- Status-pattern test, `widget_is_status`: one command and no delay. -/
def widget_is_status (widget : led_widget_t) : Bool :=
  widget.cmd_len == 1 && (widget.commands.getD 0 led_cmd_zero).timeout == 0

/-- Body of the loop of `led_off_all` on the device: `led_off` for positions
`0 .. NUM_LEDS - 1` in order. -/
def leds_off_all (b : Board) (leds : Nat → Nat) : Nat → Nat :=
  (List.range b.NUM_LEDS).foldl (fun l i => Function.update l (b.led_index_by_key i) 0) leds

/-- Turn off all LEDs, `led_off_all`. -/
def led_off_all (b : Board) (s : State) : State :=
  { s with leds := leds_off_all b s.leds }

/-- Brightness loop of `run_widget_cmd` on the device: `led_set_brightness`
of `cmd->brightness[i]` for positions `0 .. NUM_LEDS - 1` in order. -/
def leds_set_cmd (b : Board) (cmd : led_cmd_t) (leds : Nat → Nat) : Nat → Nat :=
  (List.range b.NUM_LEDS).foldl
    (fun l i => Function.update l (b.led_index_by_key i) (brightness_at cmd i)) leds

/-- Request `k_work_schedule(&led_widget_work, K_MSEC(ms))`. -/
def k_work_schedule (s : State) (ms : Nat) : State :=
  { s with led_widget_work := ms :: s.led_widget_work }

/-- The `cmd_ind == 0` block of `run_widget_cmd`: start the class's loop timer
once when the pattern has a period, stop it otherwise. -/
def loop_timer_step0 (s : State) (ev period : Nat) : State :=
  if 0 < period then
    if !s.loop_timer_started ev then
      { s with loop_timers := Function.update s.loop_timers ev (some period),
               loop_timer_started := Function.update s.loop_timer_started ev true }
    else s
  else
    { s with loop_timers := Function.update s.loop_timers ev none,
             loop_timer_started := Function.update s.loop_timer_started ev false }

/-- Execute one command of the pending pattern of class `ev`, `run_widget_cmd`. -/
def run_widget_cmd (b : Board) (s : State) (ev cmd_ind : Nat) : Option State :=
  match LED_ACTIVE_WIDGET_GET b s ev with
  | none => none
  | some active_widget =>
    match commands_at active_widget cmd_ind with
    | none => none
    | some cmd =>
      let s1 := if cmd_ind = 0 then loop_timer_step0 s ev active_widget.period else s
      let s2 := { s1 with leds := leds_set_cmd b cmd s1.leds }
      let s3 := if 0 < cmd.timeout then k_work_schedule s2 cmd.timeout else s2
      let s4 := { s3 with active_widget_type := (ev : Int) }
      if active_widget.cmd_len = cmd_ind + 1 then
        some { s4 with state := LED_STATE_IDLE }
      else
        some { s4 with state := LED_STATE_ACTIVE, led_cmd_ind := cmd_ind }

/-- Pause before a pattern starts, `led_widget_pause`. -/
def led_widget_pause (b : Board) (s : State) : State :=
  k_work_schedule { led_off_all b s with state := LED_STATE_PAUSE } PAUSE_TIMEOUT_MS

/-- One iteration of the search loop of `led_widget_work_cb`; the accumulator
is `(max_priority, active_widget_type)`. -/
def find_step (b : Board) (s : State) (acc : Nat × Int) (i : Nat) : Option (Nat × Int) :=
  if s.active_widgets_ind i ≠ -1 then
    match LED_ACTIVE_WIDGET_GET b s i with
    | some w => if acc.1 < w.priority then some (w.priority, (i : Int)) else some acc
    | none => none
  else some acc

/-- The search loop of `led_widget_work_cb` over `i = 0 .. LED_EVENT_SIZE - 1`,
started with `max_priority = 0` and `active_widget_type = -1`. -/
def find_highest (b : Board) (s : State) : Option (Nat × Int) :=
  (List.range LED_EVENT_SIZE).foldlM (find_step b s) (0, -1)

/-- The bookkeeping at the head of the `LED_STATE_IDLE` case: the finished
class's pending slot moves to its last-shown slot. -/
def idle_clear (s : State) : Option State :=
  if 0 ≤ s.active_widget_type then
    if s.active_widget_type < (LED_EVENT_SIZE : Int) then
      let a := s.active_widget_type.toNat
      some { s with
        last_widgets_ind := Function.update s.last_widgets_ind a (s.active_widgets_ind a),
        active_widgets_ind := Function.update s.active_widgets_ind a (-1) }
    else none
  else some s

/-- Work queue callback, `led_widget_work_cb`: what runs when the delay of
`led_widget_work` expires. -/
def led_widget_work_cb (b : Board) (s : State) : Option State :=
  match s.state with
  | LED_STATE_IDLE =>
    match idle_clear (led_off_all b s) with
    | none => none
    | some s2 =>
      let s3 := { s2 with active_widget_type := -1 }
      match find_highest b s3 with
      | none => none
      | some r =>
        let s4 := { s3 with active_widget_type := r.2 }
        if s4.active_widget_type ≠ -1 then some (led_widget_pause b s4) else some s4
  | LED_STATE_PAUSE =>
    if 0 ≤ s.active_widget_type then run_widget_cmd b s s.active_widget_type.toNat 0 else none
  | LED_STATE_ACTIVE =>
    if 0 ≤ s.active_widget_type then
      run_widget_cmd b (led_off_all b s) s.active_widget_type.toNat ((s.led_cmd_ind + 1) % 256)
    else none

/-- The test `active_widgets_ind[ev] == widget && widget_is_status(...)` at the
head of `led_widget_schedule`; the table is read only when the slot equals
`widget`. -/
def same_status_widget (b : Board) (s : State) (ev widget : Nat) : Option Bool :=
  if s.active_widgets_ind ev = ((widget % 256 : Nat) : Int) then
    (LED_ACTIVE_WIDGET_GET b s ev).map widget_is_status
  else some false

/-- The assignment `active_widgets_ind[ev] = widget`, a `uint8_t` stored in an
`int8_t`. -/
def set_pending (s : State) (ev widget : Nat) : State :=
  { s with active_widgets_ind := Function.update s.active_widgets_ind ev (int8_of_uint8 widget) }

/-- Schedule a pattern, `led_widget_schedule`; `widget` is a `uint8_t`. -/
def led_widget_schedule (b : Board) (s : State) (ev widget : Nat) : Option State :=
  if LED_EVENT_SIZE ≤ ev then none else
  match same_status_widget b s ev widget with
  | none => none
  | some true => some s
  | some false =>
    let s1 := set_pending s ev widget
    if 0 ≤ s1.active_widget_type then
      if s1.state = LED_STATE_PAUSE then some s1
      else
        match LED_ACTIVE_WIDGET_GET b s1 ev,
              LED_ACTIVE_WIDGET_GET b s1 s1.active_widget_type.toNat with
        | some w_ev, some w_active =>
          if w_ev.priority ≤ w_active.priority then some s1
          else if widget_is_status w_ev then run_widget_cmd b (led_off_all b s1) ev 0
          else some (led_widget_pause b { s1 with active_widget_type := (ev : Int) })
        | _, _ => none
    else run_widget_cmd b s1 ev 0

/-- Loop timer handler, `loop_timer_handler`, for the timer of class `ev`. -/
def loop_timer_handler (b : Board) (s : State) (ev : Nat) : Option State :=
  if LED_EVENT_SIZE ≤ ev then none
  else if 0 ≤ s.last_widgets_ind ev then
    led_widget_schedule b s ev (s.last_widgets_ind ev).toNat
  else some s

/-- The variables as `led_widgets_init` and the static initialisers leave
them, with every LED dark. -/
def init_state : State where
  state := LED_STATE_IDLE
  active_widget_type := -1
  active_widgets_ind := fun _ => -1
  last_widgets_ind := fun _ => -1
  led_cmd_ind := 0
  loop_timers := fun _ => none
  loop_timer_started := fun _ => false
  leds := fun _ => 0
  led_widget_work := []

/-- The request that `led_widget_schedule` skips: the slot already holds the
selector and the pattern is a status pattern. -/
def status_noop (b : Board) (s : State) (ev widget : Nat) : Prop :=
  s.active_widgets_ind ev = (widget : Int) ∧ widget_is_status (b.led_widgets ev widget) = true

/-! ## The scheduler as a transition system -/

/-- What makes the scheduler move: a request, the expiry of the delay of
`led_widget_work` (the step timer), the expiry of a class's loop timer. -/
inductive Event where
  | schedule (ev widget : Nat)
  | work_expiry
  | loop_expiry (ev : Nat)
  deriving DecidableEq, Repr

/-- The function that an event calls. -/
def fire (b : Board) (s : State) : Event → Option State
  | Event.schedule ev widget => led_widget_schedule b s ev widget
  | Event.work_expiry => led_widget_work_cb b s
  | Event.loop_expiry ev => loop_timer_handler b s ev

/-- Events the system can produce: a request names a class and a selector that
the table holds and that an `int8_t` slot can store; a loop timer belongs to a
class. -/
def valid_event (b : Board) : Event → Prop
  | Event.schedule ev widget => ev < LED_EVENT_SIZE ∧ widget < b.MAX_WIDGET_NUM ∧ widget < 128
  | Event.work_expiry => True
  | Event.loop_expiry ev => ev < LED_EVENT_SIZE

/-- Run a list of events in order; `none` as soon as one of them is undefined. -/
def run_events (b : Board) (s : State) (es : List Event) : Option State :=
  es.foldlM (fire b) s

/-- States that the system reaches from `init_state`. -/
inductive Reachable (b : Board) : State → Prop
  | init : Reachable b init_state
  | step {s s' : State} (e : Event) :
      Reachable b s → valid_event b e → fire b s e = some s' → Reachable b s'

/-- A slot value that is a selector of the table. -/
def sel_ok (b : Board) (x : Int) : Prop :=
  0 ≤ x ∧ x < (b.MAX_WIDGET_NUM : Int) ∧ x < 128

/-- Well-formedness that every reachable state has: the active class is none
(-1) or a class, outside idle a class owns the outputs, the owner has a valid
pending selector, and every slot is either none or a selector of the table. -/
def Inv (b : Board) (s : State) : Prop :=
  -1 ≤ s.active_widget_type ∧
  (s.state ≠ LED_STATE_IDLE → 0 ≤ s.active_widget_type) ∧
  (0 ≤ s.active_widget_type →
    s.active_widget_type < (LED_EVENT_SIZE : Int) ∧
    sel_ok b (s.active_widgets_ind s.active_widget_type.toNat)) ∧
  (∀ i, s.active_widgets_ind i = -1 ∨ sel_ok b (s.active_widgets_ind i)) ∧
  (∀ i, s.last_widgets_ind i = -1 ∨ sel_ok b (s.last_widgets_ind i))

/-- What the search loop of `led_widget_work_cb` has established after the
classes in `seen`: either nothing is selected and `max_priority` is still 0, or
the selected class is one of `seen`, is pending, and `max_priority` is the
(positive) priority of its pattern; and no pending pattern among `seen` has a
priority above `max_priority`. -/
def scan_inv (b : Board) (s : State) (seen : List Nat) (acc : Nat × Int) : Prop :=
  ((acc.2 = -1 ∧ acc.1 = 0) ∨
    ∃ i w, i ∈ seen ∧ acc.2 = (i : Int) ∧ s.active_widgets_ind i ≠ -1 ∧
      LED_ACTIVE_WIDGET_GET b s i = some w ∧ w.priority = acc.1 ∧ 0 < acc.1) ∧
  ∀ j w, j ∈ seen → s.active_widgets_ind j ≠ -1 →
    LED_ACTIVE_WIDGET_GET b s j = some w → w.priority ≤ acc.1

/-! ## A small board used to evaluate the code -/

/-- Table of the example board: for each class, selector 0 is a timed pattern,
selector 1 a status pattern and selector 2 a timed pattern of higher priority. -/
def demo_widgets (ev sel : Nat) : led_widget_t :=
  match ev, sel with
  | 0, 0 => ⟨0, 4, 2000, 2, [⟨[100, 0], 200⟩, ⟨[0, 100], 200⟩]⟩
  | 0, 1 => ⟨1, 6, 0, 1, [⟨[50, 50], 0⟩]⟩
  | 0, _ => ⟨2, 8, 0, 2, [⟨[10, 10], 300⟩, ⟨[20, 20], 300⟩]⟩
  | 1, 0 => ⟨0, 0, 0, 2, [⟨[30, 0], 150⟩, ⟨[0, 30], 150⟩]⟩
  | 1, 1 => ⟨1, 5, 0, 1, [⟨[40, 40], 0⟩]⟩
  | 1, _ => ⟨2, 3, 0, 2, [⟨[60, 0], 100⟩, ⟨[0, 60], 100⟩]⟩
  | _, 0 => ⟨0, 1, 0, 1, [⟨[5, 5], 0⟩]⟩
  | _, 1 => ⟨1, 10, 0, 3, [⟨[100, 100], 100⟩, ⟨[0, 0], 100⟩, ⟨[100, 100], 100⟩]⟩
  | _, _ => ⟨2, 7, 0, 1, [⟨[70, 70], 500⟩]⟩

/-- Example board: two LEDs wired in reverse order, three selectors per class. -/
def demo_board : Board where
  NUM_LEDS := 2
  led_index_by_key := fun i => 1 - i
  MAX_WIDGET_NUM := 3
  led_widgets := demo_widgets

/-- Example state: the USB class shows step 0 of its selector 0, as after the
request `led_widget_schedule(LED_EVENT_USB, 0)` in `init_state`. -/
def demo_usb_active : State :=
  { init_state with
    state := LED_STATE_ACTIVE
    active_widget_type := 0
    active_widgets_ind := Function.update init_state.active_widgets_ind 0 0
    loop_timers := Function.update init_state.loop_timers 0 (some 2000)
    loop_timer_started := Function.update init_state.loop_timer_started 0 true
    leds := Function.update init_state.leds 1 100
    led_widget_work := [200] }

/-- Example run: the battery class shows its three-step selector 1, the BLE class
requests its selector 0, whose priority is 0, and the step timer expires twice,
which runs the battery pattern to its last step. -/
def demo_low_priority_run : List Event :=
  [Event.schedule 2 1, Event.schedule 1 0, Event.work_expiry, Event.work_expiry]

/-- Example state: what `demo_low_priority_run` reaches from `init_state`; the
battery pattern has run its last step and BLE's request is still pending. -/
def demo_battery_done : State :=
  (run_events demo_board init_state demo_low_priority_run).getD init_state

/-- Example state: USB has requested its status selector 1 in `init_state`. -/
def demo_usb_status_shown : State :=
  (led_widget_schedule demo_board init_state 0 1).getD init_state


/-! ## Where the command executor is called -/

/-- Every position reads zero brightness. -/
def outputs_dark (b : Board) (s : State) : Prop :=
  ∀ p, p < b.NUM_LEDS → s.leds (b.led_index_by_key p) = 0

/-- The call of `run_widget_cmd` that `led_widget_schedule(ev, widget)` makes, as
the state right before the call, the class and the command index: the overlay
branch calls it after `led_off_all`, the branch without an active class calls it
right after the slot is written; `none` when the request returns without running
a command. -/
def schedule_run_call (b : Board) (s : State) (ev widget : Nat) : Option (State × Nat × Nat) :=
  if LED_EVENT_SIZE ≤ ev then none else
  match same_status_widget b s ev widget with
  | some false =>
    let s1 := set_pending s ev widget
    if 0 ≤ s1.active_widget_type then
      if s1.state = LED_STATE_PAUSE then none
      else
        match LED_ACTIVE_WIDGET_GET b s1 ev,
              LED_ACTIVE_WIDGET_GET b s1 s1.active_widget_type.toNat with
        | some w_ev, some w_active =>
          if w_ev.priority ≤ w_active.priority then none
          else if widget_is_status w_ev then some (led_off_all b s1, ev, 0)
          else none
        | _, _ => none
    else some (s1, ev, 0)
  | _ => none

/-- The call of `run_widget_cmd` that `led_widget_work_cb` makes: none in the
idle case, command 0 in the pause case, the next command after `led_off_all` in
the active case. -/
def work_cb_run_call (b : Board) (s : State) : Option (State × Nat × Nat) :=
  match s.state with
  | LED_STATE_IDLE => none
  | LED_STATE_PAUSE =>
    if 0 ≤ s.active_widget_type then some (s, s.active_widget_type.toNat, 0) else none
  | LED_STATE_ACTIVE =>
    if 0 ≤ s.active_widget_type then
      some (led_off_all b s, s.active_widget_type.toNat, (s.led_cmd_ind + 1) % 256)
    else none

/-- The call of `run_widget_cmd` that the handler of an event makes, if any. -/
def run_call (b : Board) (s : State) : Event → Option (State × Nat × Nat)
  | Event.schedule ev widget => schedule_run_call b s ev widget
  | Event.work_expiry => work_cb_run_call b s
  | Event.loop_expiry ev =>
    if LED_EVENT_SIZE ≤ ev then none
    else if 0 ≤ s.last_widgets_ind ev then
      schedule_run_call b s ev (s.last_widgets_ind ev).toNat
    else none

/-- Example run: USB requests its two-step selector 0 and, while step 0 is
shown, its one-step selector 1. -/
def demo_shortened_run : List Event :=
  [Event.schedule 0 0, Event.schedule 0 1]

/-- Example state: what `demo_shortened_run` reaches from `init_state`. -/
def demo_usb_shortened : State :=
  (run_events demo_board init_state demo_shortened_run).getD init_state

/-! ## Which pattern a loop timer belongs to -/

/-- A state together with two records kept per class: `recent c` is the period
of the pattern whose step 0 was most recently run for class `c`, and `origin c`
the period of the pattern whose step 0 was most recently run for `c` while
`loop_timer_started[c]` was false. -/
structure Tracked where
  st : State
  recent : Nat → Option Nat
  origin : Nat → Option Nat

/-- An event on a tracked state: the state moves as `fire` says, and when the
handler runs command 0 of the pending pattern of a class (see `run_call`) the
records of that class are brought up to date. -/
def track (b : Board) (x : Tracked) (e : Event) : Option Tracked :=
  match fire b x.st e with
  | none => none
  | some s' =>
    match run_call b x.st e with
    | some (t, c, i) =>
      match LED_ACTIVE_WIDGET_GET b t c with
      | some w =>
        if i = 0 then
          some ⟨s', Function.update x.recent c (some w.period),
            if t.loop_timer_started c = true then x.origin
            else Function.update x.origin c (some w.period)⟩
        else some ⟨s', x.recent, x.origin⟩
      | none => some ⟨s', x.recent, x.origin⟩
    | none => some ⟨s', x.recent, x.origin⟩

/-- The initial state, with no step 0 run yet. -/
def tracked_init : Tracked := ⟨init_state, fun _ => none, fun _ => none⟩

/-- Tracked states that the system reaches from `tracked_init`. -/
inductive TrackedReachable (b : Board) : Tracked → Prop
  | init : TrackedReachable b tracked_init
  | step {x x' : Tracked} (e : Event) :
      TrackedReachable b x → valid_event b e → track b x e = some x' → TrackedReachable b x'

/-- Run a list of events on a tracked state. -/
def track_events (b : Board) (x : Tracked) (es : List Event) : Option Tracked :=
  es.foldlM (track b) x

/-- Table of the second example board, the same for every class: selector 0
loops every 2000 ms, selector 1 every 1000 ms, and selector 2 loops every
2000 ms but ends with a command of timeout 0. -/
def demo_loop_widgets (_ev sel : Nat) : led_widget_t :=
  match sel with
  | 0 => ⟨0, 4, 2000, 2, [⟨[100, 0], 200⟩, ⟨[0, 100], 200⟩]⟩
  | 1 => ⟨1, 4, 1000, 2, [⟨[50, 0], 100⟩, ⟨[0, 50], 100⟩]⟩
  | _ => ⟨2, 4, 2000, 2, [⟨[100, 0], 200⟩, ⟨[0, 100], 0⟩]⟩

/-- Second example board: two LEDs wired in order, three looping selectors. -/
def demo_loop_board : Board where
  NUM_LEDS := 2
  led_index_by_key := fun i => i
  MAX_WIDGET_NUM := 3
  led_widgets := demo_loop_widgets

/-- Example run on the second board: USB plays its selector 0 to the end, the
idle handler runs, and USB requests its selector 1. -/
def demo_period_run : List Event :=
  [Event.schedule 0 0, Event.work_expiry, Event.work_expiry, Event.schedule 0 1]

/-- Example tracked state: what `demo_period_run` reaches. -/
def demo_period_kept : Tracked :=
  (track_events demo_loop_board tracked_init demo_period_run).getD tracked_init

/-! ## A looping pattern left alone -/

/-- The step timer expires as long as the last transition has requested it:
`seen` is the number of requests made before that transition, `fuel` bounds the
number of expiries (`none` when it does not suffice). -/
def expire_armed (b : Board) : Nat → Nat → State → Option State
  | 0, seen, s => if seen < s.led_widget_work.length then none else some s
  | fuel + 1, seen, s =>
    if seen < s.led_widget_work.length then
      match led_widget_work_cb b s with
      | none => none
      | some s' => expire_armed b fuel s.led_widget_work.length s'
    else some s

/-- The state in which the loop timer of class `c` finds the system at its
expiry number `k` (from 0) after `led_widget_schedule(c, widget)` in the initial
state, when nothing else is requested and the step timer expires each time it
has been requested. -/
def loop_rest (b : Board) (c widget : Nat) : Nat → Option State
  | 0 =>
    (led_widget_schedule b init_state c widget).bind
      (expire_armed b 16 init_state.led_widget_work.length)
  | k + 1 =>
    (loop_rest b c widget k).bind fun r =>
      (loop_timer_handler b r c).bind (expire_armed b 16 r.led_widget_work.length)

/-- Class `c` is the only one with a pending selector, `widget`, command `k` of
its pattern has just run, and its loop timer runs with the pattern's period. -/
def playing (b : Board) (c widget k : Nat) (t : State) : Prop :=
  t.active_widget_type = (c : Int) ∧ t.active_widgets_ind c = (widget : Int) ∧
  (∀ c', c' ≠ c → t.active_widgets_ind c' = -1) ∧
  t.state = (if (b.led_widgets c widget).cmd_len = k + 1 then LED_STATE_IDLE
    else LED_STATE_ACTIVE) ∧
  ((b.led_widgets c widget).cmd_len ≠ k + 1 → t.led_cmd_ind = k) ∧
  t.loop_timers c = some (b.led_widgets c widget).period ∧
  t.loop_timer_started c = true

/-- The pattern of class `c` has finished and has been cleared by the idle
handler: nothing is pending or active, `widget` is recorded as last shown, the
outputs are dark and the loop timer of `c` still runs. -/
def resting (b : Board) (c widget : Nat) (r : State) : Prop :=
  r.state = LED_STATE_IDLE ∧ r.active_widget_type = -1 ∧
  (∀ c', r.active_widgets_ind c' = -1) ∧
  r.last_widgets_ind c = (widget : Int) ∧
  r.loop_timers c = some (b.led_widgets c widget).period ∧
  r.loop_timer_started c = true ∧ outputs_dark b r

/-- Example state on the second board: USB's first display of its selector 2,
whose last command has timeout 0. -/
def demo_unheld_first : State :=
  (led_widget_schedule demo_loop_board init_state 0 2).getD init_state

/-- Example state on the second board: where the first loop-timer expiry finds
the system after that request. -/
def demo_unheld_rest : State :=
  (loop_rest demo_loop_board 0 2 0).getD init_state

/-! ## Basic facts about the embedding -/

theorem int8_of_uint8_of_lt {w : Nat} (h : w < 128) : int8_of_uint8 w = (w : Int) := by
  have h1 : w % 256 = w := Nat.mod_eq_of_lt (by omega)
  simp [int8_of_uint8, h1, h]

theorem get_of_slot {b : Board} {s : State} {i w : Nat} (hi : i < LED_EVENT_SIZE)
    (hw : w < b.MAX_WIDGET_NUM) (hs : s.active_widgets_ind i = (w : Int)) :
    LED_ACTIVE_WIDGET_GET b s i = some (b.led_widgets i w) := by
  simp [LED_ACTIVE_WIDGET_GET, hs, hi, hw]

theorem set_pending_slot_same (s : State) (ev widget : Nat) (hw8 : widget < 128) :
    (set_pending s ev widget).active_widgets_ind ev = (widget : Int) := by
  simp [set_pending, int8_of_uint8_of_lt hw8]

theorem set_pending_slot_ne (s : State) (ev widget c : Nat) (h : c ≠ ev) :
    (set_pending s ev widget).active_widgets_ind c = s.active_widgets_ind c := by
  simp [set_pending, Function.update_noteq h]

theorem get_set_pending_same {b : Board} (s : State) {ev widget : Nat}
    (hev : ev < LED_EVENT_SIZE) (hw : widget < b.MAX_WIDGET_NUM) (hw8 : widget < 128) :
    LED_ACTIVE_WIDGET_GET b (set_pending s ev widget) ev = some (b.led_widgets ev widget) :=
  get_of_slot hev hw (set_pending_slot_same s ev widget hw8)

theorem get_set_pending_ne {b : Board} (s : State) {ev c : Nat} (widget : Nat) (h : c ≠ ev) :
    LED_ACTIVE_WIDGET_GET b (set_pending s ev widget) c = LED_ACTIVE_WIDGET_GET b s c := by
  simp [LED_ACTIVE_WIDGET_GET, set_pending_slot_ne s ev widget c h]

theorem same_status_of_noop {b : Board} {s : State} {ev widget : Nat}
    (hev : ev < LED_EVENT_SIZE) (hw : widget < b.MAX_WIDGET_NUM) (hw8 : widget < 128)
    (h : status_noop b s ev widget) : same_status_widget b s ev widget = some true := by
  have h256 : widget % 256 = widget := Nat.mod_eq_of_lt (by omega)
  simp [same_status_widget, h256, h.1, get_of_slot hev hw h.1, h.2]

theorem same_status_of_not_noop {b : Board} {s : State} {ev widget : Nat}
    (hev : ev < LED_EVENT_SIZE) (hw : widget < b.MAX_WIDGET_NUM) (hw8 : widget < 128)
    (h : ¬ status_noop b s ev widget) : same_status_widget b s ev widget = some false := by
  have h256 : widget % 256 = widget := Nat.mod_eq_of_lt (by omega)
  by_cases hslot : s.active_widgets_ind ev = (widget : Int)
  · have hst : widget_is_status (b.led_widgets ev widget) = false := by
      cases hq : widget_is_status (b.led_widgets ev widget)
      · rfl
      · exact absurd ⟨hslot, hq⟩ h
    simp [same_status_widget, h256, hslot, get_of_slot hev hw hslot, hst]
  · simp [same_status_widget, h256, hslot]

theorem schedule_of_noop {b : Board} {s : State} {ev widget : Nat}
    (hev : ev < LED_EVENT_SIZE) (hw : widget < b.MAX_WIDGET_NUM) (hw8 : widget < 128)
    (h : status_noop b s ev widget) : led_widget_schedule b s ev widget = some s := by
  have hev' : ¬ LED_EVENT_SIZE ≤ ev := by omega
  simp only [led_widget_schedule, if_neg hev', same_status_of_noop hev hw hw8 h]

theorem schedule_of_paused {b : Board} {s : State} {ev widget : Nat}
    (hev : ev < LED_EVENT_SIZE) (hn : same_status_widget b s ev widget = some false)
    (hact : 0 ≤ s.active_widget_type) (hp : s.state = LED_STATE_PAUSE) :
    led_widget_schedule b s ev widget = some (set_pending s ev widget) := by
  have hev' : ¬ LED_EVENT_SIZE ≤ ev := by omega
  have h1 : 0 ≤ (set_pending s ev widget).active_widget_type := hact
  have h2 : (set_pending s ev widget).state = LED_STATE_PAUSE := hp
  simp only [led_widget_schedule, if_neg hev', hn, if_pos h1, if_pos h2]

theorem schedule_of_not_paused {b : Board} {s : State} {ev widget : Nat} {w_ev w_active : led_widget_t}
    (hev : ev < LED_EVENT_SIZE) (hn : same_status_widget b s ev widget = some false)
    (hact : 0 ≤ s.active_widget_type) (hp : s.state ≠ LED_STATE_PAUSE)
    (h1 : LED_ACTIVE_WIDGET_GET b (set_pending s ev widget) ev = some w_ev)
    (h2 : LED_ACTIVE_WIDGET_GET b (set_pending s ev widget) s.active_widget_type.toNat
      = some w_active) :
    led_widget_schedule b s ev widget =
      if w_ev.priority ≤ w_active.priority then some (set_pending s ev widget)
      else if widget_is_status w_ev then
        run_widget_cmd b (led_off_all b (set_pending s ev widget)) ev 0
      else some (led_widget_pause b
        { set_pending s ev widget with active_widget_type := (ev : Int) }) := by
  have hev' : ¬ LED_EVENT_SIZE ≤ ev := by omega
  have h3 : 0 ≤ (set_pending s ev widget).active_widget_type := hact
  have h4 : ¬ (set_pending s ev widget).state = LED_STATE_PAUSE := hp
  have h5 : (set_pending s ev widget).active_widget_type = s.active_widget_type := rfl
  simp only [led_widget_schedule, if_neg hev', hn, if_pos h3, if_neg h4, h1, h5, h2, if_pos hact]

theorem schedule_of_no_active {b : Board} {s : State} {ev widget : Nat}
    (hev : ev < LED_EVENT_SIZE) (hn : same_status_widget b s ev widget = some false)
    (hact : ¬ 0 ≤ s.active_widget_type) :
    led_widget_schedule b s ev widget = run_widget_cmd b (set_pending s ev widget) ev 0 := by
  have hev' : ¬ LED_EVENT_SIZE ≤ ev := by omega
  have h3 : ¬ 0 ≤ (set_pending s ev widget).active_widget_type := hact
  simp only [led_widget_schedule, if_neg hev', hn, if_neg h3]

/-! ## Requests while a class is active -/

/-- C1. While a class is active, a request of a valid selector made while the
scheduler is paused, or whose pattern has a priority not above that of the active
class's pending pattern, only writes the requesting class's pending slot: the
scheduler state, the active class, the step index, the last-shown slots, the
outputs, the step-timer requests and the loop timers are as before the call.
(This also covers the skipped status request, which writes nothing.) -/
theorem schedule_no_preempt (b : Board) (s : State) (ev widget : Nat)
    (hev : ev < LED_EVENT_SIZE) (hw : widget < b.MAX_WIDGET_NUM) (hw8 : widget < 128)
    (hact : 0 ≤ s.active_widget_type)
    (h : s.state = LED_STATE_PAUSE ∨
      ∃ w_active, LED_ACTIVE_WIDGET_GET b s s.active_widget_type.toNat = some w_active ∧
        (b.led_widgets ev widget).priority ≤ w_active.priority) :
    ∃ s', led_widget_schedule b s ev widget = some s' ∧
      s'.state = s.state ∧ s'.active_widget_type = s.active_widget_type ∧
      s'.led_cmd_ind = s.led_cmd_ind ∧ s'.last_widgets_ind = s.last_widgets_ind ∧
      s'.leds = s.leds ∧ s'.led_widget_work = s.led_widget_work ∧
      s'.loop_timers = s.loop_timers ∧ s'.loop_timer_started = s.loop_timer_started ∧
      s'.active_widgets_ind ev = (widget : Int) ∧
      ∀ c, c ≠ ev → s'.active_widgets_ind c = s.active_widgets_ind c := by
  by_cases hno : status_noop b s ev widget
  · exact ⟨s, schedule_of_noop hev hw hw8 hno, rfl, rfl, rfl, rfl, rfl, rfl, rfl, rfl,
      hno.1, fun _ _ => rfl⟩
  · have hn := same_status_of_not_noop hev hw hw8 hno
    refine ⟨set_pending s ev widget, ?_, rfl, rfl, rfl, rfl, rfl, rfl, rfl, rfl,
      set_pending_slot_same s ev widget hw8, fun c hc => set_pending_slot_ne s ev widget c hc⟩
    by_cases hp : s.state = LED_STATE_PAUSE
    · exact schedule_of_paused hev hn hact hp
    · rcases h with h | ⟨w_active, hga, hle⟩
      · exact absurd h hp
      · have h1 := get_set_pending_same (b := b) s hev hw hw8
        by_cases hc : s.active_widget_type.toNat = ev
        · have h2 : LED_ACTIVE_WIDGET_GET b (set_pending s ev widget) s.active_widget_type.toNat
              = some (b.led_widgets ev widget) := by rw [hc]; exact h1
          rw [schedule_of_not_paused hev hn hact hp h1 h2, if_pos (le_refl _)]
        · rw [schedule_of_not_paused hev hn hact hp h1
            ((get_set_pending_ne s widget hc).trans hga), if_pos hle]

/-- Instance of C1 on the example board: while USB shows its selector 0
(priority 4), BLE requests its selector 2 (priority 3). -/
theorem schedule_no_preempt_witness :
    ∃ s', led_widget_schedule demo_board demo_usb_active 1 2 = some s' ∧
      s'.state = demo_usb_active.state ∧
      s'.active_widget_type = demo_usb_active.active_widget_type ∧
      s'.led_cmd_ind = demo_usb_active.led_cmd_ind ∧
      s'.last_widgets_ind = demo_usb_active.last_widgets_ind ∧
      s'.leds = demo_usb_active.leds ∧
      s'.led_widget_work = demo_usb_active.led_widget_work ∧
      s'.loop_timers = demo_usb_active.loop_timers ∧
      s'.loop_timer_started = demo_usb_active.loop_timer_started ∧
      s'.active_widgets_ind 1 = ((2 : Nat) : Int) ∧
      ∀ c, c ≠ 1 → s'.active_widgets_ind c = demo_usb_active.active_widgets_ind c :=
  schedule_no_preempt demo_board demo_usb_active 1 2 (by decide) (by decide) (by decide)
    (by decide) (Or.inr ⟨_, rfl, by decide⟩)

/-! ## The outputs -/

theorem leds_off_all_succ (b : Board) (leds : Nat → Nat) (n : Nat) :
    (List.range (n + 1)).foldl (fun l i => Function.update l (b.led_index_by_key i) 0) leds
      = Function.update
          ((List.range n).foldl (fun l i => Function.update l (b.led_index_by_key i) 0) leds)
          (b.led_index_by_key n) 0 := by
  rw [List.range_succ, List.foldl_append]
  rfl

/-- After `led_off_all` every position reads zero. -/
theorem leds_off_all_zero (b : Board) (leds : Nat → Nat) (p : Nat) (hp : p < b.NUM_LEDS) :
    leds_off_all b leds (b.led_index_by_key p) = 0 := by
  unfold leds_off_all
  generalize b.NUM_LEDS = n at hp
  induction n with
  | zero => omega
  | succ n ih =>
    rw [leds_off_all_succ]
    by_cases hx : b.led_index_by_key p = b.led_index_by_key n
    · rw [hx, Function.update_same]
    · rw [Function.update_noteq hx]
      by_cases hpn : p = n
      · exact absurd (hpn ▸ rfl) hx
      · exact ih (by omega)

/-- An LED that no position is wired to keeps its brightness in `led_off_all`. -/
theorem leds_off_all_other (b : Board) (leds : Nat → Nat) (x : Nat)
    (hx : ∀ p, p < b.NUM_LEDS → b.led_index_by_key p ≠ x) :
    leds_off_all b leds x = leds x := by
  unfold leds_off_all
  generalize b.NUM_LEDS = n at hx
  induction n with
  | zero => rfl
  | succ n ih =>
    rw [leds_off_all_succ, Function.update_noteq (Ne.symm (hx n (by omega)))]
    exact ih (fun p hp => hx p (by omega))

theorem leds_set_cmd_succ (b : Board) (cmd : led_cmd_t) (leds : Nat → Nat) (n : Nat) :
    (List.range (n + 1)).foldl
        (fun l i => Function.update l (b.led_index_by_key i) (brightness_at cmd i)) leds
      = Function.update
          ((List.range n).foldl
            (fun l i => Function.update l (b.led_index_by_key i) (brightness_at cmd i)) leds)
          (b.led_index_by_key n) (brightness_at cmd n) := by
  rw [List.range_succ, List.foldl_append]
  rfl

/-- After the brightness loop a position reads its own value of the command,
unless a later position is wired to the same LED. -/
theorem leds_set_cmd_at (b : Board) (cmd : led_cmd_t) (leds : Nat → Nat) (p : Nat)
    (hp : p < b.NUM_LEDS)
    (hq : ∀ q, p < q → q < b.NUM_LEDS → b.led_index_by_key q ≠ b.led_index_by_key p) :
    leds_set_cmd b cmd leds (b.led_index_by_key p) = brightness_at cmd p := by
  unfold leds_set_cmd
  generalize b.NUM_LEDS = n at hp hq
  induction n with
  | zero => omega
  | succ n ih =>
    rw [leds_set_cmd_succ]
    by_cases hpn : p = n
    · subst hpn
      rw [Function.update_same]
    · have hlt : p < n := by omega
      rw [Function.update_noteq (Ne.symm (hq n hlt (by omega)))]
      exact ih hlt (fun q h1 h2 => hq q h1 (by omega))

/-- An LED that no position is wired to keeps its brightness in the brightness
loop. -/
theorem leds_set_cmd_other (b : Board) (cmd : led_cmd_t) (leds : Nat → Nat) (x : Nat)
    (hx : ∀ p, p < b.NUM_LEDS → b.led_index_by_key p ≠ x) :
    leds_set_cmd b cmd leds x = leds x := by
  unfold leds_set_cmd
  generalize b.NUM_LEDS = n at hx
  induction n with
  | zero => rfl
  | succ n ih =>
    rw [leds_set_cmd_succ, Function.update_noteq (Ne.symm (hx n (by omega)))]
    exact ih (fun p hp => hx p (by omega))

/-! ## The command executor -/

theorem loop_timer_step0_fields (s : State) (ev period : Nat) :
    (loop_timer_step0 s ev period).state = s.state ∧
    (loop_timer_step0 s ev period).active_widget_type = s.active_widget_type ∧
    (loop_timer_step0 s ev period).active_widgets_ind = s.active_widgets_ind ∧
    (loop_timer_step0 s ev period).last_widgets_ind = s.last_widgets_ind ∧
    (loop_timer_step0 s ev period).led_cmd_ind = s.led_cmd_ind ∧
    (loop_timer_step0 s ev period).leds = s.leds ∧
    (loop_timer_step0 s ev period).led_widget_work = s.led_widget_work := by
  unfold loop_timer_step0
  split
  · split <;> simp
  · simp

/-- What `run_widget_cmd` leaves behind when it returns: the slots are not
touched, the class becomes the active one, the outputs take the command's
brightness, the step timer is requested when the command has a delay, and the
state is idle after the last command and active otherwise. -/
theorem run_widget_cmd_spec {b : Board} {s s' : State} {ev cmd_ind : Nat}
    (h : run_widget_cmd b s ev cmd_ind = some s') :
    ∃ w cmd, LED_ACTIVE_WIDGET_GET b s ev = some w ∧ commands_at w cmd_ind = some cmd ∧
      s'.active_widgets_ind = s.active_widgets_ind ∧
      s'.last_widgets_ind = s.last_widgets_ind ∧
      s'.active_widget_type = (ev : Int) ∧
      s'.leds = leds_set_cmd b cmd s.leds ∧
      s'.led_widget_work =
        (if 0 < cmd.timeout then cmd.timeout :: s.led_widget_work else s.led_widget_work) ∧
      s'.state = (if w.cmd_len = cmd_ind + 1 then LED_STATE_IDLE else LED_STATE_ACTIVE) ∧
      s'.led_cmd_ind = (if w.cmd_len = cmd_ind + 1 then s.led_cmd_ind else cmd_ind) ∧
      s'.loop_timers =
        (if cmd_ind = 0 then (loop_timer_step0 s ev w.period).loop_timers else s.loop_timers) ∧
      s'.loop_timer_started =
        (if cmd_ind = 0 then (loop_timer_step0 s ev w.period).loop_timer_started
         else s.loop_timer_started) := by
  unfold run_widget_cmd at h
  cases hg : LED_ACTIVE_WIDGET_GET b s ev with
  | none => simp [hg] at h
  | some w =>
    cases hc : commands_at w cmd_ind with
    | none => simp [hg, hc] at h
    | some cmd =>
      refine ⟨w, cmd, rfl, hc, ?_⟩
      simp only [hg, hc] at h
      obtain ⟨-, -, hl3, hl4, hl5, hl6, hl7⟩ := loop_timer_step0_fields s ev w.period
      split at h <;> cases h <;> split_ifs <;>
        simp_all [k_work_schedule]

/-- The command executor returns whenever the class has a valid pending selector
and the command index is inside `commands[10]`. -/
theorem run_widget_cmd_some {b : Board} {s : State} {ev cmd_ind : Nat} {w : led_widget_t}
    (hg : LED_ACTIVE_WIDGET_GET b s ev = some w) (hi : cmd_ind < 10) :
    ∃ s', run_widget_cmd b s ev cmd_ind = some s' := by
  unfold run_widget_cmd
  simp only [hg, commands_at, if_pos hi]
  split <;> exact ⟨_, rfl⟩

/-! ## Reachable states -/

theorem reachable_run_events {b : Board} :
    ∀ (es : List Event) (s s' : State), Reachable b s → (∀ e, e ∈ es → valid_event b e) →
      run_events b s es = some s' → Reachable b s' := by
  intro es
  induction es with
  | nil =>
    intro s s' hr _ h
    cases h
    exact hr
  | cons e es ih =>
    intro s s' hr hv h
    unfold run_events at h
    rw [List.foldlM_cons] at h
    cases hf : fire b s e with
    | none => simp [hf] at h
    | some s1 =>
      simp only [hf, Option.some_bind, Option.bind_eq_bind] at h
      exact ih s1 s' (Reachable.step e hr (hv e (by simp)) hf)
        (fun e' he' => hv e' (List.mem_cons_of_mem _ he')) h

theorem demo_usb_status_shown_reachable : Reachable demo_board demo_usb_status_shown :=
  Reachable.step (Event.schedule 0 1) Reachable.init ⟨by decide, by decide, by decide⟩ rfl

theorem demo_battery_done_reachable : Reachable demo_board demo_battery_done := by
  refine reachable_run_events demo_low_priority_run init_state _ Reachable.init ?_ rfl
  intro e he
  simp only [demo_low_priority_run, List.mem_cons, List.mem_singleton, List.mem_nil_iff,
    or_false] at he
  rcases he with rfl | rfl | rfl | rfl
  · exact ⟨by decide, by decide, by decide⟩
  · exact ⟨by decide, by decide, by decide⟩
  · exact trivial
  · exact trivial

theorem demo_usb_active_leds :
    ((led_widget_schedule demo_board init_state 0 0).getD init_state).leds
      = demo_usb_active.leds := by
  funext x
  show leds_set_cmd demo_board ⟨[100, 0], 200⟩ init_state.leds x
    = Function.update init_state.leds 1 100 x
  rcases x with _ | _ | x
  · rfl
  · rfl
  · simp [leds_set_cmd, demo_board, List.range_succ, Function.update, init_state]

/-- The example state `demo_usb_active` is what USB's request of selector 0
returns in the initial state. -/
theorem schedule_init_usb :
    led_widget_schedule demo_board init_state 0 0 = some demo_usb_active := by
  have h1 : led_widget_schedule demo_board init_state 0 0
      = some ((led_widget_schedule demo_board init_state 0 0).getD init_state) := rfl
  have h2 : (led_widget_schedule demo_board init_state 0 0).getD init_state
      = demo_usb_active :=
    calc (led_widget_schedule demo_board init_state 0 0).getD init_state
        = { (led_widget_schedule demo_board init_state 0 0).getD init_state with
            leds := ((led_widget_schedule demo_board init_state 0 0).getD init_state).leds } :=
          rfl
      _ = { (led_widget_schedule demo_board init_state 0 0).getD init_state with
            leds := demo_usb_active.leds } := by rw [demo_usb_active_leds]
      _ = demo_usb_active := rfl
  rw [h1, h2]

theorem demo_usb_active_reachable : Reachable demo_board demo_usb_active :=
  Reachable.step (Event.schedule 0 0) Reachable.init ⟨by decide, by decide, by decide⟩
    schedule_init_usb


theorem not_noop_of_not_status {b : Board} {s : State} {ev widget : Nat}
    (h : widget_is_status (b.led_widgets ev widget) = false) : ¬ status_noop b s ev widget := by
  intro hn
  rw [hn.2] at h
  exact Bool.noConfusion h

theorem not_noop_of_slot_ne {b : Board} {s : State} {ev widget : Nat}
    (h : s.active_widgets_ind ev ≠ (widget : Int)) : ¬ status_noop b s ev widget :=
  fun hn => h hn.1

theorem toNat_of_eq_cast {x : Int} {a : Nat} (h : x = (a : Int)) : x.toNat = a := by
  rw [h]; exact Int.toNat_ofNat a

/-- C2, as amended. While class `a` is active and the scheduler is not paused, a
request of another class `ev ≠ a` whose pattern is not a status pattern and has a
priority above that of `a`'s pending pattern leaves the scheduler paused with
active class `ev`, every output dark, the step timer requested for 100 ms and
`a`'s pending slot as it was. -/
theorem schedule_preempt_other_class (b : Board) (s : State) (ev widget a : Nat)
    (w_active : led_widget_t)
    (hev : ev < LED_EVENT_SIZE) (hw : widget < b.MAX_WIDGET_NUM) (hw8 : widget < 128)
    (ha : s.active_widget_type = (a : Int)) (hne : ev ≠ a)
    (hp : s.state ≠ LED_STATE_PAUSE)
    (hga : LED_ACTIVE_WIDGET_GET b s a = some w_active)
    (hst : widget_is_status (b.led_widgets ev widget) = false)
    (hgt : w_active.priority < (b.led_widgets ev widget).priority) :
    ∃ s', led_widget_schedule b s ev widget = some s' ∧
      s'.state = LED_STATE_PAUSE ∧ s'.active_widget_type = (ev : Int) ∧
      (∀ p, p < b.NUM_LEDS → s'.leds (b.led_index_by_key p) = 0) ∧
      s'.led_widget_work = PAUSE_TIMEOUT_MS :: s.led_widget_work ∧
      s'.active_widgets_ind a = s.active_widgets_ind a := by
  have hn := same_status_of_not_noop (s := s) hev hw hw8 (not_noop_of_not_status hst)
  have hact : 0 ≤ s.active_widget_type := by rw [ha]; exact Int.ofNat_nonneg a
  have h1 := get_set_pending_same (b := b) s hev hw hw8
  have h2 : LED_ACTIVE_WIDGET_GET b (set_pending s ev widget) s.active_widget_type.toNat
      = some w_active := by
    rw [toNat_of_eq_cast ha, get_set_pending_ne s widget (Ne.symm hne)]; exact hga
  have hres : led_widget_schedule b s ev widget = some (led_widget_pause b
      { set_pending s ev widget with active_widget_type := (ev : Int) }) := by
    rw [schedule_of_not_paused hev hn hact hp h1 h2, if_neg (by omega), hst]
    rfl
  refine ⟨_, hres, rfl, rfl, fun p hp => leds_off_all_zero b _ p hp, rfl, ?_⟩
  exact set_pending_slot_ne s ev widget a (Ne.symm hne)

/-- Instance of the amended C2 on the example board: while USB shows its
selector 0, the battery class requests its three-step selector 1. -/
theorem schedule_preempt_other_class_witness :
    ∃ s', led_widget_schedule demo_board demo_usb_active 2 1 = some s' ∧
      s'.state = LED_STATE_PAUSE ∧ s'.active_widget_type = (2 : Int) ∧
      (∀ p, p < demo_board.NUM_LEDS → s'.leds (demo_board.led_index_by_key p) = 0) ∧
      s'.led_widget_work = PAUSE_TIMEOUT_MS :: demo_usb_active.led_widget_work ∧
      s'.active_widgets_ind 0 = demo_usb_active.active_widgets_ind 0 :=
  schedule_preempt_other_class demo_board demo_usb_active 2 1 0 (demo_widgets 0 0)
    (by decide) (by decide) (by decide) rfl (by decide) (by decide) rfl rfl (by decide)

/-- C2 fails as stated when the request comes from the active class itself: USB
shows its selector 0 (priority 4) and requests its selector 2 (priority 8, two
steps); the call only overwrites the slot, the scheduler stays active, the
outputs keep their brightness and no pause is requested. -/
theorem schedule_preempt_same_class_counterexample :
    Reachable demo_board demo_usb_active ∧
    demo_usb_active.active_widget_type = 0 ∧
    demo_usb_active.state ≠ LED_STATE_PAUSE ∧
    widget_is_status (demo_board.led_widgets 0 2) = false ∧
    (∃ w_active, LED_ACTIVE_WIDGET_GET demo_board demo_usb_active 0 = some w_active ∧
      w_active.priority < (demo_board.led_widgets 0 2).priority) ∧
    ∃ s', led_widget_schedule demo_board demo_usb_active 0 2 = some s' ∧
      s'.state ≠ LED_STATE_PAUSE ∧
      s'.leds (demo_board.led_index_by_key 0) ≠ 0 ∧
      s'.led_widget_work ≠ PAUSE_TIMEOUT_MS :: demo_usb_active.led_widget_work ∧
      s'.active_widgets_ind 0 ≠ demo_usb_active.active_widgets_ind 0 :=
  ⟨demo_usb_active_reachable, rfl, by decide, rfl, ⟨_, rfl, by decide⟩,
    ⟨set_pending demo_usb_active 0 2, rfl, by decide, by decide, by decide, by decide⟩⟩

/-- C3, as amended. While class `a` is active and the scheduler is not paused, a
request of another class `ev ≠ a` for a status pattern of priority above that of
`a`'s pending pattern, with a selector other than the one pending for `ev`, blanks
the outputs and writes the brightness of the pattern's single step in the same
call (a position reads its value unless a later position shares its LED); the
scheduler is left idle, not paused, no step timer is requested, and `a`'s pending
slot and all last-shown slots are as before. -/
theorem schedule_status_overlay_other_class (b : Board) (s : State) (ev widget a : Nat)
    (w_active : led_widget_t)
    (hev : ev < LED_EVENT_SIZE) (hw : widget < b.MAX_WIDGET_NUM) (hw8 : widget < 128)
    (ha : s.active_widget_type = (a : Int)) (hne : ev ≠ a)
    (hp : s.state ≠ LED_STATE_PAUSE)
    (hga : LED_ACTIVE_WIDGET_GET b s a = some w_active)
    (hst : widget_is_status (b.led_widgets ev widget) = true)
    (hgt : w_active.priority < (b.led_widgets ev widget).priority)
    (hnew : s.active_widgets_ind ev ≠ (widget : Int)) :
    ∃ s', led_widget_schedule b s ev widget = some s' ∧
      s'.leds = leds_set_cmd b ((b.led_widgets ev widget).commands.getD 0 led_cmd_zero)
        (leds_off_all b s.leds) ∧
      (∀ p, p < b.NUM_LEDS →
        (∀ q, p < q → q < b.NUM_LEDS → b.led_index_by_key q ≠ b.led_index_by_key p) →
        s'.leds (b.led_index_by_key p)
          = brightness_at ((b.led_widgets ev widget).commands.getD 0 led_cmd_zero) p) ∧
      s'.state = LED_STATE_IDLE ∧ s'.state ≠ LED_STATE_PAUSE ∧
      s'.led_widget_work = s.led_widget_work ∧
      s'.active_widgets_ind a = s.active_widgets_ind a ∧
      s'.last_widgets_ind = s.last_widgets_ind := by
  have hn := same_status_of_not_noop (s := s) hev hw hw8 (not_noop_of_slot_ne hnew)
  have hact : 0 ≤ s.active_widget_type := by rw [ha]; exact Int.ofNat_nonneg a
  have h1 := get_set_pending_same (b := b) s hev hw hw8
  have h2 : LED_ACTIVE_WIDGET_GET b (set_pending s ev widget) s.active_widget_type.toNat
      = some w_active := by
    rw [toNat_of_eq_cast ha, get_set_pending_ne s widget (Ne.symm hne)]; exact hga
  have h3 : LED_ACTIVE_WIDGET_GET b (led_off_all b (set_pending s ev widget)) ev
      = some (b.led_widgets ev widget) := h1
  obtain ⟨s', hs'⟩ := run_widget_cmd_some h3 (show 0 < 10 by omega)
  refine ⟨s', ?_, ?_⟩
  · rw [schedule_of_not_paused hev hn hact hp h1 h2, if_neg (by omega), if_pos hst, hs']
  · obtain ⟨w, cmd, hg, hc, r1, r2, -, r4, r5, r6, -⟩ := run_widget_cmd_spec hs'
    rw [h3] at hg
    cases hg
    simp only [commands_at, show (0 : Nat) < 10 by omega, if_true, Option.some.injEq] at hc
    subst hc
    simp only [widget_is_status, Bool.and_eq_true, beq_iff_eq] at hst
    have hidle : s'.state = LED_STATE_IDLE := by rw [r6, if_pos (by omega)]
    refine ⟨r4, ?_, hidle, ?_, ?_, ?_, r2⟩
    · intro p hp hq
      rw [r4]
      exact leds_set_cmd_at b _ _ p hp hq
    · rw [hidle]; decide
    · rw [r5, if_neg (by omega)]; rfl
    · rw [r1]; exact set_pending_slot_ne s ev widget a (Ne.symm hne)

/-- Instance of the amended C3 on the example board: while USB shows its
selector 0, BLE requests its status selector 1. -/
theorem schedule_status_overlay_other_class_witness :
    ∃ s', led_widget_schedule demo_board demo_usb_active 1 1 = some s' ∧
      s'.leds = leds_set_cmd demo_board ((demo_board.led_widgets 1 1).commands.getD 0 led_cmd_zero)
        (leds_off_all demo_board demo_usb_active.leds) ∧
      (∀ p, p < demo_board.NUM_LEDS →
        (∀ q, p < q → q < demo_board.NUM_LEDS →
          demo_board.led_index_by_key q ≠ demo_board.led_index_by_key p) →
        s'.leds (demo_board.led_index_by_key p)
          = brightness_at ((demo_board.led_widgets 1 1).commands.getD 0 led_cmd_zero) p) ∧
      s'.state = LED_STATE_IDLE ∧ s'.state ≠ LED_STATE_PAUSE ∧
      s'.led_widget_work = demo_usb_active.led_widget_work ∧
      s'.active_widgets_ind 0 = demo_usb_active.active_widgets_ind 0 ∧
      s'.last_widgets_ind = demo_usb_active.last_widgets_ind :=
  schedule_status_overlay_other_class demo_board demo_usb_active 1 1 0 (demo_widgets 0 0)
    (by decide) (by decide) (by decide) rfl (by decide) (by decide) rfl rfl (by decide)
    (by decide)

/-- C3 fails as stated when the request comes from the active class itself: USB
shows its selector 0 (priority 4) and requests its status selector 1 (priority
6); the call only overwrites USB's pending slot, the outputs are neither blanked
nor set to the status step. -/
theorem schedule_status_same_class_counterexample :
    Reachable demo_board demo_usb_active ∧
    demo_usb_active.active_widget_type = 0 ∧
    demo_usb_active.state ≠ LED_STATE_PAUSE ∧
    widget_is_status (demo_board.led_widgets 0 1) = true ∧
    (∃ w_active, LED_ACTIVE_WIDGET_GET demo_board demo_usb_active 0 = some w_active ∧
      w_active.priority < (demo_board.led_widgets 0 1).priority) ∧
    demo_usb_active.active_widgets_ind 0 ≠ 1 ∧
    ∃ s', led_widget_schedule demo_board demo_usb_active 0 1 = some s' ∧
      s'.leds (demo_board.led_index_by_key 0) = 100 ∧
      brightness_at ((demo_board.led_widgets 0 1).commands.getD 0 led_cmd_zero) 0 = 50 ∧
      s'.active_widgets_ind 0 ≠ demo_usb_active.active_widgets_ind 0 :=
  ⟨demo_usb_active_reachable, rfl, by decide, rfl, ⟨_, rfl, by decide⟩, by decide,
    ⟨set_pending demo_usb_active 0 1, rfl, by decide, by decide, by decide⟩⟩

/-! ## Frame of a request -/

theorem same_status_true_slot {b : Board} {s : State} {ev widget : Nat}
    (h : same_status_widget b s ev widget = some true) :
    s.active_widgets_ind ev = ((widget % 256 : Nat) : Int) := by
  unfold same_status_widget at h
  by_contra hne
  rw [if_neg hne] at h
  exact Bool.noConfusion (Option.some.inj h)

/-- Whatever branch a request takes, it writes no pending slot other than that of
its class, where it leaves the selector, and no last-shown slot. -/
theorem schedule_frame {b : Board} {s s' : State} {ev widget : Nat} (hw8 : widget < 128)
    (h : led_widget_schedule b s ev widget = some s') :
    s'.active_widgets_ind = Function.update s.active_widgets_ind ev (widget : Int) ∧
      s'.last_widgets_ind = s.last_widgets_ind := by
  have h256 : widget % 256 = widget := Nat.mod_eq_of_lt (by omega)
  have hsp : (set_pending s ev widget).active_widgets_ind
      = Function.update s.active_widgets_ind ev (widget : Int) := by
    simp [set_pending, int8_of_uint8_of_lt hw8]
  unfold led_widget_schedule at h
  split at h
  · exact Option.noConfusion h
  · split at h
    · exact Option.noConfusion h
    · next hss =>
      cases h
      have := same_status_true_slot hss
      rw [h256] at this
      rw [← this, Function.update_eq_self]
      exact ⟨rfl, rfl⟩
    · simp only at h
      split at h
      · split at h
        · cases h
          exact ⟨hsp, rfl⟩
        · split at h
          · split at h
            · cases h
              exact ⟨hsp, rfl⟩
            · split at h
              · obtain ⟨_, _, _, _, r1, r2, _⟩ := run_widget_cmd_spec h
                exact ⟨r1.trans hsp, r2⟩
              · cases h
                exact ⟨hsp, rfl⟩
          · exact Option.noConfusion h
      · obtain ⟨_, _, _, _, r1, r2, _⟩ := run_widget_cmd_spec h
        exact ⟨r1.trans hsp, r2⟩

/-- A request with a valid selector returns as soon as the active class, if
there is one, has a valid pending selector. -/
theorem schedule_some {b : Board} {s : State} {ev widget : Nat}
    (hev : ev < LED_EVENT_SIZE) (hw : widget < b.MAX_WIDGET_NUM) (hw8 : widget < 128)
    (hwf : 0 ≤ s.active_widget_type →
      ∃ w, LED_ACTIVE_WIDGET_GET b s s.active_widget_type.toNat = some w) :
    ∃ s', led_widget_schedule b s ev widget = some s' := by
  by_cases hno : status_noop b s ev widget
  · exact ⟨s, schedule_of_noop hev hw hw8 hno⟩
  · have hn := same_status_of_not_noop hev hw hw8 hno
    have h1 := get_set_pending_same (b := b) s hev hw hw8
    by_cases hact : 0 ≤ s.active_widget_type
    · by_cases hp : s.state = LED_STATE_PAUSE
      · exact ⟨_, schedule_of_paused hev hn hact hp⟩
      · obtain ⟨w_active, hga⟩ := hwf hact
        have h2 : ∃ w2, LED_ACTIVE_WIDGET_GET b (set_pending s ev widget)
            s.active_widget_type.toNat = some w2 := by
          by_cases hc : s.active_widget_type.toNat = ev
          · rw [hc]; exact ⟨_, h1⟩
          · exact ⟨w_active, (get_set_pending_ne s widget hc).trans hga⟩
        obtain ⟨w2, h2⟩ := h2
        rw [schedule_of_not_paused hev hn hact hp h1 h2]
        split
        · exact ⟨_, rfl⟩
        · split
          · exact run_widget_cmd_some (s := led_off_all b (set_pending s ev widget)) h1
              (show 0 < 10 by omega)
          · exact ⟨_, rfl⟩
    · rw [schedule_of_no_active hev hn hact]
      exact run_widget_cmd_some h1 (show 0 < 10 by omega)

/-- C4. For a status pattern of a valid selector, a second identical request
returns exactly the state that the first one returned, so it writes no output and
requests no timer (and the first request does return when the active class, if
there is one, has a valid pending selector); and whenever the pending slot
already holds the selector the request returns the state it was given. -/
theorem schedule_status_idempotent (b : Board) (s : State) (ev widget : Nat)
    (hev : ev < LED_EVENT_SIZE) (hw : widget < b.MAX_WIDGET_NUM) (hw8 : widget < 128)
    (hst : widget_is_status (b.led_widgets ev widget) = true) :
    (∀ s1, led_widget_schedule b s ev widget = some s1 →
      led_widget_schedule b s1 ev widget = some s1) ∧
    ((0 ≤ s.active_widget_type →
        ∃ w, LED_ACTIVE_WIDGET_GET b s s.active_widget_type.toNat = some w) →
      ∃ s1, led_widget_schedule b s ev widget = some s1 ∧
        led_widget_schedule b s1 ev widget = some s1) ∧
    (s.active_widgets_ind ev = (widget : Int) → led_widget_schedule b s ev widget = some s) := by
  have key : ∀ s1, led_widget_schedule b s ev widget = some s1 →
      led_widget_schedule b s1 ev widget = some s1 := by
    intro s1 h1
    have hslot : s1.active_widgets_ind ev = (widget : Int) := by
      rw [(schedule_frame hw8 h1).1, Function.update_same]
    exact schedule_of_noop hev hw hw8 ⟨hslot, hst⟩
  refine ⟨key, fun hwf => ?_, fun hslot => schedule_of_noop hev hw hw8 ⟨hslot, hst⟩⟩
  obtain ⟨s1, h1⟩ := schedule_some hev hw hw8 hwf
  exact ⟨s1, h1, key s1 h1⟩

/-- Instance of C4 on the example board: BLE requests its status selector 1
twice while USB shows its selector 0. -/
theorem schedule_status_idempotent_witness :
    ∃ s1, led_widget_schedule demo_board demo_usb_active 1 1 = some s1 ∧
      led_widget_schedule demo_board s1 1 1 = some s1 :=
  (schedule_status_idempotent demo_board demo_usb_active 1 1 (by decide) (by decide)
    (by decide) rfl).2.1 (fun _ => ⟨_, rfl⟩)

/-- C5. With no active class, a request that is not the skipped status request
runs step 0 of its pattern in the same call: the outputs take the brightness of
step 0 (a position reads its value unless a later position shares its LED), the
class becomes the active one, the state is active with step index 0 for a pattern
of more than one step and idle for a pattern of one step, never paused, and the
step timer is requested with step 0's timeout exactly when that timeout is not
zero. -/
theorem schedule_starts_at_once (b : Board) (s : State) (ev widget : Nat)
    (hev : ev < LED_EVENT_SIZE) (hw : widget < b.MAX_WIDGET_NUM) (hw8 : widget < 128)
    (hact : s.active_widget_type = -1) (hno : ¬ status_noop b s ev widget) :
    ∃ s', led_widget_schedule b s ev widget = some s' ∧
      s'.leds = leds_set_cmd b ((b.led_widgets ev widget).commands.getD 0 led_cmd_zero) s.leds ∧
      (∀ p, p < b.NUM_LEDS →
        (∀ q, p < q → q < b.NUM_LEDS → b.led_index_by_key q ≠ b.led_index_by_key p) →
        s'.leds (b.led_index_by_key p)
          = brightness_at ((b.led_widgets ev widget).commands.getD 0 led_cmd_zero) p) ∧
      s'.active_widget_type = (ev : Int) ∧
      (1 < (b.led_widgets ev widget).cmd_len →
        s'.state = LED_STATE_ACTIVE ∧ s'.led_cmd_ind = 0) ∧
      ((b.led_widgets ev widget).cmd_len = 1 → s'.state = LED_STATE_IDLE) ∧
      s'.state ≠ LED_STATE_PAUSE ∧
      (((b.led_widgets ev widget).commands.getD 0 led_cmd_zero).timeout ≠ 0 →
        s'.led_widget_work
          = ((b.led_widgets ev widget).commands.getD 0 led_cmd_zero).timeout
              :: s.led_widget_work) ∧
      (((b.led_widgets ev widget).commands.getD 0 led_cmd_zero).timeout = 0 →
        s'.led_widget_work = s.led_widget_work) := by
  have hn := same_status_of_not_noop hev hw hw8 hno
  have hact' : ¬ 0 ≤ s.active_widget_type := by rw [hact]; decide
  have h1 := get_set_pending_same (b := b) s hev hw hw8
  obtain ⟨s', hs'⟩ := run_widget_cmd_some h1 (show 0 < 10 by omega)
  refine ⟨s', by rw [schedule_of_no_active hev hn hact', hs'], ?_⟩
  obtain ⟨w, cmd, hg, hc, -, -, r3, r4, r5, r6, r7, -⟩ := run_widget_cmd_spec hs'
  rw [h1] at hg
  cases hg
  simp only [commands_at, show (0 : Nat) < 10 by omega, if_true, Option.some.injEq] at hc
  subst hc
  have r4' : s'.leds
      = leds_set_cmd b ((b.led_widgets ev widget).commands.getD 0 led_cmd_zero) s.leds := r4
  have r5' : s'.led_widget_work =
      if 0 < ((b.led_widgets ev widget).commands.getD 0 led_cmd_zero).timeout then
        ((b.led_widgets ev widget).commands.getD 0 led_cmd_zero).timeout :: s.led_widget_work
      else s.led_widget_work := r5
  refine ⟨r4', ?_, r3, ?_, ?_, ?_, ?_, ?_⟩
  · intro p hp hq
    rw [r4']
    exact leds_set_cmd_at b _ _ p hp hq
  · intro hlen
    rw [r6, r7, if_neg (by omega), if_neg (by omega)]
    exact ⟨rfl, rfl⟩
  · intro hlen
    rw [r6, if_pos (by omega)]
  · rw [r6]
    split <;> decide
  · intro ht
    rw [r5', if_pos (by omega)]
  · intro ht
    rw [r5', if_neg (by omega)]

/-- Instance of C5 on the example board: USB requests its selector 0 in the
initial state. -/
theorem schedule_starts_at_once_witness :
    ∃ s', led_widget_schedule demo_board init_state 0 0 = some s' ∧
      s'.leds = leds_set_cmd demo_board
        ((demo_board.led_widgets 0 0).commands.getD 0 led_cmd_zero) init_state.leds ∧
      (∀ p, p < demo_board.NUM_LEDS →
        (∀ q, p < q → q < demo_board.NUM_LEDS →
          demo_board.led_index_by_key q ≠ demo_board.led_index_by_key p) →
        s'.leds (demo_board.led_index_by_key p)
          = brightness_at ((demo_board.led_widgets 0 0).commands.getD 0 led_cmd_zero) p) ∧
      s'.active_widget_type = ((0 : Nat) : Int) ∧
      (1 < (demo_board.led_widgets 0 0).cmd_len →
        s'.state = LED_STATE_ACTIVE ∧ s'.led_cmd_ind = 0) ∧
      ((demo_board.led_widgets 0 0).cmd_len = 1 → s'.state = LED_STATE_IDLE) ∧
      s'.state ≠ LED_STATE_PAUSE ∧
      (((demo_board.led_widgets 0 0).commands.getD 0 led_cmd_zero).timeout ≠ 0 →
        s'.led_widget_work
          = ((demo_board.led_widgets 0 0).commands.getD 0 led_cmd_zero).timeout
              :: init_state.led_widget_work) ∧
      (((demo_board.led_widgets 0 0).commands.getD 0 led_cmd_zero).timeout = 0 →
        s'.led_widget_work = init_state.led_widget_work) :=
  schedule_starts_at_once demo_board init_state 0 0 (by decide) (by decide) (by decide) rfl
    (fun h => absurd h.1 (by decide))

/-- C6. After a request of a valid selector the class's pending slot holds that
selector, whatever it held before, and the pending slots of the other classes and
all last-shown slots are as before, in every branch; and the request does return
when the active class, if there is one, has a valid pending selector. -/
theorem schedule_pending_slot (b : Board) (s : State) (ev widget : Nat)
    (hev : ev < LED_EVENT_SIZE) (hw : widget < b.MAX_WIDGET_NUM) (hw8 : widget < 128) :
    (∀ s', led_widget_schedule b s ev widget = some s' →
      s'.active_widgets_ind ev = (widget : Int) ∧
      (∀ c, c ≠ ev → s'.active_widgets_ind c = s.active_widgets_ind c) ∧
      s'.last_widgets_ind = s.last_widgets_ind) ∧
    ((0 ≤ s.active_widget_type →
        ∃ w, LED_ACTIVE_WIDGET_GET b s s.active_widget_type.toNat = some w) →
      ∃ s', led_widget_schedule b s ev widget = some s') := by
  refine ⟨fun s' h => ?_, fun hwf => schedule_some hev hw hw8 hwf⟩
  obtain ⟨h1, h2⟩ := schedule_frame hw8 h
  refine ⟨by rw [h1, Function.update_same], fun c hc => ?_, h2⟩
  rw [h1, Function.update_noteq hc]

/-- Instance of C6 on the example board: USB requests its selector 2 while it
shows its selector 0. -/
theorem schedule_pending_slot_witness :
    ∃ s', led_widget_schedule demo_board demo_usb_active 0 2 = some s' ∧
      s'.active_widgets_ind 0 = ((2 : Nat) : Int) ∧
      (∀ c, c ≠ 0 → s'.active_widgets_ind c = demo_usb_active.active_widgets_ind c) ∧
      s'.last_widgets_ind = demo_usb_active.last_widgets_ind :=
  have h := schedule_pending_slot demo_board demo_usb_active 0 2 (by decide) (by decide)
    (by decide)
  (h.2 (fun _ => ⟨_, rfl⟩)).elim fun s' hs' => ⟨s', hs', h.1 s' hs'⟩

/-! ## The idle handler -/

theorem find_step_inv {b : Board} {s : State} {seen : List Nat} {acc acc' : Nat × Int} {i : Nat}
    (hinv : scan_inv b s seen acc) (h : find_step b s acc i = some acc') :
    scan_inv b s (seen ++ [i]) acc' := by
  obtain ⟨h1, h2⟩ := hinv
  have hmono : ((acc.2 = -1 ∧ acc.1 = 0) ∨
      ∃ i' w, i' ∈ seen ++ [i] ∧ acc.2 = (i' : Int) ∧ s.active_widgets_ind i' ≠ -1 ∧
        LED_ACTIVE_WIDGET_GET b s i' = some w ∧ w.priority = acc.1 ∧ 0 < acc.1) := by
    rcases h1 with h1 | ⟨i', w, hm, hr⟩
    · exact Or.inl h1
    · exact Or.inr ⟨i', w, List.mem_append_left _ hm, hr⟩
  unfold find_step at h
  by_cases hslot : s.active_widgets_ind i ≠ -1
  · rw [if_pos hslot] at h
    cases hg : LED_ACTIVE_WIDGET_GET b s i with
    | none => simp [hg] at h
    | some w =>
      simp only [hg] at h
      by_cases hlt : acc.1 < w.priority
      · rw [if_pos hlt] at h
        cases h
        refine ⟨Or.inr ⟨i, w, by simp, rfl, hslot, hg, rfl, by simp only; omega⟩, ?_⟩
        intro j wj hj hsj hgj
        rcases List.mem_append.1 hj with hj | hj
        · have := h2 j wj hj hsj hgj
          simp only
          omega
        · simp only [List.mem_singleton] at hj
          subst hj
          rw [hg] at hgj
          cases hgj
          exact le_refl _
      · rw [if_neg hlt] at h
        cases h
        refine ⟨hmono, ?_⟩
        intro j wj hj hsj hgj
        rcases List.mem_append.1 hj with hj | hj
        · exact h2 j wj hj hsj hgj
        · simp only [List.mem_singleton] at hj
          subst hj
          rw [hg] at hgj
          cases hgj
          omega
  · rw [if_neg hslot] at h
    cases h
    refine ⟨hmono, ?_⟩
    intro j wj hj hsj hgj
    rcases List.mem_append.1 hj with hj | hj
    · exact h2 j wj hj hsj hgj
    · simp only [List.mem_singleton] at hj
      subst hj
      exact absurd hsj hslot

theorem foldlM_find_step_inv {b : Board} {s : State} :
    ∀ (l seen : List Nat) (acc r : Nat × Int), scan_inv b s seen acc →
      l.foldlM (find_step b s) acc = some r → scan_inv b s (seen ++ l) r := by
  intro l
  induction l with
  | nil =>
    intro seen acc r hinv h
    simp only [List.foldlM_nil] at h
    cases h
    simpa using hinv
  | cons i l ih =>
    intro seen acc r hinv h
    rw [List.foldlM_cons] at h
    cases hstep : find_step b s acc i with
    | none => simp [hstep] at h
    | some acc' =>
      simp only [hstep, Option.some_bind, Option.bind_eq_bind] at h
      have := ih (seen ++ [i]) acc' r (find_step_inv hinv hstep) h
      simpa using this

/-- What the search loop of the idle handler returns: the selected class is a
pending class of maximal priority and that priority is positive, or nothing is
selected and then no pending pattern has a positive priority. -/
theorem find_highest_spec {b : Board} {s : State} {r : Nat × Int}
    (h : find_highest b s = some r) : scan_inv b s (List.range LED_EVENT_SIZE) r := by
  have h0 : scan_inv b s [] (0, -1) := ⟨Or.inl ⟨rfl, rfl⟩, fun j w hj => by simp at hj⟩
  simpa using foldlM_find_step_inv (List.range LED_EVENT_SIZE) [] (0, -1) r h0 h

theorem foldlM_find_step_some {b : Board} {s : State} :
    ∀ (l : List Nat) (acc : Nat × Int),
      (∀ i, i ∈ l → s.active_widgets_ind i ≠ -1 → ∃ w, LED_ACTIVE_WIDGET_GET b s i = some w) →
      ∃ r, l.foldlM (find_step b s) acc = some r := by
  intro l
  induction l with
  | nil => intro acc _; exact ⟨acc, rfl⟩
  | cons i l ih =>
    intro acc hl
    rw [List.foldlM_cons]
    have hstep : ∃ acc', find_step b s acc i = some acc' := by
      unfold find_step
      by_cases hslot : s.active_widgets_ind i ≠ -1
      · obtain ⟨w, hg⟩ := hl i (by simp) hslot
        rw [if_pos hslot, hg]
        simp only
        split <;> exact ⟨_, rfl⟩
      · exact ⟨acc, by rw [if_neg hslot]⟩
    obtain ⟨acc', hstep⟩ := hstep
    obtain ⟨r, hr⟩ := ih acc' (fun j hj => hl j (List.mem_cons_of_mem _ hj))
    exact ⟨r, by simp only [hstep, Option.some_bind, Option.bind_eq_bind, hr]⟩

theorem idle_clear_spec {s s2 : State} (h : idle_clear s = some s2) :
    s2.state = s.state ∧ s2.leds = s.leds ∧ s2.led_widget_work = s.led_widget_work ∧
    s2.led_cmd_ind = s.led_cmd_ind ∧ s2.loop_timers = s.loop_timers ∧
    s2.loop_timer_started = s.loop_timer_started ∧
    s2.active_widget_type = s.active_widget_type ∧
    (0 ≤ s.active_widget_type →
      s.active_widget_type < (LED_EVENT_SIZE : Int) ∧
      s2.active_widgets_ind
        = Function.update s.active_widgets_ind s.active_widget_type.toNat (-1) ∧
      s2.last_widgets_ind
        = Function.update s.last_widgets_ind s.active_widget_type.toNat
            (s.active_widgets_ind s.active_widget_type.toNat)) ∧
    (¬ 0 ≤ s.active_widget_type →
      s2.active_widgets_ind = s.active_widgets_ind ∧
      s2.last_widgets_ind = s.last_widgets_ind) := by
  unfold idle_clear at h
  by_cases ha : 0 ≤ s.active_widget_type
  · rw [if_pos ha] at h
    by_cases hlt : s.active_widget_type < (LED_EVENT_SIZE : Int)
    · rw [if_pos hlt] at h
      cases h
      exact ⟨rfl, rfl, rfl, rfl, rfl, rfl, rfl, fun _ => ⟨hlt, rfl, rfl⟩, fun hn => absurd ha hn⟩
    · rw [if_neg hlt] at h
      exact Option.noConfusion h
  · rw [if_neg ha] at h
    cases h
    exact ⟨rfl, rfl, rfl, rfl, rfl, rfl, rfl, fun h0 => absurd h0 ha, fun _ => ⟨rfl, rfl⟩⟩

/-- The idle handler, `led_widget_work_cb` in `LED_STATE_IDLE`, when it returns:
the slot bookkeeping is that of `idle_clear`, the active class is what the search
loop selected, all outputs are dark, and the scheduler is paused with a 100 ms
request when a class was selected and idle with no request otherwise. -/
theorem work_cb_idle_spec {b : Board} {s s' : State} (hs : s.state = LED_STATE_IDLE)
    (h : led_widget_work_cb b s = some s') :
    ∃ s2 r, idle_clear (led_off_all b s) = some s2 ∧
      find_highest b { s2 with active_widget_type := -1 } = some r ∧
      s'.active_widgets_ind = s2.active_widgets_ind ∧
      s'.last_widgets_ind = s2.last_widgets_ind ∧
      s'.active_widget_type = r.2 ∧
      (∀ p, p < b.NUM_LEDS → s'.leds (b.led_index_by_key p) = 0) ∧
      (r.2 ≠ -1 → s'.state = LED_STATE_PAUSE ∧
        s'.led_widget_work = PAUSE_TIMEOUT_MS :: s.led_widget_work) ∧
      (r.2 = -1 → s'.state = LED_STATE_IDLE ∧ s'.led_widget_work = s.led_widget_work) := by
  unfold led_widget_work_cb at h
  simp only [hs] at h
  cases hc : idle_clear (led_off_all b s) with
  | none => simp [hc] at h
  | some s2 =>
    simp only [hc] at h
    cases hf : find_highest b { s2 with active_widget_type := -1 } with
    | none => simp [hf] at h
    | some r =>
      simp only [hf] at h
      obtain ⟨c1, c2, c3, -⟩ := idle_clear_spec hc
      refine ⟨s2, r, rfl, hf, ?_⟩
      split at h
      · next hr =>
        have hr' : r.2 ≠ -1 := hr
        cases h
        refine ⟨rfl, rfl, rfl, fun p hp => leds_off_all_zero b _ p hp,
          fun _ => ⟨rfl, ?_⟩, fun h0 => absurd h0 hr'⟩
        show PAUSE_TIMEOUT_MS :: s2.led_widget_work = _
        rw [c3]; rfl
      · next hr =>
        have hr' : r.2 = -1 := not_not.mp hr
        cases h
        refine ⟨rfl, rfl, rfl, fun p hp => ?_, fun hn => absurd hr' hn, fun _ => ⟨?_, ?_⟩⟩
        · show s2.leds _ = 0
          rw [c2]
          exact leds_off_all_zero b _ p hp
        · show s2.state = _
          rw [c1]; exact hs
        · show s2.led_widget_work = _
          rw [c3]; rfl

/-! ## Well-formedness of the reachable states -/

theorem sel_ok_of_get {b : Board} {s : State} {i : Nat} {w : led_widget_t}
    (h : LED_ACTIVE_WIDGET_GET b s i = some w) :
    i < LED_EVENT_SIZE ∧ 0 ≤ s.active_widgets_ind i ∧
      s.active_widgets_ind i < (b.MAX_WIDGET_NUM : Int) := by
  unfold LED_ACTIVE_WIDGET_GET at h
  by_contra hc
  rw [if_neg hc] at h
  exact Option.noConfusion h

theorem get_some_of_sel_ok {b : Board} {s : State} {i : Nat} (hi : i < LED_EVENT_SIZE)
    (h : sel_ok b (s.active_widgets_ind i)) : ∃ w, LED_ACTIVE_WIDGET_GET b s i = some w := by
  unfold LED_ACTIVE_WIDGET_GET
  rw [if_pos ⟨hi, h.1, h.2.1⟩]
  exact ⟨_, rfl⟩

/-- A request either leaves the owner and the scheduler state alone or makes its
own class the owner. -/
theorem schedule_owner {b : Board} {s s' : State} {ev widget : Nat}
    (h : led_widget_schedule b s ev widget = some s') :
    ev < LED_EVENT_SIZE ∧
    ((s'.active_widget_type = s.active_widget_type ∧ s'.state = s.state) ∨
      s'.active_widget_type = (ev : Int)) := by
  unfold led_widget_schedule at h
  split at h
  · exact Option.noConfusion h
  · next hev =>
    refine ⟨by omega, ?_⟩
    split at h
    · exact Option.noConfusion h
    · cases h
      exact Or.inl ⟨rfl, rfl⟩
    · simp only at h
      split at h
      · split at h
        · cases h
          exact Or.inl ⟨rfl, rfl⟩
        · split at h
          · split at h
            · cases h
              exact Or.inl ⟨rfl, rfl⟩
            · split at h
              · obtain ⟨_, _, _, _, _, _, r3, _⟩ := run_widget_cmd_spec h
                exact Or.inr r3
              · cases h
                exact Or.inr rfl
          · exact Option.noConfusion h
      · obtain ⟨_, _, _, _, _, _, r3, _⟩ := run_widget_cmd_spec h
        exact Or.inr r3

theorem schedule_inv {b : Board} {s s' : State} {ev widget : Nat}
    (hw : widget < b.MAX_WIDGET_NUM) (hw8 : widget < 128) (hinv : Inv b s)
    (h : led_widget_schedule b s ev widget = some s') : Inv b s' := by
  obtain ⟨i0, i1, i2, i3, i4⟩ := hinv
  obtain ⟨f1, f2⟩ := schedule_frame hw8 h
  obtain ⟨hev, hown⟩ := schedule_owner h
  have hwok : sel_ok b (widget : Int) := ⟨by omega, by omega, by omega⟩
  have hslot : ∀ i, s'.active_widgets_ind i = -1 ∨ sel_ok b (s'.active_widgets_ind i) := by
    intro i
    rw [f1]
    by_cases hi : i = ev
    · subst hi
      rw [Function.update_same]
      exact Or.inr hwok
    · rw [Function.update_noteq hi]
      exact i3 i
  refine ⟨?_, ?_, ?_, hslot, by rw [f2]; exact i4⟩
  · rcases hown with ⟨ha, _⟩ | ha
    · rw [ha]; exact i0
    · rw [ha]; omega
  · rcases hown with ⟨ha, hst⟩ | ha
    · rw [ha, hst]; exact i1
    · intro _; rw [ha]; omega
  · rcases hown with ⟨ha, _⟩ | ha
    · rw [ha]
      intro h0
      refine ⟨(i2 h0).1, ?_⟩
      rw [f1]
      by_cases hi : s.active_widget_type.toNat = ev
      · rw [hi, Function.update_same]
        exact hwok
      · rw [Function.update_noteq hi]
        exact (i2 h0).2
    · intro _
      rw [ha, Int.toNat_ofNat, f1, Function.update_same]
      exact ⟨by unfold LED_EVENT_SIZE at *; omega, hwok⟩

theorem run_widget_cmd_inv {b : Board} {s s' : State} {ev cmd_ind : Nat}
    (h3 : ∀ i, s.active_widgets_ind i = -1 ∨ sel_ok b (s.active_widgets_ind i))
    (h4 : ∀ i, s.last_widgets_ind i = -1 ∨ sel_ok b (s.last_widgets_ind i))
    (h : run_widget_cmd b s ev cmd_ind = some s') : Inv b s' := by
  obtain ⟨w, cmd, hg, -, r1, r2, r3, -⟩ := run_widget_cmd_spec h
  obtain ⟨g1, g2, g3⟩ := sel_ok_of_get hg
  refine ⟨by rw [r3]; omega, fun _ => by rw [r3]; omega, fun _ => ?_,
    by rw [r1]; exact h3, by rw [r2]; exact h4⟩
  rw [r3, Int.toNat_ofNat, r1]
  refine ⟨by unfold LED_EVENT_SIZE at *; omega, ?_⟩
  rcases h3 ev with h3 | h3
  · omega
  · exact h3

theorem work_cb_idle_slots {b : Board} {s s' : State} (hinv : Inv b s)
    (hs : s.state = LED_STATE_IDLE) (h : led_widget_work_cb b s = some s') :
    (s.active_widget_type = -1 ∧ s'.active_widgets_ind = s.active_widgets_ind ∧
      s'.last_widgets_ind = s.last_widgets_ind) ∨
    (0 ≤ s.active_widget_type ∧ sel_ok b (s.active_widgets_ind s.active_widget_type.toNat) ∧
      s'.active_widgets_ind
        = Function.update s.active_widgets_ind s.active_widget_type.toNat (-1) ∧
      s'.last_widgets_ind
        = Function.update s.last_widgets_ind s.active_widget_type.toNat
            (s.active_widgets_ind s.active_widget_type.toNat)) := by
  obtain ⟨i0, -, i2, -, -⟩ := hinv
  obtain ⟨s2, r, hc, -, r1, r2, -⟩ := work_cb_idle_spec hs h
  obtain ⟨-, -, -, -, -, -, -, c8, c9⟩ := idle_clear_spec hc
  by_cases ha : 0 ≤ s.active_widget_type
  · obtain ⟨-, c81, c82⟩ := c8 ha
    exact Or.inr ⟨ha, (i2 ha).2, r1.trans c81, r2.trans c82⟩
  · obtain ⟨c91, c92⟩ := c9 ha
    exact Or.inl ⟨by omega, r1.trans c91, r2.trans c92⟩

theorem work_cb_inv {b : Board} {s s' : State} (hinv : Inv b s)
    (h : led_widget_work_cb b s = some s') : Inv b s' := by
  have hinv' := hinv
  obtain ⟨i0, i1, i2, i3, i4⟩ := hinv
  cases hs : s.state with
  | LED_STATE_IDLE =>
    obtain ⟨s2, r, hc, hf, r1, r2, r3, -, r5, r6⟩ := work_cb_idle_spec hs h
    obtain ⟨hsel, -⟩ := find_highest_spec hf
    have hslot : ∀ i, s'.active_widgets_ind i = -1 ∨ sel_ok b (s'.active_widgets_ind i) := by
      intro i
      rcases work_cb_idle_slots hinv' hs h with ⟨-, e1, -⟩ | ⟨-, -, e1, -⟩
      · rw [e1]; exact i3 i
      · rw [e1]
        by_cases hi : i = s.active_widget_type.toNat
        · rw [hi, Function.update_same]; exact Or.inl rfl
        · rw [Function.update_noteq hi]; exact i3 i
    have hlast : ∀ i, s'.last_widgets_ind i = -1 ∨ sel_ok b (s'.last_widgets_ind i) := by
      intro i
      rcases work_cb_idle_slots hinv' hs h with ⟨-, -, e2⟩ | ⟨-, hok, -, e2⟩
      · rw [e2]; exact i4 i
      · rw [e2]
        by_cases hi : i = s.active_widget_type.toNat
        · rw [hi, Function.update_same]; exact Or.inr hok
        · rw [Function.update_noteq hi]; exact i4 i
    rcases hsel with ⟨hr, -⟩ | ⟨i, w, hm, hr, hne, hg, -, -⟩
    · refine ⟨by rw [r3, hr], fun hst => absurd (r6 hr).1 hst, fun h0 => ?_, hslot, hlast⟩
      rw [r3, hr] at h0
      omega
    · have hi : i < LED_EVENT_SIZE := List.mem_range.1 hm
      refine ⟨by rw [r3, hr]; omega, fun _ => by rw [r3, hr]; omega, fun _ => ?_, hslot, hlast⟩
      rw [r3, hr, Int.toNat_ofNat]
      refine ⟨by unfold LED_EVENT_SIZE at *; omega, ?_⟩
      have hne' : s'.active_widgets_ind i ≠ -1 := by rw [r1]; exact hne
      rcases hslot i with h1 | h1
      · exact absurd h1 hne'
      · exact h1
  | LED_STATE_PAUSE =>
    unfold led_widget_work_cb at h
    simp only [hs] at h
    split at h
    · exact run_widget_cmd_inv i3 i4 h
    · exact Option.noConfusion h
  | LED_STATE_ACTIVE =>
    unfold led_widget_work_cb at h
    simp only [hs] at h
    split at h
    · exact run_widget_cmd_inv (s := led_off_all b s) i3 i4 h
    · exact Option.noConfusion h

theorem last_toNat_ok {b : Board} {s : State} {ev : Nat} (hinv : Inv b s)
    (h0 : 0 ≤ s.last_widgets_ind ev) :
    (s.last_widgets_ind ev).toNat < b.MAX_WIDGET_NUM ∧ (s.last_widgets_ind ev).toNat < 128 := by
  rcases hinv.2.2.2.2 ev with h | ⟨-, h1, h2⟩
  · omega
  · omega

theorem loop_timer_inv {b : Board} {s s' : State} {ev : Nat} (hinv : Inv b s)
    (h : loop_timer_handler b s ev = some s') : Inv b s' := by
  unfold loop_timer_handler at h
  split at h
  · exact Option.noConfusion h
  · split at h
    · next h0 =>
      obtain ⟨h1, h2⟩ := last_toNat_ok hinv h0
      exact schedule_inv h1 h2 hinv h
    · cases h
      exact hinv

theorem init_inv (b : Board) : Inv b init_state :=
  ⟨by decide, fun h => absurd rfl h, fun h => absurd h (by decide), fun _ => Or.inl rfl,
    fun _ => Or.inl rfl⟩

theorem fire_inv {b : Board} {s s' : State} {e : Event} (hinv : Inv b s)
    (hv : valid_event b e) (h : fire b s e = some s') : Inv b s' := by
  cases e with
  | schedule ev widget => exact schedule_inv hv.2.1 hv.2.2 hinv h
  | work_expiry => exact work_cb_inv hinv h
  | loop_expiry ev => exact loop_timer_inv hinv h

/-- Every reachable state is well-formed. -/
theorem reachable_inv {b : Board} {s : State} (h : Reachable b s) : Inv b s := by
  induction h with
  | init => exact init_inv b
  | step e _ hv hf ih => exact fire_inv ih hv hf

theorem get_congr_slots {b : Board} {s t : State} (h : s.active_widgets_ind = t.active_widgets_ind)
    (i : Nat) : LED_ACTIVE_WIDGET_GET b s i = LED_ACTIVE_WIDGET_GET b t i := by
  unfold LED_ACTIVE_WIDGET_GET
  rw [h]

/-- What the idle handler does select: when some class that is still pending
after the bookkeeping has a pattern of positive priority, the scheduler is paused
and the new active class is a pending class whose priority is maximal among the
pending ones; when every pending pattern has priority 0 (or nothing is pending)
the scheduler stays idle with no active class. -/
theorem work_cb_idle_selects {b : Board} {s s' : State} (hs : s.state = LED_STATE_IDLE)
    (h : led_widget_work_cb b s = some s') :
    ((∃ i w, i < LED_EVENT_SIZE ∧ s'.active_widgets_ind i ≠ -1 ∧
        LED_ACTIVE_WIDGET_GET b s' i = some w ∧ 0 < w.priority) →
      s'.state = LED_STATE_PAUSE ∧
      s'.led_widget_work = PAUSE_TIMEOUT_MS :: s.led_widget_work ∧
      ∃ (a : Nat) (wa : led_widget_t), s'.active_widget_type = (a : Int) ∧ a < LED_EVENT_SIZE ∧
        s'.active_widgets_ind a ≠ -1 ∧ LED_ACTIVE_WIDGET_GET b s' a = some wa ∧
        ∀ j wj, j < LED_EVENT_SIZE → s'.active_widgets_ind j ≠ -1 →
          LED_ACTIVE_WIDGET_GET b s' j = some wj → wj.priority ≤ wa.priority) ∧
    ((∀ i w, i < LED_EVENT_SIZE → s'.active_widgets_ind i ≠ -1 →
        LED_ACTIVE_WIDGET_GET b s' i = some w → w.priority = 0) →
      s'.state = LED_STATE_IDLE ∧ s'.active_widget_type = -1 ∧
      s'.led_widget_work = s.led_widget_work) := by
  obtain ⟨s2, r, -, hf, r1, -, r3, -, r5, r6⟩ := work_cb_idle_spec hs h
  obtain ⟨hsel, hmax⟩ := find_highest_spec hf
  have hget : ∀ i, LED_ACTIVE_WIDGET_GET b { s2 with active_widget_type := -1 } i
      = LED_ACTIVE_WIDGET_GET b s' i := fun i => get_congr_slots r1.symm i
  have hsl : ∀ i, ({ s2 with active_widget_type := -1 } : State).active_widgets_ind i
      = s'.active_widgets_ind i := fun i => by rw [r1]
  constructor
  · rintro ⟨i, w, hi, hne, hg, hpos⟩
    rcases hsel with ⟨-, hr0⟩ | ⟨a, wa, hm, hra, hnea, hga, hpa, -⟩
    · have := hmax i w (List.mem_range.2 hi) (by rw [hsl]; exact hne) (by rw [hget]; exact hg)
      omega
    · have hr : r.2 ≠ -1 := by rw [hra]; omega
      refine ⟨(r5 hr).1, (r5 hr).2, a, wa, by rw [r3, hra], List.mem_range.1 hm,
        by rw [← hsl]; exact hnea, by rw [← hget]; exact hga, ?_⟩
      intro j wj hj hnej hgj
      have := hmax j wj (List.mem_range.2 hj) (by rw [hsl]; exact hnej) (by rw [hget]; exact hgj)
      omega
  · intro hall
    rcases hsel with ⟨hr, -⟩ | ⟨a, wa, hm, -, hnea, hga, hpa, hpos⟩
    · exact ⟨(r6 hr).1, by rw [r3, hr], (r6 hr).2⟩
    · have := hall a wa (List.mem_range.1 hm) (by rw [← hsl]; exact hnea)
        (by rw [← hget]; exact hga)
      omega

/-- C7, the code at the failing input. On the example board, in a reachable
state, the battery pattern has run its last step while BLE's selector 0, a
pattern of priority 0, is pending; the idle handler clears the battery slot, finds BLE's slot pending, and
yet selects nothing: the scheduler stays idle with no active class, no pause is
requested, and BLE's request stays in its slot. -/
theorem idle_handler_skips_priority_zero :
    Reachable demo_board demo_battery_done ∧
    demo_battery_done.state = LED_STATE_IDLE ∧
    demo_battery_done.active_widget_type = 2 ∧
    demo_battery_done.active_widgets_ind 1 = 0 ∧
    (demo_board.led_widgets 1 0).priority = 0 ∧
    ∃ s', led_widget_work_cb demo_board demo_battery_done = some s' ∧
      s'.active_widgets_ind 2 = -1 ∧ s'.last_widgets_ind 2 = 1 ∧
      s'.active_widgets_ind 1 = 0 ∧
      s'.state = LED_STATE_IDLE ∧ s'.active_widget_type = -1 ∧
      s'.led_widget_work = demo_battery_done.led_widget_work :=
  ⟨demo_battery_done_reachable, by decide, by decide, by decide, rfl,
    ⟨_, rfl, by decide, by decide, by decide, by decide, by decide, by decide⟩⟩

/-! ## Invariants of the reachable states -/

/-- C8. In every state reachable from the initial state by requests with valid
selectors, step-timer expiries and loop-timer expiries, an active or paused
scheduler has an active class. -/
theorem active_or_paused_has_owner (b : Board) (s : State) (h : Reachable b s)
    (hst : s.state = LED_STATE_ACTIVE ∨ s.state = LED_STATE_PAUSE) :
    0 ≤ s.active_widget_type := by
  apply (reachable_inv h).2.1
  rcases hst with hst | hst <;> rw [hst] <;> decide

/-- Instance of C8 on the example board: the state after USB's first request. -/
theorem active_or_paused_has_owner_witness :
    demo_usb_active.state = LED_STATE_ACTIVE ∧ 0 ≤ demo_usb_active.active_widget_type :=
  ⟨by decide, active_or_paused_has_owner demo_board demo_usb_active
    demo_usb_active_reachable (Or.inl (by decide))⟩

/-- C9 fails as stated: one request of a one-step pattern in the initial state
leaves the scheduler idle with the requesting class as the active class. -/
theorem idle_with_owner_counterexample :
    Reachable demo_board demo_usb_status_shown ∧
    demo_usb_status_shown.state = LED_STATE_IDLE ∧
    demo_usb_status_shown.active_widget_type ≠ -1 :=
  ⟨demo_usb_status_shown_reachable, by decide, by decide⟩

theorem work_cb_idle_some {b : Board} {s : State} (hinv : Inv b s)
    (hs : s.state = LED_STATE_IDLE) : ∃ s', led_widget_work_cb b s = some s' := by
  obtain ⟨i0, i1, i2, i3, i4⟩ := hinv
  have hc : ∃ s2, idle_clear (led_off_all b s) = some s2 := by
    unfold idle_clear
    by_cases ha : 0 ≤ s.active_widget_type
    · have h1 : 0 ≤ (led_off_all b s).active_widget_type := ha
      have h2 : (led_off_all b s).active_widget_type < (LED_EVENT_SIZE : Int) := (i2 ha).1
      rw [if_pos h1, if_pos h2]
      exact ⟨_, rfl⟩
    · have h1 : ¬ 0 ≤ (led_off_all b s).active_widget_type := ha
      rw [if_neg h1]
      exact ⟨_, rfl⟩
  obtain ⟨s2, hc⟩ := hc
  obtain ⟨-, -, -, -, -, -, -, c8, c9⟩ := idle_clear_spec hc
  have hslot2 : ∀ i, s2.active_widgets_ind i = -1 ∨ sel_ok b (s2.active_widgets_ind i) := by
    intro i
    by_cases ha : 0 ≤ s.active_widget_type
    · have e : s2.active_widgets_ind
          = Function.update s.active_widgets_ind s.active_widget_type.toNat (-1) := (c8 ha).2.1
      rw [e]
      by_cases hi : i = s.active_widget_type.toNat
      · rw [hi, Function.update_same]; exact Or.inl rfl
      · rw [Function.update_noteq hi]; exact i3 i
    · have e : s2.active_widgets_ind = s.active_widgets_ind := (c9 ha).1
      rw [e]; exact i3 i
  have hf : ∃ r, find_highest b { s2 with active_widget_type := -1 } = some r := by
    apply foldlM_find_step_some
    intro i hi hne
    have hne' : s2.active_widgets_ind i ≠ -1 := hne
    rcases hslot2 i with h1 | h1
    · exact absurd h1 hne'
    · exact get_some_of_sel_ok (s := { s2 with active_widget_type := -1 })
        (List.mem_range.1 hi) h1
  obtain ⟨r, hf⟩ := hf
  unfold led_widget_work_cb
  simp only [hs, hc, hf]
  split <;> exact ⟨_, rfl⟩

/-- C9, as amended. In every reachable idle state the active class is none or is
a class whose pending slot still holds a valid selector (the class whose last
command has run and which the idle handler has not cleared yet); and the
step-timer expiry in that state returns, leaving the scheduler either paused with
an active class or idle with no active class. -/
theorem idle_owner_cleared_by_handler (b : Board) (s : State) (h : Reachable b s)
    (hs : s.state = LED_STATE_IDLE) :
    (s.active_widget_type = -1 ∨
      (0 ≤ s.active_widget_type ∧ s.active_widget_type < (LED_EVENT_SIZE : Int) ∧
        sel_ok b (s.active_widgets_ind s.active_widget_type.toNat))) ∧
    ∃ s', led_widget_work_cb b s = some s' ∧
      ((s'.state = LED_STATE_PAUSE ∧ 0 ≤ s'.active_widget_type) ∨
        (s'.state = LED_STATE_IDLE ∧ s'.active_widget_type = -1)) := by
  have hinv := reachable_inv h
  constructor
  · by_cases ha : 0 ≤ s.active_widget_type
    · exact Or.inr ⟨ha, hinv.2.2.1 ha⟩
    · have := hinv.1
      exact Or.inl (by omega)
  · obtain ⟨s', hs'⟩ := work_cb_idle_some hinv hs
    refine ⟨s', hs', ?_⟩
    have hinv' := work_cb_inv hinv hs'
    obtain ⟨s2, r, -, -, -, -, r3, -, r5, r6⟩ := work_cb_idle_spec hs hs'
    by_cases hr : r.2 = -1
    · exact Or.inr ⟨(r6 hr).1, by rw [r3, hr]⟩
    · refine Or.inl ⟨(r5 hr).1, hinv'.2.1 ?_⟩
      rw [(r5 hr).1]
      decide

/-- Instance of the amended C9 on the example board: the state after USB's
status request in the initial state. -/
theorem idle_owner_cleared_by_handler_witness :
    (demo_usb_status_shown.active_widget_type = -1 ∨
      (0 ≤ demo_usb_status_shown.active_widget_type ∧
        demo_usb_status_shown.active_widget_type < (LED_EVENT_SIZE : Int) ∧
        sel_ok demo_board (demo_usb_status_shown.active_widgets_ind
          demo_usb_status_shown.active_widget_type.toNat))) ∧
    ∃ s', led_widget_work_cb demo_board demo_usb_status_shown = some s' ∧
      ((s'.state = LED_STATE_PAUSE ∧ 0 ≤ s'.active_widget_type) ∨
        (s'.state = LED_STATE_IDLE ∧ s'.active_widget_type = -1)) :=
  idle_owner_cleared_by_handler demo_board demo_usb_status_shown
    demo_usb_status_shown_reachable (by decide)

/-- C10. For every transition from a reachable state (a request with a valid
selector, a step-timer expiry, a loop-timer expiry) and every class `c`: when
`c`'s pending slot holds a selector before the transition and none after it, the
last-shown slot of `c` holds that selector afterwards; and when `c`'s pending
slot is not cleared by the transition, the last-shown slot of `c` is unchanged. -/
theorem last_shown_recorded (b : Board) (s s' : State) (e : Event) (c : Nat)
    (hr : Reachable b s) (hv : valid_event b e) (h : fire b s e = some s') :
    (s.active_widgets_ind c ≠ -1 → s'.active_widgets_ind c = -1 →
      s'.last_widgets_ind c = s.active_widgets_ind c) ∧
    (¬ (s.active_widgets_ind c ≠ -1 ∧ s'.active_widgets_ind c = -1) →
      s'.last_widgets_ind c = s.last_widgets_ind c) := by
  have hinv := reachable_inv hr
  have hsched : ∀ ev widget, widget < 128 → led_widget_schedule b s ev widget = some s' →
      (s.active_widgets_ind c ≠ -1 → s'.active_widgets_ind c = -1 →
        s'.last_widgets_ind c = s.active_widgets_ind c) ∧
      (¬ (s.active_widgets_ind c ≠ -1 ∧ s'.active_widgets_ind c = -1) →
        s'.last_widgets_ind c = s.last_widgets_ind c) := by
    intro ev widget hw8 hsch
    obtain ⟨f1, f2⟩ := schedule_frame hw8 hsch
    refine ⟨fun hne hclr => ?_, fun _ => by rw [f2]⟩
    rw [f1] at hclr
    by_cases hc : c = ev
    · rw [hc, Function.update_same] at hclr
      omega
    · rw [Function.update_noteq hc] at hclr
      exact absurd hclr hne
  have hrun : ∀ (t : State) ev i, t.active_widgets_ind = s.active_widgets_ind →
      t.last_widgets_ind = s.last_widgets_ind → run_widget_cmd b t ev i = some s' →
      (s.active_widgets_ind c ≠ -1 → s'.active_widgets_ind c = -1 →
        s'.last_widgets_ind c = s.active_widgets_ind c) ∧
      (¬ (s.active_widgets_ind c ≠ -1 ∧ s'.active_widgets_ind c = -1) →
        s'.last_widgets_ind c = s.last_widgets_ind c) := by
    intro t ev i e1 e2 hrun
    obtain ⟨_, _, _, _, r1, r2, _⟩ := run_widget_cmd_spec hrun
    refine ⟨fun hne hclr => ?_, fun _ => by rw [r2, e2]⟩
    rw [r1, e1] at hclr
    exact absurd hclr hne
  cases e with
  | schedule ev widget => exact hsched ev widget hv.2.2 h
  | loop_expiry ev =>
    have h' : loop_timer_handler b s ev = some s' := h
    unfold loop_timer_handler at h'
    split at h'
    · exact Option.noConfusion h'
    · split at h'
      · next h0 => exact hsched ev _ (last_toNat_ok hinv h0).2 h'
      · cases h'
        exact ⟨fun hne hclr => absurd hclr hne, fun _ => rfl⟩
  | work_expiry =>
    have h' : led_widget_work_cb b s = some s' := h
    cases hs : s.state with
    | LED_STATE_IDLE =>
      rcases work_cb_idle_slots hinv hs h' with ⟨-, e1, e2⟩ | ⟨ha, hok, e1, e2⟩
      · refine ⟨fun hne hclr => ?_, fun _ => by rw [e2]⟩
        rw [e1] at hclr
        exact absurd hclr hne
      · by_cases hc : c = s.active_widget_type.toNat
        · refine ⟨fun _ _ => by rw [e2, hc, Function.update_same], fun hn => ?_⟩
          exfalso
          apply hn
          rw [e1, hc, Function.update_same]
          exact ⟨by have := hok.1; omega, rfl⟩
        · refine ⟨fun hne hclr => ?_, fun _ => by rw [e2, Function.update_noteq hc]⟩
          rw [e1, Function.update_noteq hc] at hclr
          exact absurd hclr hne
    | LED_STATE_PAUSE =>
      unfold led_widget_work_cb at h'
      simp only [hs] at h'
      split at h'
      · exact hrun s _ _ rfl rfl h'
      · exact Option.noConfusion h'
    | LED_STATE_ACTIVE =>
      unfold led_widget_work_cb at h'
      simp only [hs] at h'
      split at h'
      · exact hrun (led_off_all b s) _ _ rfl rfl h'
      · exact Option.noConfusion h'

/-- Instance of C10 on the example board: the idle handler after the battery
pattern has finished moves the battery selector to the last-shown slot. -/
theorem last_shown_recorded_witness :
    ∃ s', fire demo_board demo_battery_done Event.work_expiry = some s' ∧
      demo_battery_done.active_widgets_ind 2 = 1 ∧ s'.active_widgets_ind 2 = -1 ∧
      s'.last_widgets_ind 2 = demo_battery_done.active_widgets_ind 2 :=
  ⟨_, rfl, by decide, by decide,
    (last_shown_recorded demo_board demo_battery_done _ Event.work_expiry 2
      demo_battery_done_reachable trivial rfl).1 (by decide) (by decide)⟩


/-! ## The calls of the command executor -/

/-- The branches of a request. -/
theorem schedule_cases {b : Board} {s s' : State} {ev widget : Nat}
    (h : led_widget_schedule b s ev widget = some s') :
    (schedule_run_call b s ev widget = none ∧
      (s' = s ∨ s' = set_pending s ev widget ∨
        s' = led_widget_pause b { set_pending s ev widget with active_widget_type := (ev : Int) })) ∨
    (∃ t, schedule_run_call b s ev widget = some (t, ev, 0) ∧
      run_widget_cmd b t ev 0 = some s' ∧
      ((0 ≤ s.active_widget_type ∧ t = led_off_all b (set_pending s ev widget)) ∨
        (¬ 0 ≤ s.active_widget_type ∧ t = set_pending s ev widget))) := by
  unfold led_widget_schedule at h
  unfold schedule_run_call
  split at h
  · exact Option.noConfusion h
  · next hev =>
    rw [if_neg hev]
    split at h
    · exact Option.noConfusion h
    · next hss =>
      cases h
      simp [hss]
    · next hss =>
      simp only [hss]
      simp only at h
      split at h
      · next hact =>
        rw [if_pos hact]
        split at h
        · next hp =>
          cases h
          rw [if_pos hp]
          exact Or.inl ⟨rfl, Or.inr (Or.inl rfl)⟩
        · next hp =>
          rw [if_neg hp]
          split at h
          · next w_ev w_active hg1 hg2 =>
            try simp only [hg1, hg2]
            split at h
            · next hle =>
              cases h
              rw [if_pos hle]
              exact Or.inl ⟨rfl, Or.inr (Or.inl rfl)⟩
            · next hle =>
              rw [if_neg hle]
              split at h
              · next hst =>
                rw [if_pos hst]
                exact Or.inr ⟨_, rfl, h, Or.inl ⟨hact, rfl⟩⟩
              · next hst =>
                cases h
                rw [if_neg hst]
                exact Or.inl ⟨rfl, Or.inr (Or.inr rfl)⟩
          · exact Option.noConfusion h
      · next hact =>
        rw [if_neg hact]
        exact Or.inr ⟨_, rfl, h, Or.inr ⟨hact, rfl⟩⟩

/-- The idle handler touches neither the loop timers nor the step index. -/
theorem work_cb_idle_frame {b : Board} {s s' : State} (hs : s.state = LED_STATE_IDLE)
    (h : led_widget_work_cb b s = some s') :
    s'.loop_timers = s.loop_timers ∧ s'.loop_timer_started = s.loop_timer_started ∧
      s'.led_cmd_ind = s.led_cmd_ind := by
  unfold led_widget_work_cb at h
  simp only [hs] at h
  cases hc : idle_clear (led_off_all b s) with
  | none => simp [hc] at h
  | some s2 =>
    simp only [hc] at h
    obtain ⟨-, -, -, c4, c5, c6, -⟩ := idle_clear_spec hc
    cases hf : find_highest b { s2 with active_widget_type := -1 } with
    | none => simp [hf] at h
    | some r =>
      simp only [hf] at h
      split at h <;> cases h <;> exact ⟨c5, c6, c4⟩

/-- The branches of the work queue callback. -/
theorem work_cb_cases {b : Board} {s s' : State} (h : led_widget_work_cb b s = some s') :
    (s.state = LED_STATE_IDLE ∧ work_cb_run_call b s = none) ∨
    (∃ t i, work_cb_run_call b s = some (t, s.active_widget_type.toNat, i) ∧
      run_widget_cmd b t s.active_widget_type.toNat i = some s' ∧ 0 ≤ s.active_widget_type ∧
      ((s.state = LED_STATE_PAUSE ∧ t = s ∧ i = 0) ∨
        (s.state = LED_STATE_ACTIVE ∧ t = led_off_all b s ∧ i = (s.led_cmd_ind + 1) % 256))) := by
  unfold led_widget_work_cb at h
  unfold work_cb_run_call
  cases hs : s.state with
  | LED_STATE_IDLE => exact Or.inl ⟨rfl, rfl⟩
  | LED_STATE_PAUSE =>
    simp only [hs] at h
    split at h
    · next ha =>
      exact Or.inr ⟨s, 0, by simp [ha], h, ha, Or.inl ⟨rfl, rfl, rfl⟩⟩
    · exact Option.noConfusion h
  | LED_STATE_ACTIVE =>
    simp only [hs] at h
    split at h
    · next ha =>
      exact Or.inr ⟨led_off_all b s, (s.led_cmd_ind + 1) % 256, by simp [ha], h, ha,
        Or.inr ⟨rfl, rfl, rfl⟩⟩
    · exact Option.noConfusion h

/-- An event either runs no command, and then leaves the loop timers alone and
the outputs as they were or dark, or it makes the one call of `run_widget_cmd`
that `run_call` names, on a state that has the timers and the last-shown slots
of the old one and its outputs, as they were or blanked. -/
theorem fire_cases {b : Board} {s s' : State} {e : Event} (h : fire b s e = some s') :
    (run_call b s e = none ∧ s'.loop_timers = s.loop_timers ∧
      s'.loop_timer_started = s.loop_timer_started ∧
      (s'.leds = s.leds ∨ outputs_dark b s')) ∨
    (∃ t c i, run_call b s e = some (t, c, i) ∧ run_widget_cmd b t c i = some s' ∧
      t.loop_timers = s.loop_timers ∧ t.loop_timer_started = s.loop_timer_started ∧
      t.last_widgets_ind = s.last_widgets_ind ∧
      (t.leds = s.leds ∨ t.leds = leds_off_all b s.leds)) := by
  have hsched : ∀ ev widget, led_widget_schedule b s ev widget = some s' →
      (schedule_run_call b s ev widget = none ∧ s'.loop_timers = s.loop_timers ∧
        s'.loop_timer_started = s.loop_timer_started ∧
        (s'.leds = s.leds ∨ outputs_dark b s')) ∨
      (∃ t c i, schedule_run_call b s ev widget = some (t, c, i) ∧
        run_widget_cmd b t c i = some s' ∧
        t.loop_timers = s.loop_timers ∧ t.loop_timer_started = s.loop_timer_started ∧
        t.last_widgets_ind = s.last_widgets_ind ∧
        (t.leds = s.leds ∨ t.leds = leds_off_all b s.leds)) := by
    intro ev widget hsch
    rcases schedule_cases hsch with ⟨hn, rfl | rfl | rfl⟩ | ⟨t, hc, hrun, ⟨-, rfl⟩ | ⟨-, rfl⟩⟩
    · exact Or.inl ⟨hn, rfl, rfl, Or.inl rfl⟩
    · exact Or.inl ⟨hn, rfl, rfl, Or.inl rfl⟩
    · exact Or.inl ⟨hn, rfl, rfl, Or.inr (fun p hp => leds_off_all_zero b _ p hp)⟩
    · exact Or.inr ⟨_, ev, 0, hc, hrun, rfl, rfl, rfl, Or.inr rfl⟩
    · exact Or.inr ⟨_, ev, 0, hc, hrun, rfl, rfl, rfl, Or.inl rfl⟩
  cases e with
  | schedule ev widget => exact hsched ev widget h
  | work_expiry =>
    have h' : led_widget_work_cb b s = some s' := h
    rcases work_cb_cases h' with ⟨hs, hn⟩ | ⟨t, i, hc, hrun, -, ⟨-, rfl, -⟩ | ⟨-, rfl, -⟩⟩
    · obtain ⟨f1, f2, -⟩ := work_cb_idle_frame hs h'
      obtain ⟨_, _, -, -, -, -, -, hd, -⟩ := work_cb_idle_spec hs h'
      exact Or.inl ⟨hn, f1, f2, Or.inr hd⟩
    · exact Or.inr ⟨_, _, _, hc, hrun, rfl, rfl, rfl, Or.inl rfl⟩
    · exact Or.inr ⟨_, _, _, hc, hrun, rfl, rfl, rfl, Or.inr rfl⟩
  | loop_expiry ev =>
    have h' : loop_timer_handler b s ev = some s' := h
    unfold loop_timer_handler at h'
    split at h'
    · exact Option.noConfusion h'
    · next hev =>
      split at h'
      · next h0 =>
        have hrc : run_call b s (Event.loop_expiry ev)
            = schedule_run_call b s ev (s.last_widgets_ind ev).toNat := by
          simp only [run_call, if_neg hev, if_pos h0]
        rw [hrc]
        exact hsched ev _ h'
      · next h0 =>
        cases h'
        have hrc : run_call b s (Event.loop_expiry ev) = none := by
          simp only [run_call, if_neg hev, if_neg h0]
        exact Or.inl ⟨hrc, rfl, rfl, Or.inl rfl⟩

theorem run_widget_cmd_owner {b : Board} {t s' : State} {c i : Nat}
    (h : run_widget_cmd b t c i = some s') :
    ¬ (s'.active_widget_type < 0 ∨ s'.state = LED_STATE_PAUSE) := by
  obtain ⟨w, cmd, -, -, -, -, r3, -, -, r6, -⟩ := run_widget_cmd_spec h
  intro hcond
  rcases hcond with hc | hc
  · rw [r3] at hc; omega
  · rw [r6] at hc
    split at hc <;> exact led_state_t.noConfusion hc

theorem schedule_dark {b : Board} {s s' : State} {ev widget : Nat}
    (ih : (s.active_widget_type < 0 ∨ s.state = LED_STATE_PAUSE) → outputs_dark b s)
    (h : led_widget_schedule b s ev widget = some s') :
    (s'.active_widget_type < 0 ∨ s'.state = LED_STATE_PAUSE) → outputs_dark b s' := by
  intro hcond
  rcases schedule_cases h with ⟨-, rfl | rfl | rfl⟩ | ⟨t, -, hrun, -⟩
  · exact ih hcond
  · exact ih hcond
  · exact fun p hp => leds_off_all_zero b _ p hp
  · exact absurd hcond (run_widget_cmd_owner hrun)

/-- In every reachable state the outputs are dark while no class is active and
while the scheduler is paused. -/
theorem reachable_dark {b : Board} {s : State} (h : Reachable b s) :
    (s.active_widget_type < 0 ∨ s.state = LED_STATE_PAUSE) → outputs_dark b s := by
  induction h with
  | init => exact fun _ _ _ => rfl
  | @step s s' e hr hv hf ih =>
    cases e with
    | schedule ev widget => exact schedule_dark ih hf
    | work_expiry =>
      intro hcond
      have h' : led_widget_work_cb b s = some s' := hf
      rcases work_cb_cases h' with ⟨hs, -⟩ | ⟨t, i, -, hrun, -⟩
      · obtain ⟨_, _, -, -, -, -, -, hd, -⟩ := work_cb_idle_spec hs h'
        exact hd
      · exact absurd hcond (run_widget_cmd_owner hrun)
    | loop_expiry ev =>
      have h' : loop_timer_handler b s ev = some s' := hf
      unfold loop_timer_handler at h'
      split at h'
      · exact Option.noConfusion h'
      · split at h'
        · exact schedule_dark ih h'
        · cases h'
          exact ih

/-- C11. For every transition out of a reachable state (a request with a valid
selector, a step-timer expiry, a loop-timer expiry) whose handler calls
`run_widget_cmd`: the transition is that call, made on the state `t` that
`run_call` names, and in `t`, that is right before the brightness values of the
step are written, every position reads zero brightness. -/
theorem outputs_dark_before_step (b : Board) (s t : State) (e : Event) (c i : Nat)
    (hr : Reachable b s) (hv : valid_event b e) (hc : run_call b s e = some (t, c, i)) :
    fire b s e = run_widget_cmd b t c i ∧ outputs_dark b t := by
  have hdark := reachable_dark hr
  have hsched : ∀ ev widget, schedule_run_call b s ev widget = some (t, c, i) →
      led_widget_schedule b s ev widget = run_widget_cmd b t c i ∧ outputs_dark b t := by
    intro ev widget hsc
    unfold schedule_run_call at hsc
    unfold led_widget_schedule
    split at hsc
    · exact Option.noConfusion hsc
    · next hev =>
      rw [if_neg hev]
      split at hsc
      · next hss =>
        simp only [hss]
        simp only at hsc
        split at hsc
        · next hact =>
          rw [if_pos hact]
          split at hsc
          · exact Option.noConfusion hsc
          · next hp =>
            rw [if_neg hp]
            split at hsc
            · next w_ev w_active hg1 hg2 =>
              try simp only [hg1, hg2]
              split at hsc
              · exact Option.noConfusion hsc
              · next hle =>
                rw [if_neg hle]
                split at hsc
                · next hst =>
                  rw [if_pos hst]
                  cases hsc
                  exact ⟨rfl, fun p hp => leds_off_all_zero b _ p hp⟩
                · exact Option.noConfusion hsc
            · exact Option.noConfusion hsc
        · next hact =>
          rw [if_neg hact]
          cases hsc
          refine ⟨rfl, ?_⟩
          have hneg : s.active_widget_type < 0 := by
            have : ¬ 0 ≤ s.active_widget_type := hact
            omega
          exact hdark (Or.inl hneg)
      · exact Option.noConfusion hsc
  cases e with
  | schedule ev widget => exact hsched ev widget hc
  | work_expiry =>
    have hc' : work_cb_run_call b s = some (t, c, i) := hc
    show led_widget_work_cb b s = _ ∧ _
    unfold work_cb_run_call at hc'
    unfold led_widget_work_cb
    cases hs : s.state with
    | LED_STATE_IDLE => simp [hs] at hc'
    | LED_STATE_PAUSE =>
      simp only [hs] at hc'
      split at hc'
      · next ha =>
        cases hc'
        simp only [if_pos ha]
        exact ⟨trivial, hdark (Or.inr hs)⟩
      · exact Option.noConfusion hc'
    | LED_STATE_ACTIVE =>
      simp only [hs] at hc'
      split at hc'
      · next ha =>
        cases hc'
        simp only [if_pos ha]
        exact ⟨trivial, fun p hp => leds_off_all_zero b _ p hp⟩
      · exact Option.noConfusion hc'
  | loop_expiry ev =>
    have hc' : (if LED_EVENT_SIZE ≤ ev then none
        else if 0 ≤ s.last_widgets_ind ev then
          schedule_run_call b s ev (s.last_widgets_ind ev).toNat
        else none) = some (t, c, i) := hc
    show loop_timer_handler b s ev = _ ∧ _
    unfold loop_timer_handler
    split at hc'
    · exact Option.noConfusion hc'
    · next hev =>
      rw [if_neg hev]
      split at hc'
      · next h0 =>
        rw [if_pos h0]
        exact hsched ev _ hc'
      · exact Option.noConfusion hc'

/-- Instance of C11 on the example board: USB's first request, made in the
initial state, runs step 0 without blanking, on dark outputs. -/
theorem outputs_dark_before_step_witness :
    fire demo_board init_state (Event.schedule 0 0)
        = run_widget_cmd demo_board (set_pending init_state 0 0) 0 0 ∧
      outputs_dark demo_board (set_pending init_state 0 0) :=
  outputs_dark_before_step demo_board init_state (set_pending init_state 0 0)
    (Event.schedule 0 0) 0 0 Reachable.init ⟨by decide, by decide, by decide⟩ rfl

/-! ## The status overlay and the owner -/

/-- The overlay branch of a request, as an equation. -/
theorem schedule_overlay_eq {b : Board} {s : State} {ev widget a : Nat} {w_active : led_widget_t}
    (hev : ev < LED_EVENT_SIZE) (hw : widget < b.MAX_WIDGET_NUM) (hw8 : widget < 128)
    (ha : s.active_widget_type = (a : Int)) (hne : ev ≠ a)
    (hp : s.state ≠ LED_STATE_PAUSE)
    (hga : LED_ACTIVE_WIDGET_GET b s a = some w_active)
    (hst : widget_is_status (b.led_widgets ev widget) = true)
    (hgt : w_active.priority < (b.led_widgets ev widget).priority)
    (hnew : s.active_widgets_ind ev ≠ (widget : Int)) :
    led_widget_schedule b s ev widget
      = run_widget_cmd b (led_off_all b (set_pending s ev widget)) ev 0 := by
  have hn := same_status_of_not_noop (s := s) hev hw hw8 (not_noop_of_slot_ne hnew)
  have hact : 0 ≤ s.active_widget_type := by rw [ha]; exact Int.ofNat_nonneg a
  have h1 := get_set_pending_same (b := b) s hev hw hw8
  have h2 : LED_ACTIVE_WIDGET_GET b (set_pending s ev widget) s.active_widget_type.toNat
      = some w_active := by
    rw [toNat_of_eq_cast ha, get_set_pending_ne s widget (Ne.symm hne)]; exact hga
  rw [schedule_of_not_paused hev hn hact hp h1 h2, if_neg (by omega), if_pos hst]

/-- C14, as amended. While class `a` is active with step index `n` and the
scheduler is not paused, a request of another class `ev ≠ a` for a status pattern
of priority above that of `a`'s pending pattern returns with the step index still
`n` and `a`'s pending slot as it was; when the selector is already pending for
`ev` nothing changes at all (the active class is still `a`), and otherwise the
active class becomes `ev` and the scheduler is idle. -/
theorem schedule_status_overlay_owner (b : Board) (s : State) (ev widget a : Nat)
    (w_active : led_widget_t)
    (hev : ev < LED_EVENT_SIZE) (hw : widget < b.MAX_WIDGET_NUM) (hw8 : widget < 128)
    (ha : s.active_widget_type = (a : Int)) (hne : ev ≠ a)
    (hp : s.state ≠ LED_STATE_PAUSE)
    (hga : LED_ACTIVE_WIDGET_GET b s a = some w_active)
    (hst : widget_is_status (b.led_widgets ev widget) = true)
    (hgt : w_active.priority < (b.led_widgets ev widget).priority) :
    ∃ s', led_widget_schedule b s ev widget = some s' ∧
      s'.led_cmd_ind = s.led_cmd_ind ∧
      s'.active_widgets_ind a = s.active_widgets_ind a ∧
      (s.active_widgets_ind ev = (widget : Int) → s' = s) ∧
      (s.active_widgets_ind ev ≠ (widget : Int) →
        s'.active_widget_type = (ev : Int) ∧ s'.state = LED_STATE_IDLE) := by
  by_cases hslot : s.active_widgets_ind ev = (widget : Int)
  · exact ⟨s, schedule_of_noop hev hw hw8 ⟨hslot, hst⟩, rfl, rfl, fun _ => rfl,
      fun hn => absurd hslot hn⟩
  · have h3 : LED_ACTIVE_WIDGET_GET b (led_off_all b (set_pending s ev widget)) ev
        = some (b.led_widgets ev widget) := get_set_pending_same (b := b) s hev hw hw8
    obtain ⟨s', hs'⟩ := run_widget_cmd_some h3 (show 0 < 10 by omega)
    refine ⟨s', by rw [schedule_overlay_eq hev hw hw8 ha hne hp hga hst hgt hslot, hs'], ?_⟩
    obtain ⟨w, cmd, hg, -, r1, -, r3, -, -, r6, r7, -⟩ := run_widget_cmd_spec hs'
    rw [h3] at hg
    cases hg
    simp only [widget_is_status, Bool.and_eq_true, beq_iff_eq] at hst
    refine ⟨?_, ?_, fun h => absurd h hslot, fun _ => ⟨r3, ?_⟩⟩
    · rw [r7, if_pos (by omega)]; rfl
    · rw [r1]; exact set_pending_slot_ne s ev widget a (Ne.symm hne)
    · rw [r6, if_pos (by omega)]

/-- Instance of the amended C14 on the example board: while USB shows its
selector 0, BLE requests its status selector 1. -/
theorem schedule_status_overlay_owner_witness :
    ∃ s', led_widget_schedule demo_board demo_usb_active 1 1 = some s' ∧
      s'.led_cmd_ind = demo_usb_active.led_cmd_ind ∧
      s'.active_widgets_ind 0 = demo_usb_active.active_widgets_ind 0 ∧
      (demo_usb_active.active_widgets_ind 1 = ((1 : Nat) : Int) → s' = demo_usb_active) ∧
      (demo_usb_active.active_widgets_ind 1 ≠ ((1 : Nat) : Int) →
        s'.active_widget_type = ((1 : Nat) : Int) ∧ s'.state = LED_STATE_IDLE) :=
  schedule_status_overlay_owner demo_board demo_usb_active 1 1 0 (demo_widgets 0 0)
    (by decide) (by decide) (by decide) rfl (by decide) (by decide) rfl rfl (by decide)

/-- C14 fails as stated: on the example board USB (class 0) shows its selector 0
(priority 4) at step 0 and BLE (class 1) requests its status selector 1
(priority 5); after the call the active class is BLE, not USB. -/
theorem schedule_status_overlay_owner_counterexample :
    Reachable demo_board demo_usb_active ∧
    demo_usb_active.active_widget_type = 0 ∧
    demo_usb_active.state ≠ LED_STATE_PAUSE ∧
    widget_is_status (demo_board.led_widgets 1 1) = true ∧
    (∃ w_active, LED_ACTIVE_WIDGET_GET demo_board demo_usb_active 0 = some w_active ∧
      w_active.priority < (demo_board.led_widgets 1 1).priority) ∧
    ∃ s', led_widget_schedule demo_board demo_usb_active 1 1 = some s' ∧
      s'.active_widget_type = 1 ∧ s'.active_widget_type ≠ demo_usb_active.active_widget_type :=
  ⟨demo_usb_active_reachable, rfl, by decide, rfl, ⟨_, rfl, by decide⟩,
    ⟨_, rfl, by decide, by decide⟩⟩

/-! ## The command executor, in full -/

/-- C16. For a class whose pending slot holds a valid selector and a step index
inside the ten entries of `commands` (so for every index below a `cmd_len` of at
most 10; that the index is below `cmd_len` is not needed), `run_widget_cmd`
returns; with an injective position-to-LED map every position
reads the brightness of the command; the step timer is requested with the
command's timeout exactly when that timeout is not zero; the class becomes the
active one; the state is idle with the step index unchanged after the last
command and active with step index `i` otherwise; no pending or last-shown slot
changes. -/
theorem run_widget_cmd_post (b : Board) (s : State) (c i : Nat) (w : led_widget_t)
    (hg : LED_ACTIVE_WIDGET_GET b s c = some w) (hi10 : i < 10)
    (hinj : ∀ p q, p < b.NUM_LEDS → q < b.NUM_LEDS →
      b.led_index_by_key p = b.led_index_by_key q → p = q) :
    ∃ s', run_widget_cmd b s c i = some s' ∧
      (∀ p, p < b.NUM_LEDS →
        s'.leds (b.led_index_by_key p) = brightness_at (w.commands.getD i led_cmd_zero) p) ∧
      ((w.commands.getD i led_cmd_zero).timeout ≠ 0 →
        s'.led_widget_work = (w.commands.getD i led_cmd_zero).timeout :: s.led_widget_work) ∧
      ((w.commands.getD i led_cmd_zero).timeout = 0 →
        s'.led_widget_work = s.led_widget_work) ∧
      s'.active_widget_type = (c : Int) ∧
      (i + 1 = w.cmd_len → s'.state = LED_STATE_IDLE ∧ s'.led_cmd_ind = s.led_cmd_ind) ∧
      (i + 1 ≠ w.cmd_len → s'.state = LED_STATE_ACTIVE ∧ s'.led_cmd_ind = i) ∧
      s'.active_widgets_ind = s.active_widgets_ind ∧
      s'.last_widgets_ind = s.last_widgets_ind := by
  obtain ⟨s', hs'⟩ := run_widget_cmd_some hg hi10
  refine ⟨s', hs', ?_⟩
  obtain ⟨w', cmd, hg', hc, r1, r2, r3, r4, r5, r6, r7, -⟩ := run_widget_cmd_spec hs'
  rw [hg] at hg'
  cases hg'
  simp only [commands_at, hi10, if_true, Option.some.injEq] at hc
  subst hc
  refine ⟨?_, ?_, ?_, r3, ?_, ?_, r1, r2⟩
  · intro p hp
    rw [r4]
    apply leds_set_cmd_at b _ _ p hp
    intro q hpq hq heq
    have := hinj q p hq hp heq
    omega
  · intro ht
    rw [r5, if_pos (by omega)]
  · intro ht
    rw [r5, if_neg (by omega)]
  · intro hl
    rw [r6, r7, if_pos hl.symm, if_pos hl.symm]
    exact ⟨rfl, rfl⟩
  · intro hl
    rw [r6, r7, if_neg (fun h => hl h.symm), if_neg (fun h => hl h.symm)]
    exact ⟨rfl, rfl⟩

/-- Instance of C16 on the example board: step 1, the last one, of USB's
selector 0. -/
theorem run_widget_cmd_post_witness :
    ∃ s', run_widget_cmd demo_board demo_usb_active 0 1 = some s' ∧
      (∀ p, p < demo_board.NUM_LEDS →
        s'.leds (demo_board.led_index_by_key p)
          = brightness_at ((demo_widgets 0 0).commands.getD 1 led_cmd_zero) p) ∧
      (((demo_widgets 0 0).commands.getD 1 led_cmd_zero).timeout ≠ 0 →
        s'.led_widget_work
          = ((demo_widgets 0 0).commands.getD 1 led_cmd_zero).timeout
              :: demo_usb_active.led_widget_work) ∧
      (((demo_widgets 0 0).commands.getD 1 led_cmd_zero).timeout = 0 →
        s'.led_widget_work = demo_usb_active.led_widget_work) ∧
      s'.active_widget_type = ((0 : Nat) : Int) ∧
      (1 + 1 = (demo_widgets 0 0).cmd_len →
        s'.state = LED_STATE_IDLE ∧ s'.led_cmd_ind = demo_usb_active.led_cmd_ind) ∧
      (1 + 1 ≠ (demo_widgets 0 0).cmd_len →
        s'.state = LED_STATE_ACTIVE ∧ s'.led_cmd_ind = 1) ∧
      s'.active_widgets_ind = demo_usb_active.active_widgets_ind ∧
      s'.last_widgets_ind = demo_usb_active.last_widgets_ind :=
  run_widget_cmd_post demo_board demo_usb_active 0 1 (demo_widgets 0 0) rfl (by decide)
    (by
      intro p q hp hq h
      have hp' : p < 2 := hp
      have hq' : q < 2 := hq
      have h' : 1 - p = 1 - q := h
      omega)

/-- C17. When `run_widget_cmd` runs command `i` of the pending pattern of class
`c`: with `i = 0` and a period above zero the loop timer of `c` is started with
that period when `loop_timer_started[c]` was false and is left as it was when the
flag was true, so that it runs afterwards whenever the flag told the truth, and
the flag is true afterwards; with `i = 0` and period zero the timer is stopped and
the flag false; with `i > 0` timer and flag are as before; the timers and flags
of the other classes never change. -/
theorem run_widget_cmd_loop_timer (b : Board) (s : State) (c i : Nat) (w : led_widget_t)
    (hg : LED_ACTIVE_WIDGET_GET b s c = some w) (hi : i < 10) :
    ∃ s', run_widget_cmd b s c i = some s' ∧
      (i = 0 → 0 < w.period → s.loop_timer_started c = false →
        s'.loop_timers c = some w.period ∧ s'.loop_timer_started c = true) ∧
      (i = 0 → 0 < w.period → s.loop_timer_started c = true →
        s'.loop_timers c = s.loop_timers c ∧ s'.loop_timer_started c = true) ∧
      (i = 0 → 0 < w.period →
        (s.loop_timer_started c = true → (s.loop_timers c).isSome = true) →
        (s'.loop_timers c).isSome = true) ∧
      (i = 0 → w.period = 0 →
        s'.loop_timers c = none ∧ s'.loop_timer_started c = false) ∧
      (0 < i → s'.loop_timers c = s.loop_timers c ∧
        s'.loop_timer_started c = s.loop_timer_started c) ∧
      (∀ c', c' ≠ c → s'.loop_timers c' = s.loop_timers c' ∧
        s'.loop_timer_started c' = s.loop_timer_started c') := by
  obtain ⟨s', hs'⟩ := run_widget_cmd_some hg hi
  refine ⟨s', hs', ?_⟩
  obtain ⟨w', cmd, hg', -, -, -, -, -, -, -, -, r8, r9⟩ := run_widget_cmd_spec hs'
  rw [hg] at hg'
  cases hg'
  have key1 : 0 < w.period → s.loop_timer_started c = false →
      (loop_timer_step0 s c w.period).loop_timers c = some w.period ∧
      (loop_timer_step0 s c w.period).loop_timer_started c = true := by
    intro hP hf
    simp [loop_timer_step0, hP, hf]
  have key2 : 0 < w.period → s.loop_timer_started c = true →
      (loop_timer_step0 s c w.period).loop_timers c = s.loop_timers c ∧
      (loop_timer_step0 s c w.period).loop_timer_started c = true := by
    intro hP hf
    simp [loop_timer_step0, hP, hf]
  have key3 : w.period = 0 →
      (loop_timer_step0 s c w.period).loop_timers c = none ∧
      (loop_timer_step0 s c w.period).loop_timer_started c = false := by
    intro hP
    simp [loop_timer_step0, hP]
  have key4 : ∀ c', c' ≠ c →
      (loop_timer_step0 s c w.period).loop_timers c' = s.loop_timers c' ∧
      (loop_timer_step0 s c w.period).loop_timer_started c' = s.loop_timer_started c' := by
    intro c' hc'
    unfold loop_timer_step0
    split
    · split
      · exact ⟨Function.update_noteq hc' _ _, Function.update_noteq hc' _ _⟩
      · exact ⟨rfl, rfl⟩
    · exact ⟨Function.update_noteq hc' _ _, Function.update_noteq hc' _ _⟩
  refine ⟨?_, ?_, ?_, ?_, ?_, ?_⟩
  · intro h0 hP hf
    rw [r8, r9, if_pos h0, if_pos h0]
    exact key1 hP hf
  · intro h0 hP hf
    rw [r8, r9, if_pos h0, if_pos h0]
    exact key2 hP hf
  · intro h0 hP hflag
    rw [r8, if_pos h0]
    cases hf : s.loop_timer_started c with
    | false => rw [(key1 hP hf).1]; rfl
    | true => rw [(key2 hP hf).1]; exact hflag hf
  · intro h0 hP
    rw [r8, r9, if_pos h0, if_pos h0]
    exact key3 hP
  · intro h0
    rw [r8, r9, if_neg (by omega), if_neg (by omega)]
    exact ⟨rfl, rfl⟩
  · intro c' hc'
    rw [r8, r9]
    split
    · exact key4 c' hc'
    · exact ⟨rfl, rfl⟩

/-- Instance of C17 on the example board: step 0 of USB's selector 0 run in a
state whose USB loop timer already runs. -/
theorem run_widget_cmd_loop_timer_witness :
    ∃ s', run_widget_cmd demo_board demo_usb_active 0 0 = some s' ∧
      s'.loop_timers 0 = demo_usb_active.loop_timers 0 ∧ s'.loop_timer_started 0 = true ∧
      (s'.loop_timers 0).isSome = true ∧
      (∀ c', c' ≠ 0 → s'.loop_timers c' = demo_usb_active.loop_timers c' ∧
        s'.loop_timer_started c' = demo_usb_active.loop_timer_started c') :=
  (run_widget_cmd_loop_timer demo_board demo_usb_active 0 0 (demo_widgets 0 0) rfl
    (by decide)).elim fun s' h =>
    ⟨s', h.1, (h.2.2.1 rfl (by decide) (by decide)).1, (h.2.2.1 rfl (by decide) (by decide)).2,
      h.2.2.2.1 rfl (by decide) (fun _ => by decide), h.2.2.2.2.2.2⟩

/-! ## Table lookups of the reachable states -/

/-- A handler returns in a well-formed state unless the active case of the work
queue callback is about to read `commands` past its ten entries. -/
theorem fire_some {b : Board} {s : State} {e : Event} (hinv : Inv b s) (hv : valid_event b e)
    (hidx : s.state = LED_STATE_ACTIVE → (s.led_cmd_ind + 1) % 256 < 10) :
    ∃ s', fire b s e = some s' := by
  have hwf : 0 ≤ s.active_widget_type →
      ∃ w, LED_ACTIVE_WIDGET_GET b s s.active_widget_type.toNat = some w := by
    intro h0
    obtain ⟨h1, h2⟩ := hinv.2.2.1 h0
    exact get_some_of_sel_ok (by unfold LED_EVENT_SIZE at *; omega) h2
  cases e with
  | schedule ev widget => exact schedule_some hv.1 hv.2.1 hv.2.2 hwf
  | work_expiry =>
    show ∃ s', led_widget_work_cb b s = some s'
    cases hs : s.state with
    | LED_STATE_IDLE => exact work_cb_idle_some hinv hs
    | LED_STATE_PAUSE =>
      have h0 : 0 ≤ s.active_widget_type := hinv.2.1 (by rw [hs]; decide)
      obtain ⟨w, hw⟩ := hwf h0
      obtain ⟨s', hs'⟩ := run_widget_cmd_some hw (show 0 < 10 by omega)
      exact ⟨s', by simp only [led_widget_work_cb, hs, if_pos h0, hs']⟩
    | LED_STATE_ACTIVE =>
      have h0 : 0 ≤ s.active_widget_type := hinv.2.1 (by rw [hs]; decide)
      obtain ⟨w, hw⟩ := hwf h0
      have hw' : LED_ACTIVE_WIDGET_GET b (led_off_all b s) s.active_widget_type.toNat
          = some w := hw
      obtain ⟨s', hs'⟩ := run_widget_cmd_some hw' (hidx hs)
      exact ⟨s', by simp only [led_widget_work_cb, hs, if_pos h0, hs']⟩
  | loop_expiry ev =>
    show ∃ s', loop_timer_handler b s ev = some s'
    have hev : ev < LED_EVENT_SIZE := hv
    unfold loop_timer_handler
    rw [if_neg (by omega)]
    split
    · next h0 =>
      obtain ⟨h1, h2⟩ := last_toNat_ok hinv h0
      exact schedule_some hev h1 h2 hwf
    · exact ⟨s, rfl⟩

/-- C18. In every state reachable by requests with valid selectors, step-timer
expiries and loop-timer expiries, an active class has a pending selector, and it
is one of the table; consequently no handler reads the pattern table out of
range: the only read that can be undefined is that of `commands` past its ten
entries in the active case of the work queue callback. -/
theorem active_class_has_pending (b : Board) (s : State) (h : Reachable b s) :
    (0 ≤ s.active_widget_type →
      s.active_widgets_ind s.active_widget_type.toNat ≠ -1 ∧
      ∃ w, LED_ACTIVE_WIDGET_GET b s s.active_widget_type.toNat = some w) ∧
    (∀ e, valid_event b e → fire b s e = none →
      s.state = LED_STATE_ACTIVE ∧ 10 ≤ (s.led_cmd_ind + 1) % 256) := by
  have hinv := reachable_inv h
  constructor
  · intro h0
    obtain ⟨h1, h2⟩ := hinv.2.2.1 h0
    refine ⟨?_, get_some_of_sel_ok (by unfold LED_EVENT_SIZE at *; omega) h2⟩
    have := h2.1
    omega
  · intro e hv hnone
    by_contra hcon
    have hidx : s.state = LED_STATE_ACTIVE → (s.led_cmd_ind + 1) % 256 < 10 := by
      intro hs
      by_contra hge
      exact hcon ⟨hs, by omega⟩
    obtain ⟨s', hs'⟩ := fire_some hinv hv hidx
    rw [hnone] at hs'
    exact Option.noConfusion hs'

/-- Instance of C18 on the example board: the state in which USB shows its
selector 0. -/
theorem active_class_has_pending_witness :
    demo_usb_active.active_widgets_ind demo_usb_active.active_widget_type.toNat ≠ -1 ∧
    ∃ w, LED_ACTIVE_WIDGET_GET demo_board demo_usb_active
      demo_usb_active.active_widget_type.toNat = some w :=
  (active_class_has_pending demo_board demo_usb_active demo_usb_active_reachable).1
    (by decide)

/-! ## Requests of the active class -/

/-- C20. A request of a valid selector by the class that is already active either
is the skipped status request, which returns the state unchanged, or returns the
state with only that class's pending slot overwritten; in both cases the
scheduler state, the active class, the step index, the outputs, the step-timer
requests, the loop timers and the last-shown slots are as before. -/
theorem schedule_active_class (b : Board) (s : State) (ev widget : Nat)
    (hev : ev < LED_EVENT_SIZE) (hw : widget < b.MAX_WIDGET_NUM) (hw8 : widget < 128)
    (ha : s.active_widget_type = (ev : Int)) :
    ∃ s', led_widget_schedule b s ev widget = some s' ∧
      (status_noop b s ev widget → s' = s) ∧
      (¬ status_noop b s ev widget → s' = set_pending s ev widget) ∧
      s'.state = s.state ∧ s'.active_widget_type = s.active_widget_type ∧
      s'.led_cmd_ind = s.led_cmd_ind ∧ s'.leds = s.leds ∧
      s'.led_widget_work = s.led_widget_work ∧
      s'.loop_timers = s.loop_timers ∧ s'.loop_timer_started = s.loop_timer_started ∧
      s'.last_widgets_ind = s.last_widgets_ind ∧
      s'.active_widgets_ind ev = (widget : Int) ∧
      ∀ c, c ≠ ev → s'.active_widgets_ind c = s.active_widgets_ind c := by
  by_cases hno : status_noop b s ev widget
  · exact ⟨s, schedule_of_noop hev hw hw8 hno, fun _ => rfl, fun h => absurd hno h,
      rfl, rfl, rfl, rfl, rfl, rfl, rfl, rfl, hno.1, fun _ _ => rfl⟩
  · have hn := same_status_of_not_noop hev hw hw8 hno
    have hact : 0 ≤ s.active_widget_type := by rw [ha]; exact Int.ofNat_nonneg ev
    refine ⟨set_pending s ev widget, ?_, fun h => absurd h hno, fun _ => rfl,
      rfl, rfl, rfl, rfl, rfl, rfl, rfl, rfl,
      set_pending_slot_same s ev widget hw8, fun c hc => set_pending_slot_ne s ev widget c hc⟩
    by_cases hp : s.state = LED_STATE_PAUSE
    · exact schedule_of_paused hev hn hact hp
    · have h1 := get_set_pending_same (b := b) s hev hw hw8
      have h2 : LED_ACTIVE_WIDGET_GET b (set_pending s ev widget) s.active_widget_type.toNat
          = some (b.led_widgets ev widget) := by
        rw [toNat_of_eq_cast ha]; exact h1
      rw [schedule_of_not_paused hev hn hact hp h1 h2, if_pos (le_refl _)]

/-- Instance of C20 on the example board: USB, showing its selector 0, requests
its selector 2 of higher priority. -/
theorem schedule_active_class_witness :
    ∃ s', led_widget_schedule demo_board demo_usb_active 0 2 = some s' ∧
      (status_noop demo_board demo_usb_active 0 2 → s' = demo_usb_active) ∧
      (¬ status_noop demo_board demo_usb_active 0 2 → s' = set_pending demo_usb_active 0 2) ∧
      s'.state = demo_usb_active.state ∧
      s'.active_widget_type = demo_usb_active.active_widget_type ∧
      s'.led_cmd_ind = demo_usb_active.led_cmd_ind ∧ s'.leds = demo_usb_active.leds ∧
      s'.led_widget_work = demo_usb_active.led_widget_work ∧
      s'.loop_timers = demo_usb_active.loop_timers ∧
      s'.loop_timer_started = demo_usb_active.loop_timer_started ∧
      s'.last_widgets_ind = demo_usb_active.last_widgets_ind ∧
      s'.active_widgets_ind 0 = ((2 : Nat) : Int) ∧
      ∀ c, c ≠ 0 → s'.active_widgets_ind c = demo_usb_active.active_widgets_ind c :=
  schedule_active_class demo_board demo_usb_active 0 2 (by decide) (by decide) (by decide) rfl

/-! ## The step index and the pending pattern -/

theorem demo_widgets_cmd_len (ev sel : Nat) :
    1 ≤ (demo_widgets ev sel).cmd_len ∧ (demo_widgets ev sel).cmd_len ≤ 10 := by
  unfold demo_widgets
  split <;> exact ⟨by decide, by decide⟩

theorem demo_usb_shortened_reachable : Reachable demo_board demo_usb_shortened := by
  refine reachable_run_events demo_shortened_run init_state _ Reachable.init ?_ rfl
  intro e he
  simp only [demo_shortened_run, List.mem_cons, List.mem_singleton, List.mem_nil_iff,
    or_false] at he
  rcases he with rfl | rfl
  · exact ⟨by decide, by decide, by decide⟩
  · exact ⟨by decide, by decide, by decide⟩

/-- C19, the code at the failing input. On the example board, whose patterns all
have between 1 and 10 commands, USB requests its two-step selector 0 and then,
while step 0 is shown, its one-step selector 1. The second request only
overwrites the slot, so the scheduler is active with step index 0 while the
pending pattern of the active class has one command: `led_cmd_ind + 1` is not
below `cmd_len`. The next step-timer expiry runs command 1 of the one-step
pattern, an entry past its `cmd_len`, misses the `cmd_len == cmd_ind + 1` test
and leaves the scheduler active at step index 1 with no step timer requested. -/
theorem step_index_past_pattern :
    (∀ ev sel, 1 ≤ (demo_board.led_widgets ev sel).cmd_len ∧
      (demo_board.led_widgets ev sel).cmd_len ≤ 10) ∧
    Reachable demo_board demo_usb_shortened ∧
    demo_usb_shortened.state = LED_STATE_ACTIVE ∧
    demo_usb_shortened.active_widget_type = 0 ∧
    demo_usb_shortened.led_cmd_ind = 0 ∧
    (∃ w, LED_ACTIVE_WIDGET_GET demo_board demo_usb_shortened 0 = some w ∧ w.cmd_len = 1 ∧
      ¬ demo_usb_shortened.led_cmd_ind + 1 < w.cmd_len) ∧
    ∃ s', led_widget_work_cb demo_board demo_usb_shortened = some s' ∧
      s'.state = LED_STATE_ACTIVE ∧ s'.led_cmd_ind = 1 ∧
      s'.led_widget_work = demo_usb_shortened.led_widget_work :=
  ⟨demo_widgets_cmd_len, demo_usb_shortened_reachable, by decide, by decide, by decide,
    ⟨_, rfl, by decide, by decide⟩, ⟨_, rfl, by decide, by decide, by decide⟩⟩

/-! ## Single steps, as equations -/

/-- The loop-timer block reads and writes only the timers and their flags. -/
theorem loop_timer_step0_congr {s t : State} (c period : Nat)
    (h1 : t.loop_timers = s.loop_timers) (h2 : t.loop_timer_started = s.loop_timer_started) :
    (loop_timer_step0 t c period).loop_timers = (loop_timer_step0 s c period).loop_timers ∧
    (loop_timer_step0 t c period).loop_timer_started
      = (loop_timer_step0 s c period).loop_timer_started := by
  unfold loop_timer_step0
  by_cases hP : 0 < period
  · cases hf : s.loop_timer_started c <;> simp [hP, h1, h2, hf]
  · simp [hP, h1, h2]

/-- The result of `run_widget_cmd` for a class whose pending pattern is `w`. -/
theorem run_widget_cmd_result {b : Board} {s : State} {c i : Nat} {w : led_widget_t}
    (hg : LED_ACTIVE_WIDGET_GET b s c = some w) (hi : i < 10) :
    ∃ s', run_widget_cmd b s c i = some s' ∧
      s'.active_widgets_ind = s.active_widgets_ind ∧
      s'.last_widgets_ind = s.last_widgets_ind ∧
      s'.active_widget_type = (c : Int) ∧
      s'.leds = leds_set_cmd b (w.commands.getD i led_cmd_zero) s.leds ∧
      s'.led_widget_work =
        (if 0 < (w.commands.getD i led_cmd_zero).timeout then
          (w.commands.getD i led_cmd_zero).timeout :: s.led_widget_work
         else s.led_widget_work) ∧
      s'.state = (if w.cmd_len = i + 1 then LED_STATE_IDLE else LED_STATE_ACTIVE) ∧
      s'.led_cmd_ind = (if w.cmd_len = i + 1 then s.led_cmd_ind else i) ∧
      s'.loop_timers =
        (if i = 0 then (loop_timer_step0 s c w.period).loop_timers else s.loop_timers) ∧
      s'.loop_timer_started =
        (if i = 0 then (loop_timer_step0 s c w.period).loop_timer_started
         else s.loop_timer_started) := by
  obtain ⟨s', hs'⟩ := run_widget_cmd_some hg hi
  refine ⟨s', hs', ?_⟩
  obtain ⟨w', cmd, hg', hc, r1, r2, r3, r4, r5, r6, r7, r8, r9⟩ := run_widget_cmd_spec hs'
  rw [hg] at hg'
  cases hg'
  simp only [commands_at, hi, if_true, Option.some.injEq] at hc
  subst hc
  exact ⟨r1, r2, r3, r4, r5, r6, r7, r8, r9⟩

/-- The pause case of the work queue callback. -/
theorem work_cb_pause_eq {b : Board} {s : State} {a : Nat} (hs : s.state = LED_STATE_PAUSE)
    (ha : s.active_widget_type = (a : Int)) :
    led_widget_work_cb b s = run_widget_cmd b s a 0 := by
  have h0 : 0 ≤ s.active_widget_type := by rw [ha]; exact Int.ofNat_nonneg a
  simp only [led_widget_work_cb, hs, if_pos h0, toNat_of_eq_cast ha]

/-- The active case of the work queue callback. -/
theorem work_cb_active_eq {b : Board} {s : State} {a : Nat} (hs : s.state = LED_STATE_ACTIVE)
    (ha : s.active_widget_type = (a : Int)) :
    led_widget_work_cb b s
      = run_widget_cmd b (led_off_all b s) a ((s.led_cmd_ind + 1) % 256) := by
  have h0 : 0 ≤ s.active_widget_type := by rw [ha]; exact Int.ofNat_nonneg a
  simp only [led_widget_work_cb, hs, if_pos h0, toNat_of_eq_cast ha]

/-- The preemption branch of a request, as an equation. -/
theorem schedule_preempt_eq {b : Board} {s : State} {ev widget a : Nat} {w_active : led_widget_t}
    (hev : ev < LED_EVENT_SIZE) (hw : widget < b.MAX_WIDGET_NUM) (hw8 : widget < 128)
    (ha : s.active_widget_type = (a : Int)) (hne : ev ≠ a)
    (hp : s.state ≠ LED_STATE_PAUSE)
    (hga : LED_ACTIVE_WIDGET_GET b s a = some w_active)
    (hst : widget_is_status (b.led_widgets ev widget) = false)
    (hgt : w_active.priority < (b.led_widgets ev widget).priority) :
    led_widget_schedule b s ev widget = some (led_widget_pause b
      { set_pending s ev widget with active_widget_type := (ev : Int) }) := by
  have hn := same_status_of_not_noop (s := s) hev hw hw8 (not_noop_of_not_status hst)
  have hact : 0 ≤ s.active_widget_type := by rw [ha]; exact Int.ofNat_nonneg a
  have h1 := get_set_pending_same (b := b) s hev hw hw8
  have h2 : LED_ACTIVE_WIDGET_GET b (set_pending s ev widget) s.active_widget_type.toNat
      = some w_active := by
    rw [toNat_of_eq_cast ha, get_set_pending_ne s widget (Ne.symm hne)]; exact hga
  rw [schedule_of_not_paused hev hn hact hp h1 h2, if_neg (by omega), hst]
  rfl

/-- The branch of a request without an active class: step 0 of the requested
pattern runs on the state with the slot written. -/
theorem schedule_start_result {b : Board} {s : State} {ev widget : Nat}
    (hev : ev < LED_EVENT_SIZE) (hw : widget < b.MAX_WIDGET_NUM) (hw8 : widget < 128)
    (hact : s.active_widget_type < 0) (hslot : s.active_widgets_ind ev ≠ (widget : Int)) :
    ∃ s', led_widget_schedule b s ev widget = some s' ∧
      run_widget_cmd b (set_pending s ev widget) ev 0 = some s' ∧
      s'.active_widgets_ind = Function.update s.active_widgets_ind ev (widget : Int) ∧
      s'.last_widgets_ind = s.last_widgets_ind ∧
      s'.active_widget_type = (ev : Int) ∧
      s'.leds = leds_set_cmd b ((b.led_widgets ev widget).commands.getD 0 led_cmd_zero) s.leds ∧
      s'.led_widget_work =
        (if 0 < ((b.led_widgets ev widget).commands.getD 0 led_cmd_zero).timeout then
          ((b.led_widgets ev widget).commands.getD 0 led_cmd_zero).timeout :: s.led_widget_work
         else s.led_widget_work) ∧
      s'.state =
        (if (b.led_widgets ev widget).cmd_len = 0 + 1 then LED_STATE_IDLE
         else LED_STATE_ACTIVE) ∧
      s'.led_cmd_ind = (if (b.led_widgets ev widget).cmd_len = 0 + 1 then s.led_cmd_ind else 0) ∧
      s'.loop_timers = (loop_timer_step0 s ev (b.led_widgets ev widget).period).loop_timers ∧
      s'.loop_timer_started
        = (loop_timer_step0 s ev (b.led_widgets ev widget).period).loop_timer_started := by
  have hn := same_status_of_not_noop (s := s) hev hw hw8 (not_noop_of_slot_ne hslot)
  have hact' : ¬ 0 ≤ s.active_widget_type := by omega
  have h1 := get_set_pending_same (b := b) s hev hw hw8
  obtain ⟨s', hs', r1, r2, r3, r4, r5, r6, r7, r8, r9⟩ :=
    run_widget_cmd_result h1 (show 0 < 10 by omega)
  have hsch : led_widget_schedule b s ev widget = some s' := by
    rw [schedule_of_no_active hev hn hact', hs']
  refine ⟨s', hsch, hs', (schedule_frame hw8 hsch).1, r2, r3, r4, r5, r6, r7, ?_, ?_⟩
  · rw [r8, if_pos rfl]
    exact (loop_timer_step0_congr (s := s) (t := set_pending s ev widget) ev _ rfl rfl).1
  · rw [r9, if_pos rfl]
    exact (loop_timer_step0_congr (s := s) (t := set_pending s ev widget) ev _ rfl rfl).2

/-! ## Preempt and resume -/

/-- C13. On every board whose USB pattern `u` has priority 4, period 2000 and
two commands and whose battery pattern `v` has priority 10, period 0 and three
commands: from the initial state the request of `u` shows USB's step 0 and starts
USB's loop timer; the request of `v` pauses with battery as the active class and
dark outputs; the following step-timer expiries run battery's steps 0 (which
leaves battery's loop timer stopped) and 1 (active) and 2 (the last one, idle); then the idle handler clears battery's slot, records `v` as last
shown, finds `u` still pending and pauses with USB as the active class; and the
next expiry runs USB's step 0 again. -/
theorem preempt_and_resume (b : Board) (u v : Nat)
    (hu : u < b.MAX_WIDGET_NUM) (hu8 : u < 128) (hv : v < b.MAX_WIDGET_NUM) (hv8 : v < 128)
    (hup : (b.led_widgets LED_EVENT_USB u).priority = 4)
    (huP : (b.led_widgets LED_EVENT_USB u).period = 2000)
    (hul : (b.led_widgets LED_EVENT_USB u).cmd_len = 2)
    (hvp : (b.led_widgets LED_EVENT_BATTERY v).priority = 10)
    (hvP : (b.led_widgets LED_EVENT_BATTERY v).period = 0)
    (hvl : (b.led_widgets LED_EVENT_BATTERY v).cmd_len = 3) :
    ∃ s1 s2 s3 s4 s5 s6 s7 : State,
      (led_widget_schedule b init_state LED_EVENT_USB u = some s1 ∧
        s1.state = LED_STATE_ACTIVE ∧ s1.active_widget_type = 0 ∧ s1.led_cmd_ind = 0 ∧
        s1.loop_timers LED_EVENT_USB = some 2000) ∧
      (led_widget_schedule b s1 LED_EVENT_BATTERY v = some s2 ∧
        s2.state = LED_STATE_PAUSE ∧ s2.active_widget_type = 2 ∧ outputs_dark b s2) ∧
      (led_widget_work_cb b s2 = some s3 ∧
        s3.state = LED_STATE_ACTIVE ∧ s3.active_widget_type = 2 ∧ s3.led_cmd_ind = 0 ∧
        s3.loop_timers LED_EVENT_BATTERY = none) ∧
      (led_widget_work_cb b s3 = some s4 ∧
        s4.state = LED_STATE_ACTIVE ∧ s4.active_widget_type = 2 ∧ s4.led_cmd_ind = 1) ∧
      (led_widget_work_cb b s4 = some s5 ∧
        s5.state = LED_STATE_IDLE ∧ s5.active_widget_type = 2 ∧
        s5.leds = leds_set_cmd b
          ((b.led_widgets LED_EVENT_BATTERY v).commands.getD 2 led_cmd_zero)
          (leds_off_all b s4.leds)) ∧
      (led_widget_work_cb b s5 = some s6 ∧
        s6.active_widgets_ind LED_EVENT_BATTERY = -1 ∧
        s6.last_widgets_ind LED_EVENT_BATTERY = (v : Int) ∧
        s6.active_widgets_ind LED_EVENT_USB = (u : Int) ∧
        s6.state = LED_STATE_PAUSE ∧ s6.active_widget_type = 0 ∧ outputs_dark b s6) ∧
      (led_widget_work_cb b s6 = some s7 ∧
        s7.state = LED_STATE_ACTIVE ∧ s7.active_widget_type = 0 ∧ s7.led_cmd_ind = 0 ∧
        s7.leds = leds_set_cmd b
          ((b.led_widgets LED_EVENT_USB u).commands.getD 0 led_cmd_zero) s6.leds) := by
  have hup' : (b.led_widgets 0 u).priority = 4 := hup
  have hul' : (b.led_widgets 0 u).cmd_len = 2 := hul
  have hvp' : (b.led_widgets 2 v).priority = 10 := hvp
  have hvl' : (b.led_widgets 2 v).cmd_len = 3 := hvl
  -- USB's request in the initial state
  have hi1 : init_state.active_widgets_ind 0 ≠ (u : Int) := by
    show (-1 : Int) ≠ (u : Int)
    omega
  obtain ⟨s1, h1, -, a1, b1, c1, -, -, e1, f1, t1, -⟩ :=
    schedule_start_result (b := b) (s := init_state)
      (by decide) hu hu8 (by decide) hi1
  rw [if_neg (by omega)] at e1 f1
  have c1' : s1.active_widget_type = ((0 : Nat) : Int) := c1
  have t1' : s1.loop_timers 0 = some 2000 := by
    have huP' : (b.led_widgets 0 u).period = 2000 := huP
    rw [t1, huP']
    rfl
  have hr1 : Reachable b s1 :=
    Reachable.step (Event.schedule 0 u) Reachable.init ⟨by decide, hu, hu8⟩ h1
  have g1 : LED_ACTIVE_WIDGET_GET b s1 0 = some (b.led_widgets 0 u) :=
    get_of_slot (by decide) hu (by rw [a1, Function.update_same])
  have hs1_1 : s1.active_widgets_ind 1 = -1 := by
    rw [a1, Function.update_noteq (by decide)]; rfl
  -- battery's request preempts
  have hst : widget_is_status (b.led_widgets 2 v) = false := by
    simp [widget_is_status, hvl']
  have h2 := schedule_preempt_eq (b := b) (s := s1)
    (by decide) hv hv8 c1' (by decide) (by rw [e1]; decide) g1 hst (by rw [hup', hvp']; decide)
  have hr2 : Reachable b _ :=
    Reachable.step (Event.schedule 2 v) hr1 ⟨by decide, hv, hv8⟩ h2
  generalize hs2 : led_widget_pause b
    { set_pending s1 2 v with active_widget_type := ((2 : Nat) : Int) } = s2 at h2 hr2
  have st2 : s2.state = LED_STATE_PAUSE := by rw [← hs2]; rfl
  have ac2 : s2.active_widget_type = ((2 : Nat) : Int) := by rw [← hs2]; rfl
  have dk2 : outputs_dark b s2 := by
    rw [← hs2]; exact fun p hp => leds_off_all_zero b _ p hp
  have sl2_2 : s2.active_widgets_ind 2 = (v : Int) := by
    rw [← hs2]; exact set_pending_slot_same s1 2 v hv8
  have sl2_0 : s2.active_widgets_ind 0 = (u : Int) := by
    rw [← hs2]
    show (set_pending s1 2 v).active_widgets_ind 0 = _
    rw [set_pending_slot_ne s1 2 v 0 (by decide), a1, Function.update_same]
  have sl2_1 : s2.active_widgets_ind 1 = -1 := by
    rw [← hs2]
    show (set_pending s1 2 v).active_widgets_ind 1 = _
    rw [set_pending_slot_ne s1 2 v 1 (by decide)]; exact hs1_1
  -- battery's step 0
  have g2 : LED_ACTIVE_WIDGET_GET b s2 2 = some (b.led_widgets 2 v) :=
    get_of_slot (by decide) hv sl2_2
  obtain ⟨s3, h3, a3, -, c3, -, -, e3, f3, t3, -⟩ :=
    run_widget_cmd_result g2 (show 0 < 10 by omega)
  rw [if_neg (by omega)] at e3 f3
  have t3' : s3.loop_timers 2 = none := by
    have hvP' : (b.led_widgets 2 v).period = 0 := hvP
    rw [t3, if_pos rfl, hvP']
    simp [loop_timer_step0]
  have h3' : led_widget_work_cb b s2 = some s3 := by rw [work_cb_pause_eq st2 ac2, h3]
  have hr3 : Reachable b s3 := Reachable.step Event.work_expiry hr2 trivial h3'
  -- battery's step 1
  have g3 : LED_ACTIVE_WIDGET_GET b (led_off_all b s3) 2 = some (b.led_widgets 2 v) :=
    get_of_slot (by decide) hv (by
      show s3.active_widgets_ind 2 = _
      rw [a3]; exact sl2_2)
  obtain ⟨s4, h4, a4, -, c4, -, -, e4, f4, -, -⟩ :=
    run_widget_cmd_result g3 (show 1 < 10 by omega)
  rw [if_neg (by omega)] at e4 f4
  have h4' : led_widget_work_cb b s3 = some s4 := by
    rw [work_cb_active_eq e3 c3, f3]; exact h4
  have hr4 : Reachable b s4 := Reachable.step Event.work_expiry hr3 trivial h4'
  -- battery's step 2, the last one
  have a4' : s4.active_widgets_ind = s2.active_widgets_ind := by rw [a4]; exact a3
  have g4 : LED_ACTIVE_WIDGET_GET b (led_off_all b s4) 2 = some (b.led_widgets 2 v) :=
    get_of_slot (by decide) hv (by
      show s4.active_widgets_ind 2 = _
      rw [a4']; exact sl2_2)
  obtain ⟨s5, h5, a5, -, c5, d5, -, e5, -, -, -⟩ :=
    run_widget_cmd_result g4 (show 2 < 10 by omega)
  rw [if_pos (by omega)] at e5
  have h5' : led_widget_work_cb b s4 = some s5 := by
    rw [work_cb_active_eq e4 c4, f4]; exact h5
  have hr5 : Reachable b s5 := Reachable.step Event.work_expiry hr4 trivial h5'
  have a5' : s5.active_widgets_ind = s2.active_widgets_ind := by
    rw [a5]; exact a4'
  -- the idle handler
  have hinv5 := reachable_inv hr5
  obtain ⟨s6, h6⟩ := work_cb_idle_some hinv5 e5
  have hr6 : Reachable b s6 := Reachable.step Event.work_expiry hr5 trivial h6
  have hsl6 : s6.active_widgets_ind = Function.update s5.active_widgets_ind 2 (-1) ∧
      s6.last_widgets_ind 2 = (v : Int) := by
    rcases work_cb_idle_slots hinv5 e5 h6 with ⟨hneg, -, -⟩ | ⟨-, -, x1, x2⟩
    · rw [c5] at hneg
      exact absurd hneg (by decide)
    · rw [c5] at x1 x2
      refine ⟨x1, ?_⟩
      rw [x2]
      show Function.update s5.last_widgets_ind 2 (s5.active_widgets_ind 2) 2 = _
      rw [Function.update_same, a5']
      exact sl2_2
  have sl6_0 : s6.active_widgets_ind 0 = (u : Int) := by
    rw [hsl6.1, Function.update_noteq (by decide), a5']; exact sl2_0
  have sl6_1 : s6.active_widgets_ind 1 = -1 := by
    rw [hsl6.1, Function.update_noteq (by decide), a5']; exact sl2_1
  have sl6_2 : s6.active_widgets_ind 2 = -1 := by
    rw [hsl6.1, Function.update_same]
  have g6 : LED_ACTIVE_WIDGET_GET b s6 0 = some (b.led_widgets 0 u) :=
    get_of_slot (by decide) hu sl6_0
  obtain ⟨st6, -, a, wa, ha, ha3, hane, -, -⟩ :=
    (work_cb_idle_selects e5 h6).1
      ⟨0, _, by decide, by rw [sl6_0]; omega, g6, by rw [hup']; decide⟩
  have ha0 : a = 0 := by
    have ha3' : a < 3 := ha3
    rcases a with _ | _ | _ | a
    · rfl
    · exact absurd sl6_1 hane
    · exact absurd sl6_2 hane
    · omega
  subst ha0
  obtain ⟨_, _, -, -, -, -, -, dk6, -⟩ := work_cb_idle_spec e5 h6
  -- USB's step 0 again
  obtain ⟨s7, h7, -, -, c7, d7, -, e7, f7, -, -⟩ :=
    run_widget_cmd_result g6 (show 0 < 10 by omega)
  rw [if_neg (by omega)] at e7 f7
  have h7' : led_widget_work_cb b s6 = some s7 := by rw [work_cb_pause_eq st6 ha, h7]
  exact ⟨s1, s2, s3, s4, s5, s6, s7,
    ⟨h1, e1, c1, f1, t1'⟩, ⟨h2, st2, ac2, dk2⟩, ⟨h3', e3, c3, f3, t3'⟩, ⟨h4', e4, c4, f4⟩,
    ⟨h5', e5, c5, d5⟩, ⟨h6, sl6_2, hsl6.2, sl6_0, st6, ha, dk6⟩, ⟨h7', e7, c7, f7, d7⟩⟩

/-- Instance of C13 on the example board, whose USB selector 0 and battery
selector 1 are such patterns. -/
theorem preempt_and_resume_witness :
    ∃ s1 s2 s3 s4 s5 s6 s7 : State,
      (led_widget_schedule demo_board init_state LED_EVENT_USB 0 = some s1 ∧
        s1.state = LED_STATE_ACTIVE ∧ s1.active_widget_type = 0 ∧ s1.led_cmd_ind = 0 ∧
        s1.loop_timers LED_EVENT_USB = some 2000) ∧
      (led_widget_schedule demo_board s1 LED_EVENT_BATTERY 1 = some s2 ∧
        s2.state = LED_STATE_PAUSE ∧ s2.active_widget_type = 2 ∧ outputs_dark demo_board s2) ∧
      (led_widget_work_cb demo_board s2 = some s3 ∧
        s3.state = LED_STATE_ACTIVE ∧ s3.active_widget_type = 2 ∧ s3.led_cmd_ind = 0 ∧
        s3.loop_timers LED_EVENT_BATTERY = none) ∧
      (led_widget_work_cb demo_board s3 = some s4 ∧
        s4.state = LED_STATE_ACTIVE ∧ s4.active_widget_type = 2 ∧ s4.led_cmd_ind = 1) ∧
      (led_widget_work_cb demo_board s4 = some s5 ∧
        s5.state = LED_STATE_IDLE ∧ s5.active_widget_type = 2 ∧
        s5.leds = leds_set_cmd demo_board
          ((demo_board.led_widgets LED_EVENT_BATTERY 1).commands.getD 2 led_cmd_zero)
          (leds_off_all demo_board s4.leds)) ∧
      (led_widget_work_cb demo_board s5 = some s6 ∧
        s6.active_widgets_ind LED_EVENT_BATTERY = -1 ∧
        s6.last_widgets_ind LED_EVENT_BATTERY = ((1 : Nat) : Int) ∧
        s6.active_widgets_ind LED_EVENT_USB = ((0 : Nat) : Int) ∧
        s6.state = LED_STATE_PAUSE ∧ s6.active_widget_type = 0 ∧ outputs_dark demo_board s6) ∧
      (led_widget_work_cb demo_board s6 = some s7 ∧
        s7.state = LED_STATE_ACTIVE ∧ s7.active_widget_type = 0 ∧ s7.led_cmd_ind = 0 ∧
        s7.leds = leds_set_cmd demo_board
          ((demo_board.led_widgets LED_EVENT_USB 0).commands.getD 0 led_cmd_zero) s6.leds) :=
  preempt_and_resume demo_board 0 1 (by decide) (by decide) (by decide) (by decide)
    rfl rfl rfl rfl rfl rfl

/-! ## The period of a running loop timer -/

/-- What one tracked event does to the loop timers and to the records. -/
theorem track_spec {b : Board} {x x' : Tracked} {e : Event} (h : track b x e = some x') :
    fire b x.st e = some x'.st ∧
    ((x'.st.loop_timers = x.st.loop_timers ∧
        x'.st.loop_timer_started = x.st.loop_timer_started ∧
        x'.recent = x.recent ∧ x'.origin = x.origin) ∨
      (∃ (c : Nat) (w : led_widget_t),
        x'.st.loop_timers = (loop_timer_step0 x.st c w.period).loop_timers ∧
        x'.st.loop_timer_started = (loop_timer_step0 x.st c w.period).loop_timer_started ∧
        x'.recent = Function.update x.recent c (some w.period) ∧
        x'.origin = (if x.st.loop_timer_started c = true then x.origin
          else Function.update x.origin c (some w.period)))) := by
  unfold track at h
  cases hf : fire b x.st e with
  | none => simp [hf] at h
  | some s' =>
    simp only [hf] at h
    rcases fire_cases hf with ⟨hn, t1, t2, -⟩ | ⟨t, c, i, hc, hrun, t1, t2, -, -⟩
    · simp only [hn, Option.some.injEq] at h
      subst h
      exact ⟨rfl, Or.inl ⟨t1, t2, rfl, rfl⟩⟩
    · obtain ⟨w, cmd, hg, -, -, -, -, -, -, -, -, r8, r9⟩ := run_widget_cmd_spec hrun
      simp only [hc, hg] at h
      by_cases hi : i = 0
      · rw [if_pos hi, Option.some.injEq] at h
        subst h
        refine ⟨rfl, Or.inr ⟨c, w, ?_, ?_, rfl, ?_⟩⟩
        · show s'.loop_timers = _
          rw [r8, if_pos hi]
          exact (loop_timer_step0_congr c w.period t1 t2).1
        · show s'.loop_timer_started = _
          rw [r9, if_pos hi]
          exact (loop_timer_step0_congr c w.period t1 t2).2
        · show (if t.loop_timer_started c = true then x.origin else _) = _
          rw [t2]
      · rw [if_neg hi, Option.some.injEq] at h
        subst h
        refine ⟨rfl, Or.inl ⟨?_, ?_, rfl, rfl⟩⟩
        · show s'.loop_timers = _
          rw [r8, if_neg hi]; exact t1
        · show s'.loop_timer_started = _
          rw [r9, if_neg hi]; exact t2

/-- The records of a tracked state and its loop timers: a running timer has the
period recorded in `origin`, that period is positive, the most recent step 0 of
the class was that of a pattern with a positive period, and the flag
`loop_timer_started` is true exactly for the running timers. -/
theorem tracked_inv {b : Board} {x : Tracked} (h : TrackedReachable b x) (c : Nat) :
    (∀ P, x.st.loop_timers c = some P →
      x.origin c = some P ∧ 0 < P ∧ ∃ P', x.recent c = some P' ∧ 0 < P') ∧
    (x.st.loop_timer_started c = true ↔ (x.st.loop_timers c).isSome = true) := by
  induction h generalizing c with
  | init => exact ⟨fun P hP => Option.noConfusion hP, ⟨fun hh => Bool.noConfusion hh, fun hh => Bool.noConfusion hh⟩⟩
  | @step x x' e _ _ ht ih =>
    obtain ⟨-, hsame | ⟨c0, w, t1, t2, g1, g2⟩⟩ := track_spec ht
    · obtain ⟨t1, t2, g1, g2⟩ := hsame
      rw [t1, t2, g1, g2]
      exact ih c
    · rw [t1, t2, g1, g2]
      by_cases hc : c = c0
      · subst hc
        by_cases hP : 0 < w.period
        · cases hflag : x.st.loop_timer_started c with
          | false =>
            simp only [loop_timer_step0, hP, hflag, if_true, Bool.not_false,
              Function.update_same, Option.some.injEq, Option.isSome_some, iff_true]
            refine ⟨fun P hPeq => ?_, trivial⟩
            subst hPeq
            simp only [Bool.false_eq_true, if_false, Function.update_same]
            exact ⟨trivial, hP, w.period, rfl, hP⟩
          | true =>
            simp only [loop_timer_step0, hP, hflag, if_true, Bool.not_true, Bool.false_eq_true,
              if_false, Function.update_same]
            refine ⟨fun P hPeq => ?_, ?_⟩
            · obtain ⟨i1, i2, -⟩ := (ih c).1 P hPeq
              exact ⟨i1, i2, w.period, rfl, hP⟩
            · exact ⟨fun _ => (ih c).2.1 hflag, fun _ => trivial⟩
        · simp only [loop_timer_step0, hP, if_false, Function.update_same]
          exact ⟨fun P hPeq => Option.noConfusion hPeq, by decide⟩
      · have hne : c ≠ c0 := hc
        have k1 : (loop_timer_step0 x.st c0 w.period).loop_timers c = x.st.loop_timers c := by
          unfold loop_timer_step0
          split
          · split
            · exact Function.update_noteq hne _ _
            · rfl
          · exact Function.update_noteq hne _ _
        have k2 : (loop_timer_step0 x.st c0 w.period).loop_timer_started c
            = x.st.loop_timer_started c := by
          unfold loop_timer_step0
          split
          · split
            · exact Function.update_noteq hne _ _
            · rfl
          · exact Function.update_noteq hne _ _
        have k3 : (if x.st.loop_timer_started c0 = true then x.origin
            else Function.update x.origin c0 (some w.period)) c = x.origin c := by
          split
          · rfl
          · exact Function.update_noteq hne _ _
        rw [k1, k2, k3, Function.update_noteq hne]
        exact ih c

theorem tracked_reachable_events {b : Board} :
    ∀ (es : List Event) (x x' : Tracked), TrackedReachable b x →
      (∀ e, e ∈ es → valid_event b e) → track_events b x es = some x' →
      TrackedReachable b x' := by
  intro es
  induction es with
  | nil =>
    intro x x' hr _ h
    cases h
    exact hr
  | cons e es ih =>
    intro x x' hr hv h
    unfold track_events at h
    rw [List.foldlM_cons] at h
    cases hf : track b x e with
    | none => simp [hf] at h
    | some x1 =>
      simp only [hf, Option.some_bind, Option.bind_eq_bind] at h
      exact ih x1 x' (TrackedReachable.step e hr (hv e (by simp)) hf)
        (fun e' he' => hv e' (List.mem_cons_of_mem _ he')) h

theorem demo_period_kept_reachable : TrackedReachable demo_loop_board demo_period_kept := by
  refine tracked_reachable_events demo_period_run tracked_init _ TrackedReachable.init ?_ rfl
  intro e he
  simp only [demo_period_run, List.mem_cons, List.mem_singleton, List.mem_nil_iff,
    or_false] at he
  rcases he with rfl | rfl | rfl | rfl
  · exact ⟨by decide, by decide, by decide⟩
  · exact trivial
  · exact trivial
  · exact ⟨by decide, by decide, by decide⟩

/-- C15, as amended. In every state reachable by requests with valid selectors,
step-timer expiries and loop-timer expiries, the period of a class's running
loop timer is the period of the pattern whose step 0 was most recently run for
that class while `loop_timer_started` was false (the run that started the
timer), and it is positive; the pattern whose step 0 was most recently run for
the class has a positive period as well, and the flag of the class is true. -/
theorem loop_timer_period_origin (b : Board) (x : Tracked) (c P : Nat)
    (h : TrackedReachable b x) (hrun : x.st.loop_timers c = some P) :
    x.origin c = some P ∧ 0 < P ∧ (∃ P', x.recent c = some P' ∧ 0 < P') ∧
      x.st.loop_timer_started c = true := by
  obtain ⟨h1, h2⟩ := tracked_inv h c
  obtain ⟨i1, i2, i3⟩ := h1 P hrun
  exact ⟨i1, i2, i3, h2.2 (by rw [hrun]; rfl)⟩

/-- Instance of the amended C15 on the second example board. -/
theorem loop_timer_period_origin_witness :
    demo_period_kept.origin 0 = some 2000 ∧ 0 < 2000 ∧
      (∃ P', demo_period_kept.recent 0 = some P' ∧ 0 < P') ∧
      demo_period_kept.st.loop_timer_started 0 = true :=
  loop_timer_period_origin demo_loop_board demo_period_kept 0 2000
    demo_period_kept_reachable (by decide)

/-- C15 fails as stated: on the second example board USB plays its selector 0
(period 2000) to the end and then requests its selector 1 (period 1000); step 0
of selector 1 runs, the loop timer is not restarted, and it keeps running with
period 2000 while the pattern whose step 0 was most recently run has period
1000. -/
theorem loop_timer_period_counterexample :
    TrackedReachable demo_loop_board demo_period_kept ∧
    demo_period_kept.st.loop_timers 0 = some 2000 ∧
    demo_period_kept.recent 0 = some 1000 ∧
    demo_period_kept.st.active_widgets_ind 0 = 1 ∧
    (demo_loop_board.led_widgets 0 1).period = 1000 :=
  ⟨demo_period_kept_reachable, by decide, by decide, by decide, rfl⟩

/-! ## A looping pattern left alone -/

/-- At the wired positions the brightness loop leaves nothing of the old
brightness. -/
theorem leds_set_cmd_mapped (b : Board) (cmd : led_cmd_t) (l1 l2 : Nat → Nat) (p : Nat)
    (hp : p < b.NUM_LEDS) :
    leds_set_cmd b cmd l1 (b.led_index_by_key p) = leds_set_cmd b cmd l2 (b.led_index_by_key p) := by
  unfold leds_set_cmd
  generalize b.NUM_LEDS = n at hp
  induction n with
  | zero => omega
  | succ n ih =>
    rw [leds_set_cmd_succ, leds_set_cmd_succ]
    by_cases hx : b.led_index_by_key p = b.led_index_by_key n
    · rw [hx, Function.update_same, Function.update_same]
    · rw [Function.update_noteq hx, Function.update_noteq hx]
      by_cases hpn : p = n
      · exact absurd (hpn ▸ rfl) hx
      · exact ih (by omega)

theorem expire_armed_idle (b : Board) (fuel seen : Nat) (s : State)
    (h : ¬ seen < s.led_widget_work.length) : expire_armed b fuel seen s = some s := by
  cases fuel with
  | zero => simp only [expire_armed, if_neg h]
  | succ f => simp only [expire_armed, if_neg h]

/-- The first request of a looping pattern in the initial state. -/
theorem playing_first {b : Board} {c widget : Nat}
    (hc : c < LED_EVENT_SIZE) (hw : widget < b.MAX_WIDGET_NUM) (hw8 : widget < 128)
    (hP : 0 < (b.led_widgets c widget).period)
    (ht : 0 < ((b.led_widgets c widget).commands.getD 0 led_cmd_zero).timeout) :
    ∃ t0, led_widget_schedule b init_state c widget = some t0 ∧ playing b c widget 0 t0 ∧
      t0.leds = leds_set_cmd b ((b.led_widgets c widget).commands.getD 0 led_cmd_zero)
        init_state.leds ∧
      init_state.led_widget_work.length < t0.led_widget_work.length ∧ Reachable b t0 := by
  have hi : init_state.active_widgets_ind c ≠ (widget : Int) := by
    show (-1 : Int) ≠ (widget : Int)
    omega
  obtain ⟨t0, h1, -, a1, -, c1, d1, w1, e1, f1, t1, u1⟩ :=
    schedule_start_result (b := b) (s := init_state) hc hw hw8 (by decide) hi
  refine ⟨t0, h1, ⟨c1, ?_, ?_, e1, ?_, ?_, ?_⟩, d1, ?_,
    Reachable.step (Event.schedule c widget) Reachable.init ⟨hc, hw, hw8⟩ h1⟩
  · rw [a1, Function.update_same]
  · intro c' hc'
    rw [a1, Function.update_noteq hc']
    rfl
  · intro hn
    rw [f1, if_neg hn]
  · rw [t1]
    simp [loop_timer_step0, hP, init_state]
  · rw [u1]
    simp [loop_timer_step0, hP, init_state]
  · rw [w1, if_pos ht]
    simp

/-- One step-timer expiry while the pattern is not at its last command. -/
theorem playing_advance {b : Board} {c widget k : Nat} {t : State}
    (hc : c < LED_EVENT_SIZE) (hw : widget < b.MAX_WIDGET_NUM)
    (hk : k + 1 < (b.led_widgets c widget).cmd_len) (hn : (b.led_widgets c widget).cmd_len ≤ 10)
    (ht : 0 < ((b.led_widgets c widget).commands.getD (k + 1) led_cmd_zero).timeout)
    (hr : Reachable b t) (hpl : playing b c widget k t) :
    ∃ t', led_widget_work_cb b t = some t' ∧ playing b c widget (k + 1) t' ∧
      t.led_widget_work.length < t'.led_widget_work.length ∧ Reachable b t' := by
  obtain ⟨p1, p2, p3, p4, p5, p6, p7⟩ := hpl
  rw [if_neg (by omega)] at p4
  have p5' := p5 (by omega)
  have hg : LED_ACTIVE_WIDGET_GET b (led_off_all b t) c = some (b.led_widgets c widget) :=
    get_of_slot hc hw p2
  obtain ⟨t', h1, a1, -, c1, -, w1, e1, f1, t1, u1⟩ :=
    run_widget_cmd_result hg (show k + 1 < 10 by omega)
  have hmod : (t.led_cmd_ind + 1) % 256 = k + 1 := by
    rw [p5']; exact Nat.mod_eq_of_lt (by omega)
  have h1' : led_widget_work_cb b t = some t' := by
    rw [work_cb_active_eq p4 p1, hmod]; exact h1
  refine ⟨t', h1', ⟨c1, ?_, ?_, e1, ?_, ?_, ?_⟩, ?_,
    Reachable.step Event.work_expiry hr trivial h1'⟩
  · rw [a1]; exact p2
  · intro c' hc'
    rw [a1]; exact p3 c' hc'
  · intro hne
    rw [f1, if_neg hne]
  · rw [t1, if_neg (by omega)]; exact p6
  · rw [u1, if_neg (by omega)]; exact p7
  · rw [w1, if_pos ht]
    show t.led_widget_work.length < (_ :: t.led_widget_work).length
    simp

/-- The step-timer expiry after the last command: the idle handler finds nothing
pending. -/
theorem playing_finish {b : Board} {c widget k : Nat} {t : State}
    (hk : k + 1 = (b.led_widgets c widget).cmd_len)
    (hr : Reachable b t) (hpl : playing b c widget k t) :
    ∃ r, led_widget_work_cb b t = some r ∧ resting b c widget r ∧
      r.led_widget_work.length = t.led_widget_work.length ∧ Reachable b r := by
  obtain ⟨p1, p2, p3, p4, -, p6, p7⟩ := hpl
  rw [if_pos hk.symm] at p4
  have hinv := reachable_inv hr
  obtain ⟨r, h1⟩ := work_cb_idle_some hinv p4
  have h0 : (0 : Int) ≤ t.active_widget_type := by rw [p1]; exact Int.ofNat_nonneg c
  have hslots : r.active_widgets_ind = Function.update t.active_widgets_ind c (-1) ∧
      r.last_widgets_ind c = (widget : Int) := by
    rcases work_cb_idle_slots hinv p4 h1 with ⟨hneg, -, -⟩ | ⟨-, -, x1, x2⟩
    · omega
    · rw [toNat_of_eq_cast p1] at x1 x2
      exact ⟨x1, by rw [x2, Function.update_same]; exact p2⟩
  have hall : ∀ c', r.active_widgets_ind c' = -1 := by
    intro c'
    rw [hslots.1]
    by_cases hc' : c' = c
    · rw [hc', Function.update_same]
    · rw [Function.update_noteq hc']; exact p3 c' hc'
  obtain ⟨q1, q2, q3⟩ := (work_cb_idle_selects p4 h1).2
    (fun i w _ hne _ => absurd (hall i) hne)
  obtain ⟨f1, f2, -⟩ := work_cb_idle_frame p4 h1
  obtain ⟨_, _, -, -, -, -, -, dk, -⟩ := work_cb_idle_spec p4 h1
  exact ⟨r, h1, ⟨q1, q2, hall, hslots.2, by rw [f1]; exact p6, by rw [f2]; exact p7, dk⟩,
    by rw [q3], Reachable.step Event.work_expiry hr trivial h1⟩

/-- With the step timer expiring each time it has been requested, a pattern whose
commands all have a timeout runs to its end and is cleared by the idle handler. -/
theorem playing_drain {b : Board} {c widget : Nat}
    (hc : c < LED_EVENT_SIZE) (hw : widget < b.MAX_WIDGET_NUM)
    (hn : (b.led_widgets c widget).cmd_len ≤ 10)
    (ht : ∀ i, i < (b.led_widgets c widget).cmd_len →
      0 < ((b.led_widgets c widget).commands.getD i led_cmd_zero).timeout) :
    ∀ (m k fuel seen : Nat) (t : State), k + 1 + m = (b.led_widgets c widget).cmd_len →
      m + 1 ≤ fuel → Reachable b t → playing b c widget k t →
      seen < t.led_widget_work.length →
      ∃ r, expire_armed b fuel seen t = some r ∧ resting b c widget r ∧ Reachable b r := by
  intro m
  induction m with
  | zero =>
    intro k fuel seen t hk hf hr hpl hseen
    obtain ⟨r, h1, hrest, hlen, hr'⟩ := playing_finish (by omega) hr hpl
    obtain ⟨f, rfl⟩ : ∃ f, fuel = f + 1 := ⟨fuel - 1, by omega⟩
    refine ⟨r, ?_, hrest, hr'⟩
    simp only [expire_armed, if_pos hseen, h1]
    exact expire_armed_idle b f _ r (by omega)
  | succ m ih =>
    intro k fuel seen t hk hf hr hpl hseen
    obtain ⟨t', h1, hpl', hlen, hr'⟩ :=
      playing_advance hc hw (by omega) hn (ht (k + 1) (by omega)) hr hpl
    obtain ⟨f, rfl⟩ : ∃ f, fuel = f + 1 := ⟨fuel - 1, by omega⟩
    obtain ⟨r, h2, hrest, hr''⟩ :=
      ih (k + 1) f t.led_widget_work.length t' (by omega) (by omega) hr' hpl' hlen
    exact ⟨r, by simp only [expire_armed, if_pos hseen, h1, h2], hrest, hr''⟩

/-- The loop-timer expiry in the resting state runs step 0 of the last-shown
pattern again. -/
theorem resting_restart {b : Board} {c widget : Nat} {r : State}
    (hc : c < LED_EVENT_SIZE) (hw : widget < b.MAX_WIDGET_NUM) (hw8 : widget < 128)
    (hP : 0 < (b.led_widgets c widget).period)
    (ht : 0 < ((b.led_widgets c widget).commands.getD 0 led_cmd_zero).timeout)
    (hr : Reachable b r) (hrest : resting b c widget r) :
    ∃ t, loop_timer_handler b r c = some t ∧
      run_call b r (Event.loop_expiry c) = some (set_pending r c widget, c, 0) ∧
      playing b c widget 0 t ∧
      t.leds = leds_set_cmd b ((b.led_widgets c widget).commands.getD 0 led_cmd_zero) r.leds ∧
      r.led_widget_work.length < t.led_widget_work.length ∧ Reachable b t := by
  obtain ⟨q1, q2, q3, q4, q5, q6, -⟩ := hrest
  have hlast : 0 ≤ r.last_widgets_ind c := by rw [q4]; exact Int.ofNat_nonneg widget
  have htn : (r.last_widgets_ind c).toNat = widget := toNat_of_eq_cast q4
  have hslot : r.active_widgets_ind c ≠ (widget : Int) := by
    rw [q3 c]; omega
  have hneg : r.active_widget_type < 0 := by rw [q2]; decide
  obtain ⟨t, h1, -, a1, -, c1, d1, w1, e1, f1, t1, u1⟩ :=
    schedule_start_result (b := b) (s := r) hc hw hw8 hneg hslot
  have h1' : loop_timer_handler b r c = some t := by
    unfold loop_timer_handler
    rw [if_neg (by omega), if_pos hlast, htn]
    exact h1
  have hrc : run_call b r (Event.loop_expiry c) = some (set_pending r c widget, c, 0) := by
    have hn := same_status_of_not_noop (s := r) hc hw hw8 (not_noop_of_slot_ne hslot)
    have hact' : ¬ 0 ≤ (set_pending r c widget).active_widget_type := by
      show ¬ 0 ≤ r.active_widget_type
      omega
    simp only [run_call, if_neg (show ¬ LED_EVENT_SIZE ≤ c by omega), if_pos hlast, htn,
      schedule_run_call, hn, if_neg hact']
  refine ⟨t, h1', hrc, ⟨c1, ?_, ?_, e1, ?_, ?_, ?_⟩, d1, ?_,
    Reachable.step (Event.loop_expiry c) hr hc h1'⟩
  · rw [a1, Function.update_same]
  · intro c' hc'
    rw [a1, Function.update_noteq hc']
    exact q3 c'
  · intro hn
    rw [f1, if_neg hn]
  · rw [t1]
    simp [loop_timer_step0, hP, q6, q5]
  · rw [u1]
    simp [loop_timer_step0, hP, q6]
  · rw [w1, if_pos ht]
    show r.led_widget_work.length < (_ :: r.led_widget_work).length
    simp

theorem loop_rest_resting {b : Board} {c widget : Nat}
    (hc : c < LED_EVENT_SIZE) (hw : widget < b.MAX_WIDGET_NUM) (hw8 : widget < 128)
    (hP : 0 < (b.led_widgets c widget).period)
    (hn1 : 1 ≤ (b.led_widgets c widget).cmd_len) (hn : (b.led_widgets c widget).cmd_len ≤ 10)
    (ht : ∀ i, i < (b.led_widgets c widget).cmd_len →
      0 < ((b.led_widgets c widget).commands.getD i led_cmd_zero).timeout) (k : Nat) :
    ∃ r, loop_rest b c widget k = some r ∧ resting b c widget r ∧ Reachable b r := by
  induction k with
  | zero =>
    obtain ⟨t0, h0, hpl, -, hlen, hr⟩ := playing_first hc hw hw8 hP (ht 0 (by omega))
    obtain ⟨r, h1, hrest, hr'⟩ :=
      playing_drain hc hw hn ht ((b.led_widgets c widget).cmd_len - 1) 0 16
        init_state.led_widget_work.length t0 (by omega) (by omega) hr hpl hlen
    exact ⟨r, by simp only [loop_rest, h0, Option.some_bind, h1], hrest, hr'⟩
  | succ k ih =>
    obtain ⟨r, h0, hrest, hr⟩ := ih
    obtain ⟨t, h1, -, hpl, -, hlen, hr'⟩ :=
      resting_restart hc hw hw8 hP (ht 0 (by omega)) hr hrest
    obtain ⟨r', h2, hrest', hr''⟩ :=
      playing_drain hc hw hn ht ((b.led_widgets c widget).cmd_len - 1) 0 16
        r.led_widget_work.length t (by omega) (by omega) hr' hpl hlen
    exact ⟨r', by simp only [loop_rest, h0, Option.some_bind, h1, h2], hrest', hr''⟩

/-- C12, as amended. For a class `c` and a valid selector whose pattern has a
period above zero and between 1 and 10 commands, all of them, the last one
included, with a timeout above zero: after the request in the initial state,
with the step timer expiring each time it has been requested (the expiry after
the last command runs the idle handler) and nothing else requested, every
loop-timer expiry of `c` finds the scheduler idle and runs step 0 of the same
pattern again, with the same brightness at every position, the same scheduler
state, active class and step index as the first display, and the loop timer
still running with the pattern's period. -/
theorem loop_redisplays (b : Board) (c widget : Nat)
    (hc : c < LED_EVENT_SIZE) (hw : widget < b.MAX_WIDGET_NUM) (hw8 : widget < 128)
    (hP : 0 < (b.led_widgets c widget).period)
    (hn1 : 1 ≤ (b.led_widgets c widget).cmd_len) (hn : (b.led_widgets c widget).cmd_len ≤ 10)
    (ht : ∀ i, i < (b.led_widgets c widget).cmd_len →
      0 < ((b.led_widgets c widget).commands.getD i led_cmd_zero).timeout) :
    ∃ t0, led_widget_schedule b init_state c widget = some t0 ∧
      ∀ k, ∃ r t, loop_rest b c widget k = some r ∧ r.state = LED_STATE_IDLE ∧
        loop_timer_handler b r c = some t ∧
        run_call b r (Event.loop_expiry c) = some (set_pending r c widget, c, 0) ∧
        t.active_widgets_ind c = (widget : Int) ∧
        (∀ p, p < b.NUM_LEDS →
          t.leds (b.led_index_by_key p) = t0.leds (b.led_index_by_key p)) ∧
        t.state = t0.state ∧ t.active_widget_type = t0.active_widget_type ∧
        (t.state = LED_STATE_ACTIVE → t.led_cmd_ind = t0.led_cmd_ind) ∧
        t.loop_timers c = some (b.led_widgets c widget).period := by
  obtain ⟨t0, h0, hpl0, hl0, -, -⟩ := playing_first hc hw hw8 hP (ht 0 (by omega))
  refine ⟨t0, h0, fun k => ?_⟩
  obtain ⟨r, h1, hrest, hr⟩ := loop_rest_resting hc hw hw8 hP hn1 hn ht k
  obtain ⟨t, h2, hrc, hpl, hl, -, -⟩ := resting_restart hc hw hw8 hP (ht 0 (by omega)) hr hrest
  obtain ⟨p1, p2, -, p4, p5, p6, -⟩ := hpl
  obtain ⟨q1, -, -, q4, q5, -, -⟩ := hpl0
  refine ⟨r, t, h1, hrest.1, h2, hrc, p2, ?_, by rw [p4, q4], by rw [p1, q1], ?_, p6⟩
  · intro p hp
    rw [hl, hl0]
    exact leds_set_cmd_mapped b _ _ _ p hp
  · intro hact
    have hne : (b.led_widgets c widget).cmd_len ≠ 0 + 1 := by
      intro heq
      rw [p4, if_pos heq] at hact
      exact led_state_t.noConfusion hact
    rw [p5 hne, q5 hne]

/-- Instance of the amended C12 on the second example board: USB's selector 0,
two commands with timeout 200 and period 2000. -/
theorem loop_redisplays_witness :
    ∃ t0, led_widget_schedule demo_loop_board init_state 0 0 = some t0 ∧
      ∀ k, ∃ r t, loop_rest demo_loop_board 0 0 k = some r ∧ r.state = LED_STATE_IDLE ∧
        loop_timer_handler demo_loop_board r 0 = some t ∧
        run_call demo_loop_board r (Event.loop_expiry 0) = some (set_pending r 0 0, 0, 0) ∧
        t.active_widgets_ind 0 = ((0 : Nat) : Int) ∧
        (∀ p, p < demo_loop_board.NUM_LEDS →
          t.leds (demo_loop_board.led_index_by_key p)
            = t0.leds (demo_loop_board.led_index_by_key p)) ∧
        t.state = t0.state ∧ t.active_widget_type = t0.active_widget_type ∧
        (t.state = LED_STATE_ACTIVE → t.led_cmd_ind = t0.led_cmd_ind) ∧
        t.loop_timers 0 = some (demo_loop_board.led_widgets 0 0).period :=
  loop_redisplays demo_loop_board 0 0 (by decide) (by decide) (by decide) (by decide)
    (by decide) (by decide) (by
      intro i hi
      have hi' : i < 2 := hi
      rcases i with _ | _ | i
      · decide
      · decide
      · omega)

/-- C12 fails as stated for a pattern whose last command has timeout 0: on the
second example board USB requests its selector 2 (period 2000, two commands, the
second with timeout 0) in the initial state; the step timer expires once, the
last command runs, the scheduler is idle and no further expiry is requested, so
the idle handler never records the selector as last shown. The loop-timer expiry
then runs no command and returns the state unchanged: position 0 reads 0, not
the 100 of the first display, and the scheduler is idle, not active. -/
theorem loop_redisplays_counterexample :
    0 < (demo_loop_board.led_widgets 0 2).period ∧
    1 ≤ (demo_loop_board.led_widgets 0 2).cmd_len ∧
    led_widget_schedule demo_loop_board init_state 0 2 = some demo_unheld_first ∧
    loop_rest demo_loop_board 0 2 0 = some demo_unheld_rest ∧
    demo_unheld_rest.state = LED_STATE_IDLE ∧
    demo_unheld_rest.last_widgets_ind 0 = -1 ∧
    run_call demo_loop_board demo_unheld_rest (Event.loop_expiry 0) = none ∧
    loop_timer_handler demo_loop_board demo_unheld_rest 0 = some demo_unheld_rest ∧
    demo_unheld_first.leds (demo_loop_board.led_index_by_key 0) = 100 ∧
    demo_unheld_rest.leds (demo_loop_board.led_index_by_key 0) = 0 ∧
    demo_unheld_first.state = LED_STATE_ACTIVE :=
  ⟨by decide, by decide, rfl, rfl, by decide, by decide, rfl, rfl, by decide, by decide,
    by decide⟩

/-! ## Tracked and plain reachability -/

/-- Tracking adds records only: every reachable state is the state of a
reachable tracked state. -/
theorem tracked_of_reachable {b : Board} {s : State} (h : Reachable b s) :
    ∃ x, TrackedReachable b x ∧ x.st = s := by
  induction h with
  | init => exact ⟨tracked_init, TrackedReachable.init, rfl⟩
  | @step s s' e _ hv hf ih =>
    obtain ⟨x, hx, rfl⟩ := ih
    have : ∃ x', track b x e = some x' ∧ x'.st = s' := by
      unfold track
      simp only [hf]
      split
      · split
        · split
          · exact ⟨_, rfl, rfl⟩
          · exact ⟨_, rfl, rfl⟩
        · exact ⟨_, rfl, rfl⟩
      · exact ⟨_, rfl, rfl⟩
    obtain ⟨x', hx', hst⟩ := this
    exact ⟨x', TrackedReachable.step e hx hv hx', hst⟩

/-- In every reachable state the flag `loop_timer_started` of a class is true
exactly when its loop timer runs. -/
theorem reachable_timer_flag {b : Board} {s : State} (h : Reachable b s) (c : Nat) :
    s.loop_timer_started c = true ↔ (s.loop_timers c).isSome = true := by
  obtain ⟨x, hx, rfl⟩ := tracked_of_reachable h
  exact (tracked_inv hx c).2

end LedWidgets
